import Mathlib

/-!
# Keson spectral improver: coordination layer

A shallow embedding of the coordination code of the bot:

* `queue.js`: the bounded task queue (`createTaskQueue`, `runNext`, `add`);
* `downloader.js`: the retrieval with one degraded fallback (`downloadTrack`,
  `attemptDownload`, `pickAudioFile`, `isSoundCloudRateLimitError`) and the listing of a
  playlist (`fetchPlaylistTracks`);
* `bot.js`: the playlist session machine (`handlePlaylistRequest`, `enqueueNextTrack`, the
  `callback_query:data` handler, `sendPlaylistGroup`) and the job of one track
  (`handleDownloadJob`);
* `auth-store.js`: the debounced store of the authorized users and of the download count
  (`incrementDownloadCount`, `addAuthorizedUser`, `flushState`, the persistence passes,
  `loadDownloadCountFromDisk`);
* `utils.js`: the cut of a text to a maximal length (`truncate`).

JavaScript runs these on one thread: a synchronous block between two `await` points is
atomic, and the asynchronous behaviour is the interleaving of such blocks, given as a list
of operations.  A definition that spans an `await` on a call to Telegram or to the file
system takes the awaited call as done at once; where an event arriving during such a call
matters (the sends of `sendPlaylistGroup`), the definition is also given split at the
`await` (`sendPlaylistGroupEnters`, `sendPlaylistGroupResume`, `happen`).
-/

namespace Keson

/-! ## queue.js -/

namespace Queue

/-- A limit of the queue: `some n` is the finite number `n`, `none` is `Infinity`. -/
abbrev Limit := Option Int

/-- The comparison `x >= limit` of the source; nothing reaches `Infinity`. -/
def atLeast (x : Int) : Limit → Bool
  | none => false
  | some l => decide (l ≤ x)

/-- The two constants `limit` and `queueLimit` captured by the closures of `createTaskQueue`. -/
structure Limits where
  limit : Limit
  queueLimit : Limit
deriving DecidableEq, Repr

/-- What an observer of the queue sees happen, in order. -/
inductive QEvent (α : Type) where
  /-- The job was pushed on `queue` by `add`. -/
  | accepted (job : α)
  /-- The job was shifted from `queue` by `runNext` and its task scheduled. -/
  | started (job : α)
  /-- The promise of the job was resolved (`resolve(result)`). -/
  | resolved (job : α)
  /-- The promise of the job was rejected (`reject(error)`). -/
  | rejected (job : α)
deriving DecidableEq, Repr

/-- The mutable state of one queue: the variables `active` and `queue` of the source, the
promise chains that `runNext` created and that have not settled yet (`running`), and the
log of what happened so far. -/
structure QueueState (α : Type) where
  active : Int
  queue : List α
  running : List α
  trace : List (QEvent α)
deriving DecidableEq, Repr

/-- The value `add` returns: a promise already rejected with an error carrying `code`, or a
promise that stays pending until the job settles. -/
inductive AddResult where
  | rejectedWith (code : String) (message : String)
  | pending
deriving DecidableEq, Repr

/-- Lines 4 to 9 of `createTaskQueue`: a finite positive `desiredConcurrency` is the limit,
anything else means no limit; a finite non-negative `maxQueueSize` is the backlog limit,
anything else means no limit.  An argument is `some z` for the integer `z` and `none` for a
value that is not a finite number (`undefined`, `NaN`, `Infinity`). -/
def createLimits (desiredConcurrency : Option Int) (maxQueueSize : Option Int) : Limits :=
  { limit :=
      match desiredConcurrency with
      | some n => if 0 < n then some n else none
      | none => none
    queueLimit :=
      match maxQueueSize with
      | some b => if 0 ≤ b then some b else none
      | none => none }

/-- Lines 10 and 11 of `createTaskQueue`: `active = 0`, `queue = []`. -/
def initial (α : Type) : QueueState α :=
  { active := 0, queue := [], running := [], trace := [] }

/-- The function `createTaskQueue`: the captured limits and the fresh state. -/
def createTaskQueue (α : Type) (desiredConcurrency : Option Int) (maxQueueSize : Option Int) :
    Limits × QueueState α :=
  (createLimits desiredConcurrency maxQueueSize, initial α)

/-- The function `runNext`: nothing happens when `active >= limit` or the queue is empty;
otherwise the head is shifted, `active` grows by one and the task is scheduled. -/
def runNext {α : Type} (c : Limits) (s : QueueState α) : QueueState α :=
  if atLeast s.active c.limit || s.queue.length == 0 then s
  else
    match s.queue with
    | [] => s
    | job :: rest =>
      { active := s.active + 1
        queue := rest
        running := s.running ++ [job]
        trace := s.trace ++ [QEvent.started job] }

/-- The method `add`: a full backlog rejects with `QUEUE_FULL` and touches nothing; otherwise
the job is pushed and `runNext` is called. -/
def add {α : Type} (c : Limits) (task : α) (s : QueueState α) : AddResult × QueueState α :=
  if atLeast s.queue.length c.queueLimit then
    (AddResult.rejectedWith "QUEUE_FULL" "Download queue is full.", s)
  else
    (AddResult.pending,
      runNext c { s with queue := s.queue ++ [task], trace := s.trace ++ [QEvent.accepted task] })

/-- The handler `.then(result => ...)` of `runNext`, run when the task of `job` succeeded. -/
def onFulfilled {α : Type} [DecidableEq α] (c : Limits) (job : α) (s : QueueState α) :
    QueueState α :=
  runNext c
    { s with
      active := s.active - 1
      running := s.running.erase job
      trace := s.trace ++ [QEvent.resolved job] }

/-- The handler `.catch(error => ...)` of `runNext`, run when the task of `job` failed. -/
def onRejected {α : Type} [DecidableEq α] (c : Limits) (job : α) (s : QueueState α) :
    QueueState α :=
  runNext c
    { s with
      active := s.active - 1
      running := s.running.erase job
      trace := s.trace ++ [QEvent.rejected job] }

/-- One atomic block acting on the queue. -/
inductive QOp (α : Type) where
  /-- A call `add(task)`. -/
  | add (task : α)
  /-- The task of a running job succeeds. -/
  | succeed (job : α)
  /-- The task of a running job fails. -/
  | fail (job : α)
deriving DecidableEq, Repr

/-- The effect of one block; a completion can only happen for a job that is running. -/
def step {α : Type} [DecidableEq α] (c : Limits) (s : QueueState α) : QOp α → QueueState α
  | QOp.add task => (add c task s).2
  | QOp.succeed job => if job ∈ s.running then onFulfilled c job s else s
  | QOp.fail job => if job ∈ s.running then onRejected c job s else s

/-- The state after a sequence of blocks. -/
def run {α : Type} [DecidableEq α] (c : Limits) (s : QueueState α) (ops : List (QOp α)) :
    QueueState α :=
  ops.foldl (step c) s

/-- The state reached from a queue built by `createTaskQueue`. -/
def runFresh {α : Type} [DecidableEq α] (desiredConcurrency maxQueueSize : Option Int)
    (ops : List (QOp α)) : QueueState α :=
  run (createTaskQueue α desiredConcurrency maxQueueSize).1
    (createTaskQueue α desiredConcurrency maxQueueSize).2 ops

/-- The jobs accepted so far, in order. -/
def acceptedJobs {α : Type} : List (QEvent α) → List α
  | [] => []
  | QEvent.accepted j :: es => j :: acceptedJobs es
  | _ :: es => acceptedJobs es

/-- The jobs started so far, in order. -/
def startedJobs {α : Type} : List (QEvent α) → List α
  | [] => []
  | QEvent.started j :: es => j :: startedJobs es
  | _ :: es => startedJobs es

/-- The jobs whose promise was settled so far, in order. -/
def settledJobs {α : Type} : List (QEvent α) → List α
  | [] => []
  | QEvent.resolved j :: es => j :: settledJobs es
  | QEvent.rejected j :: es => j :: settledJobs es
  | _ :: es => settledJobs es

/-- The property `code` of the error a rejected promise carries, if the promise is rejected. -/
def AddResult.errorCode : AddResult → Option String
  | AddResult.rejectedWith code _ => some code
  | AddResult.pending => none

/-- Successive calls of `add`, one per task of the list, with no completion in between: the
values returned, in order, and the final state. -/
def submitAll {α : Type} (c : Limits) : QueueState α → List α → List AddResult × QueueState α
  | s, [] => ([], s)
  | s, task :: rest =>
    ((add c task s).1 :: (submitAll c (add c task s).2 rest).1,
      (submitAll c (add c task s).2 rest).2)

/-- The limits `createTaskQueue` can produce: a finite concurrency limit is positive, a
finite backlog limit is not negative. -/
structure Limits.WellFormed (c : Limits) : Prop where
  limit_pos : ∀ l, c.limit = some l → 0 < l
  queueLimit_nonneg : ∀ b, c.queueLimit = some b → 0 ≤ b

/-- The invariant of the queue: `active` counts the running jobs and stays within the limit,
the backlog stays within its limit, a job waits only when every slot is taken, the accepted
jobs are the started ones followed by the pending ones, and every started job is settled or
running. -/
structure Inv {α : Type} (c : Limits) (s : QueueState α) : Prop where
  active_eq : s.active = s.running.length
  active_le : ∀ l, c.limit = some l → s.active ≤ l
  queue_le : ∀ b, c.queueLimit = some b → (s.queue.length : Int) ≤ b
  busy : s.queue ≠ [] → c.limit = some s.active
  fifo : acceptedJobs s.trace = startedJobs s.trace ++ s.queue
  count : (startedJobs s.trace).length = (settledJobs s.trace).length + s.running.length

end Queue


/-! ## downloader.js -/

namespace Downloader

/-- An error value: the properties the code reads, each `none` when absent. -/
structure JsError where
  message : Option String := none
  stderr : Option String := none
  stdout : Option String := none
  userMessage : Option String := none
  code : Option String := none
deriving DecidableEq, Repr

/-- A file of a temporary directory: `path.join(tmpDir, name)`, the directory given by the
number that `mkdtemp` drew for it. -/
structure FilePath where
  dir : Nat
  name : String
deriving DecidableEq, Repr

/-- The options object `buildYtDlpOptions` returns; `addHeader` and `noCheckCertificates` are
`none` when they are `undefined`. -/
structure YtDlpOptions where
  output : Option FilePath
  format : String
  addHeader : Option (List String)
  noPlaylist : Bool
  retries : Nat
  noPart : Bool
  quiet : Bool
  addMetadata : Bool
  embedThumbnail : Bool
  convertThumbnails : String
  writeInfoJson : Bool
  noCheckCertificates : Option Bool
deriving DecidableEq, Repr

/-- What is outside the file: library functions, environment variables and the content of
files.  `readInfoJson p` is `JSON.parse(await fsp.readFile(p, 'utf8'))`, `none` when reading
or parsing throws; the parsed metadata is kept as text. -/
structure Env where
  toLowerCase : String → String
  extname : String → String
  readInfoJson : FilePath → Option String
  SOUNDCLOUD_OAUTH_TOKEN : Option String
  YT_DLP_SKIP_CERT_CHECK : Bool

/-- One run of the retrieval engine: the files it left in the output directory and the error
it threw, if any. -/
structure EngineRun where
  files : List String
  error : Option JsError
deriving DecidableEq, Repr

/-- The retrieval engine `ytdlp(url, opts)`. -/
abbrev YtDlp := String → YtDlpOptions → EngineRun

/-- The temporary directories that exist, the counter from which `mkdtemp` draws a name,
and the calls made to the engine so far. -/
structure World where
  dirs : List (Nat × List String)
  nextTmp : Nat
  calls : List (String × YtDlpOptions)
deriving DecidableEq, Repr

/-- The object `attemptDownload` returns; `rateLimited` is `none` until `downloadTrack`
sets it. -/
structure Download where
  tempDir : Nat
  path : FilePath
  filename : String
  metadata : Option String
  rateLimited : Option Bool
deriving DecidableEq, Repr

/-- The constant `INFO_SUFFIX` of config.js. -/
def INFO_SUFFIX : String := ".info.json"

/-- The constant `THUMB_EXTENSIONS` of config.js. -/
def THUMB_EXTENSIONS : List String := [".jpg", ".jpeg", ".png", ".webp"]

/-- The text `messages.missingAudioFile()`. -/
def missingAudioFile : String :=
  "SoundCloud did not provide an audio file for that link. Please try another track."

/-- The text `messages.opusOnlyMessage()`. -/
def opusOnlyMessage : String := "Impossible de DL en opus bb, trouve une autre version."

/-- The test `text.includes(marker)`. -/
def includes (text marker : String) : Bool :=
  decide (marker.data <:+: text.data)

/-- The test `file.endsWith(suffix)`. -/
def endsWith (file suffix : String) : Bool :=
  decide (suffix.data <:+ file.data)

/-- The filter `.filter(Boolean)` on values that are strings or absent: a non-empty string
is kept. -/
def truthy : Option String → Option String
  | some s => if s.data.isEmpty then none else some s
  | none => none

/-- The text `[error?.message, error?.stderr, error?.stdout].filter(Boolean).join('\n')`
before it is lower-cased; the argument is `none` for `null` or `undefined`. -/
def errorText (error : Option JsError) : String :=
  String.intercalate "\n"
    ([error.bind JsError.message, error.bind JsError.stderr,
      error.bind JsError.stdout].filterMap truthy)

/-- The function `isSoundCloudRateLimitError`. -/
def isSoundCloudRateLimitError (toLowerCase : String → String) (error : Option JsError) :
    Bool :=
  let text := toLowerCase (errorText error)
  if text.data.isEmpty then false
  else
    includes text "429" ||
    includes text "too many requests" ||
    includes text "rate limit" ||
    includes text "temporarily blocked"

/-- The four markers as the specification lists them. -/
def rateLimitMarkers : List String :=
  ["429", "too many requests", "rate limit", "temporarily blocked"]

/-- One part of the combined failure text of the specification: a text that is present and
not empty. -/
def presentText : Option String → List String
  | some text => if text = "" then [] else [text]
  | none => []

/-- Texts joined by line breaks, one text per line. -/
def joinLines : List String → String
  | [] => ""
  | [line] => line
  | line :: next :: rest => line ++ "\n" ++ joinLines (next :: rest)

/-- The combined failure text as the specification words it, written without the functions
of the classifier: the message of the error, its captured standard-error text and its
captured standard-output text, in this order, each left out when absent or empty, joined by
line breaks; an absent error has the empty text. -/
def combinedErrorText : Option JsError → String
  | none => ""
  | some error =>
    joinLines
      (presentText error.message ++ presentText error.stderr ++ presentText error.stdout)

/-- The classification as the specification words it: the lower-cased combined failure text
contains one of the four markers. -/
def MatchesRateLimitMarker (toLowerCase : String → String) (error : Option JsError) : Prop :=
  ∃ marker ∈ rateLimitMarkers, ∃ before after : List Char,
    (toLowerCase (combinedErrorText error)).data = before ++ marker.data ++ after

/-- The function `buildYtDlpOptions({ useOAuth, format })`; `format` is `none` when absent.
An empty token is falsy, like an absent one. -/
def buildYtDlpOptions (env : Env) (useOAuth : Bool) (format : Option String) : YtDlpOptions :=
  { output := none
    format :=
      match truthy format with
      | some f => f
      | none => "bestaudio[ext!=opus][acodec!=opus]/http_aac_1_0/bestaudio/best"
    addHeader :=
      match useOAuth, truthy env.SOUNDCLOUD_OAUTH_TOKEN with
      | true, some token => some ["Authorization: OAuth " ++ token]
      | _, _ => none
    noPlaylist := true
    retries := 3
    noPart := true
    quiet := true
    addMetadata := true
    embedThumbnail := true
    convertThumbnails := "jpg"
    writeInfoJson := true
    noCheckCertificates := if env.YT_DLP_SKIP_CERT_CHECK then some true else none }

/-- The format string of the fallback attempt in `downloadTrack`. -/
def fallbackFormat : String :=
  "bestaudio[abr<=192][acodec^=mp4a]/bestaudio[abr<=192][ext!=opus][acodec!=opus]/bestaudio"

/-- The call `fsp.mkdtemp`: a new empty directory under the next free name. -/
def mkdtemp (w : World) : Nat × World :=
  (w.nextTmp, { w with dirs := (w.nextTmp, []) :: w.dirs, nextTmp := w.nextTmp + 1 })

/-- The engine is run on `url` with `opts`: the call is logged and the files it leaves are
added to the directory `dir`. -/
def runEngine (ytdlp : YtDlp) (url : String) (opts : YtDlpOptions) (dir : Nat) (w : World) :
    Option JsError × World :=
  ((ytdlp url opts).error,
    { w with
      dirs := w.dirs.map (fun d => if d.1 = dir then (d.1, d.2 ++ (ytdlp url opts).files) else d)
      calls := w.calls ++ [(url, opts)] })

/-- The call `fsp.readdir(tmpDir)`. -/
def readdir (dir : Nat) (w : World) : List String :=
  match w.dirs.find? (fun d => d.1 == dir) with
  | some d => d.2
  | none => []

/-- The function `cleanupTempDir`: `fsp.rm(dir, { recursive: true, force: true })`. -/
def cleanupTempDir (dir : Nat) (w : World) : World :=
  { w with dirs := w.dirs.filter (fun d => d.1 != dir) }

/-- The loop of `pickAudioFile`: the path of the last file ending in `INFO_SUFFIX`, if any,
and the audio candidates in order. -/
def scanFiles (env : Env) (tmpDir : Nat) :
    List String → Option FilePath → List (String × FilePath) →
      Option FilePath × List (String × FilePath)
  | [], infoPath, audioCandidates => (infoPath, audioCandidates)
  | file :: rest, infoPath, audioCandidates =>
    if endsWith file INFO_SUFFIX then
      scanFiles env tmpDir rest (some { dir := tmpDir, name := file }) audioCandidates
    else if THUMB_EXTENSIONS.contains (env.toLowerCase (env.extname file))
        || env.toLowerCase (env.extname file) == ".opus" then
      scanFiles env tmpDir rest infoPath audioCandidates
    else
      scanFiles env tmpDir rest infoPath
        (audioCandidates ++ [(file, { dir := tmpDir, name := file })])

/-- The function `pickAudioFile`: the first audio candidate and the metadata, or the error
thrown when there is no candidate. -/
def pickAudioFile (env : Env) (tmpDir : Nat) (files : List String) :
    Except JsError ((String × FilePath) × Option String) :=
  match scanFiles env tmpDir files none [] with
  | (_, []) =>
    Except.error
      { message := some "Download finished but no audio file was located."
        userMessage := some opusOnlyMessage }
  | (infoPath, audioFile :: _) =>
    Except.ok (audioFile,
      match infoPath with
      | some p => env.readInfoJson p
      | none => none)

/-- The object `{ ...options, output: path.join(tmpDir, '%(title)s.%(ext)s') }`. -/
def withOutput (options : YtDlpOptions) (tmpDir : Nat) : YtDlpOptions :=
  { options with output := some { dir := tmpDir, name := "%(title)s.%(ext)s" } }

/-- The world of an attempt once the engine has run: the directory exists, holds the files
the engine left, and the call is logged. -/
def afterEngine (ytdlp : YtDlp) (url : String) (options : YtDlpOptions) (w : World) : World :=
  (runEngine ytdlp url (withOutput options (mkdtemp w).1) (mkdtemp w).1 (mkdtemp w).2).2

/-- The function `attemptDownload`, from the moment `mkdtemp` has succeeded. -/
def attemptDownload (env : Env) (ytdlp : YtDlp) (url : String) (options : YtDlpOptions)
    (w : World) : Except JsError Download × World :=
  let tmpDir := (mkdtemp w).1
  let opts := withOutput options tmpDir
  let w2 := (runEngine ytdlp url opts tmpDir (mkdtemp w).2).2
  match (runEngine ytdlp url opts tmpDir (mkdtemp w).2).1 with
  | some error => (Except.error error, cleanupTempDir tmpDir w2)
  | none =>
    if (readdir tmpDir w2).length == 0 then
      (Except.error
        { message := some "SoundCloud returned no downloadable audio for this link."
          userMessage := some missingAudioFile },
        cleanupTempDir tmpDir w2)
    else
      match pickAudioFile env tmpDir (readdir tmpDir w2) with
      | Except.error error => (Except.error error, cleanupTempDir tmpDir w2)
      | Except.ok (audioFile, metadata) =>
        (Except.ok
          { tempDir := tmpDir, path := audioFile.2, filename := audioFile.1,
            metadata := metadata, rateLimited := none },
          w2)

/-- The function `downloadTrack`; `getYtDlp` is the outcome of `await getYtDlp()`. -/
def downloadTrack (env : Env) (getYtDlp : Except JsError YtDlp) (url : String) (w : World) :
    Except JsError Download × World :=
  match getYtDlp with
  | Except.error error => (Except.error error, w)
  | Except.ok ytdlp =>
    match attemptDownload env ytdlp url (buildYtDlpOptions env true none) w with
    | (Except.ok result, w1) => (Except.ok result, w1)
    | (Except.error error, w1) =>
      if !isSoundCloudRateLimitError env.toLowerCase (some error) then (Except.error error, w1)
      else
        match attemptDownload env ytdlp url
            (buildYtDlpOptions env false (some fallbackFormat)) w1 with
        | (Except.ok result, w2) => (Except.ok { result with rateLimited := some true }, w2)
        | (Except.error error2, w2) => (Except.error error2, w2)

/-- The engine call of the primary attempt of `downloadTrack` started in `w`. -/
def primaryCall (env : Env) (url : String) (w : World) : String × YtDlpOptions :=
  (url, withOutput (buildYtDlpOptions env true none) w.nextTmp)

/-- The engine call of the fallback attempt of `downloadTrack` started in `w`; its
directory is the one drawn after that of the primary attempt. -/
def fallbackCall (env : Env) (url : String) (w : World) : String × YtDlpOptions :=
  (url, withOutput (buildYtDlpOptions env false (some fallbackFormat)) (w.nextTmp + 1))

/-- A lower-casing that agrees with `toLowerCase` on ASCII text. -/
def asciiLower (s : String) : String :=
  ⟨s.data.map Char.toLower⟩

/-- The extension of a file name without directory part: from its last dot, unless the
name has no dot or only a leading one. -/
def simpleExtname (file : String) : String :=
  match file.data.reverse.span (fun ch => ch != '.') with
  | (_, []) => ""
  | (_, [_]) => ""
  | (ext, dot :: _ :: _) => ⟨(dot :: ext.reverse)⟩

/-- A sample environment: ASCII lower-casing, a token, no metadata readable. -/
def sampleEnv : Env :=
  { toLowerCase := asciiLower
    extname := simpleExtname
    readInfoJson := fun _ => none
    SOUNDCLOUD_OAUTH_TOKEN := some "tok"
    YT_DLP_SKIP_CERT_CHECK := false }

/-- A fresh world: no temporary directory, no call made. -/
def emptyWorld : World :=
  { dirs := [], nextTmp := 0, calls := [] }

/-- A value that `JSON.parse` returns or that the engine hands over as an object; `null`
also stands for `undefined`, and a number, of which the code reads nothing, is taken to be
an integer.  An object is given by its properties, each key once. -/
inductive Json where
  | null
  | bool (value : Bool)
  | number (value : Int)
  | string (value : String)
  | array (items : List Json)
  | object (fields : List (String × Json))

/-- The options `fetchPlaylistTracks` passes to the engine. -/
structure PlaylistOptions where
  dumpSingleJson : Bool
  flatPlaylist : Bool
  skipDownload : Bool
  simulate : Bool
  playlistEnd : Int
  quiet : Bool
deriving DecidableEq, Repr

/-- What the engine resolves to when asked for a listing: a text (`typeof output ===
'string'`) or a value already parsed. -/
inductive EngineOutput where
  | text (raw : String)
  | value (parsed : Json)

/-- The engine `ytdlp(url, opts)` asked for a listing: the output it resolves to, or the
error it rejects with. -/
abbrev PlaylistEngine := String → PlaylistOptions → Except JsError EngineOutput

/-- The options object of `fetchPlaylistTracks(url, limit)`. -/
def playlistOptions (limit : Int) : PlaylistOptions :=
  { dumpSingleJson := true
    flatPlaylist := true
    skipDownload := true
    simulate := true
    playlistEnd := limit
    quiet := true }

/-- The test `parsed?.entries && Array.isArray(parsed.entries)`: the array under the key
`entries` of an object, `none` when the test fails. -/
def entriesOf (parsed : Json) : Option (List Json) :=
  match parsed with
  | Json.object fields =>
    match fields.lookup "entries" with
    | some (Json.array items) => some items
    | _ => none
  | _ => none

/-- The expression `entry?.url`: the property `url` of an object, `none` for `undefined`. -/
def urlOf (entry : Json) : Option Json :=
  match entry with
  | Json.object fields => fields.lookup "url"
  | _ => none

/-- The test `typeof u === 'string'`, giving the string when it holds. -/
def asString (u : Option Json) : Option String :=
  match u with
  | some (Json.string value) => some value
  | _ => none

/-- The expression `typeof output === 'string' ? JSON.parse(output) : output`; `parse` is
`JSON.parse`, which may throw. -/
def parseOutput (parse : String → Except JsError Json) : EngineOutput → Except JsError Json
  | EngineOutput.text raw => parse raw
  | EngineOutput.value parsed => Except.ok parsed

/-- The function `fetchPlaylistTracks(url, limit)`; `parse` is `JSON.parse` and `getYtDlp`
the outcome of `await getYtDlp()`, which is awaited before the `try`.  The warning logged in
the `catch` is left out. -/
def fetchPlaylistTracks (parse : String → Except JsError Json)
    (getYtDlp : Except JsError PlaylistEngine) (url : String) (limit : Int) :
    Except JsError (List String) :=
  match getYtDlp with
  | Except.error error => Except.error error
  | Except.ok ytdlp =>
    match ytdlp url (playlistOptions limit) with
    | Except.error _ => Except.ok []
    | Except.ok output =>
      match parseOutput parse output with
      | Except.error _ => Except.ok []
      | Except.ok parsed =>
        match entriesOf parsed with
        | some entries => Except.ok ((entries.map urlOf).filterMap asString)
        | none => Except.ok []

/-- The default value of the parameter `limit` of `fetchPlaylistTracks`. -/
def fetchPlaylistTracksDefaultLimit : Int := 100

/-- The entries whose `url` is a string, in order, with that string: the relation between an
array of entries and the list of its string-valued `url` fields. -/
inductive StringUrls : List Json → List String → Prop where
  | nil : StringUrls [] []
  | keep (fields : List (String × Json)) (u : String) (entries : List Json)
      (urls : List String) (hurl : fields.lookup "url" = some (Json.string u))
      (rest : StringUrls entries urls) :
      StringUrls (Json.object fields :: entries) (u :: urls)
  | skip (entry : Json) (entries : List Json) (urls : List String)
      (hnone : ∀ fields u, entry = Json.object fields →
        fields.lookup "url" ≠ some (Json.string u))
      (rest : StringUrls entries urls) :
      StringUrls (entry :: entries) urls

/-- A parser for examples that rejects every text. -/
def rejectingParse : String → Except JsError Json :=
  fun _ => Except.error { message := some "Unexpected token" }

/-- An engine for examples that ignores `playlistEnd`: it reports the entries `a`, an entry
with a numeric `url`, `null`, `b` and `c`, whatever the options. -/
def overlongListing : PlaylistEngine :=
  fun _ _ =>
    Except.ok (EngineOutput.value
      (Json.object
        [("title", Json.string "set"),
          ("entries",
            Json.array
              [Json.object [("url", Json.string "a")],
                Json.object [("url", Json.number 5)],
                Json.null,
                Json.object [("id", Json.number 1), ("url", Json.string "b")],
                Json.object [("url", Json.string "c")]])]))

end Downloader

/-! ## bot.js: the playlist session -/

namespace Bot

open Downloader (JsError Download FilePath)

/-- The constant `PLAYLIST_CHUNK_SIZE`. -/
def PLAYLIST_CHUNK_SIZE : Nat := 10

/-- The constant `PLAYLIST_MAX_ITEMS`. -/
def PLAYLIST_MAX_ITEMS : Nat := 100

/-- An element of `session.buffer`: `{ download, qualityInfo, size }`, of `qualityInfo` only
the warning text. -/
structure Item where
  download : Download
  qualityWarning : Option String
  size : Nat
deriving DecidableEq, Repr

/-- The session object built by `handlePlaylistRequest`. -/
structure Session where
  id : String
  userId : Nat
  tracks : List String
  nextIndex : Nat
  promptMessageId : Option Nat
  awaitingPrompt : Bool
  buffer : List Item
deriving DecidableEq, Repr

/-- The texts of messages.js the session sends, by the name of their function. -/
inductive Message where
  | playlistDetected (count chunkSize cap : Nat)
  | playlistNoEntries
  | playlistChunkPrompt (downloaded total chunkSize : Nat)
  | playlistDone
  | playlistStopped
  | premiumRateLimited
  | queueFull
  | genericError
  | fileTooLarge
  /-- A text carried by a value: `error.userMessage` or `qualityInfo.warning`. -/
  | text (value : String)
deriving DecidableEq, Repr

/-- The answers of the callback handler, by what they say. -/
inductive CallbackAnswer where
  | sessionExpired
  | notYourPlaylist
  | stopped
  | continuing
deriving DecidableEq, Repr

/-- What the bot does to the outside, in order. -/
inductive Effect where
  | reply (message : Message)
  /-- The chunk prompt: a reply with the buttons `pl:cont:<id>` and `pl:stop:<id>`. -/
  | replyWithButtons (message : Message) (sessionId : String)
  | replyWithDocument (path : FilePath) (filename : String)
  | answerCallbackQuery (answer : CallbackAnswer)
  | editMessageText (message : Message)
  /-- A call `downloadQueue.add(job)` with the job of this track. -/
  | queueAdd (trackUrl : String)
  | incrementDownloadCount
  | cleanupTempDir (dir : Nat)
  | notifyAdmins (error : JsError)
deriving DecidableEq, Repr

/-- One session as the bot holds it: the session object, which the closures of its jobs keep
even after it left `playlistSessions`; whether `playlistSessions` still maps its id to it; the
tracks given to `downloadQueue.add` whose promise is not settled, oldest first; and what was
done so far. -/
structure BotState where
  session : Session
  registered : Bool
  inFlight : List String
  effects : List Effect
deriving DecidableEq, Repr

/-- How the promise of `downloadQueue.add(job)` settles: the job ran and `handleDownloadJob`
returned a result or nothing, or the promise is rejected, by the queue (`QUEUE_FULL`, the job
never ran) or because `handleDownloadJob` threw. -/
inductive Settlement where
  | jobReturned (result : Option Item)
  | rejected (error : JsError)
deriving DecidableEq, Repr

/-- The function `shouldNotifyAdmin` on an error object. -/
def shouldNotifyAdmin (error : JsError) : Bool :=
  if (Downloader.truthy error.userMessage).isSome then false
  else if error.code == some "QUEUE_FULL" then false
  else true

/-- The function `formatUserFacingError` of utils.js. -/
def formatUserFacingError (error : JsError) : Message :=
  match Downloader.truthy error.userMessage with
  | some userMessage => Message.text userMessage
  | none => if error.code == some "QUEUE_FULL" then Message.queueFull else Message.genericError

/-- What `sendPlaylistGroup` does for one item of the buffer. -/
def deliverItem (item : Item) : List Effect :=
  (if item.download.rateLimited == some true then [Effect.reply Message.premiumRateLimited]
    else []) ++
  [Effect.replyWithDocument item.download.path item.download.filename] ++
  (match Downloader.truthy item.qualityWarning with
    | some warning => [Effect.reply (Message.text warning)]
    | none => []) ++
  [Effect.incrementDownloadCount, Effect.cleanupTempDir item.download.tempDir]

/-- The function `sendPlaylistGroup`: nothing without a registered session or with an empty
buffer; otherwise every buffered item is delivered, in order, and the buffer emptied. -/
def sendPlaylistGroup (st : BotState) : BotState :=
  if !st.registered || st.session.buffer.length == 0 then st
  else
    { st with
      session := { st.session with buffer := [] }
      effects := st.effects ++ (st.session.buffer.map deliverItem).flatten }

/-- The function `enqueueNextTrack(ctx, sessionId, force)` up to its `await downloadQueue.add`:
it returns at once without a registered session, finishes the session at the end of the
tracks, asks for a confirmation at a chunk boundary, and otherwise advances the cursor and
gives the track to the queue.  The `message_id` of the prompt, which Telegram chooses, is
taken to be the number of effects so far. -/
def enqueueNextTrack (force : Bool) (st : BotState) : BotState :=
  if !st.registered then st
  else if st.session.nextIndex ≥ st.session.tracks.length then
    let st1 := if st.session.buffer.length != 0 then sendPlaylistGroup st else st
    { st1 with effects := st1.effects ++ [Effect.reply Message.playlistDone], registered := false }
  else if !force && decide (st.session.nextIndex > 0)
      && st.session.nextIndex % PLAYLIST_CHUNK_SIZE == 0 then
    if st.session.awaitingPrompt then st
    else
      { st with
        session :=
          { st.session with
            promptMessageId := some st.effects.length
            awaitingPrompt := true }
        effects := st.effects ++
          [Effect.replyWithButtons
            (Message.playlistChunkPrompt st.session.nextIndex st.session.tracks.length
              PLAYLIST_CHUNK_SIZE)
            st.session.id] }
  else
    match st.session.tracks[st.session.nextIndex]? with
    | none => st
    | some trackUrl =>
      { st with
        session := { st.session with nextIndex := st.session.nextIndex + 1 }
        inFlight := st.inFlight ++ [trackUrl]
        effects := st.effects ++ [Effect.queueAdd trackUrl] }

/-- The body of the job of `enqueueNextTrack` once `handleDownloadJob` has returned: without
a result nothing; with one, it is pushed on the buffer of the session object and
`sendPlaylistGroup` is called. -/
def jobBody (result : Option Item) (st : BotState) : BotState :=
  match result with
  | none => st
  | some item =>
    sendPlaylistGroup
      { st with session := { st.session with buffer := st.session.buffer ++ [item] } }

/-- The rest of `enqueueNextTrack` once the promise of `downloadQueue.add` has settled: on
success the next call; on failure the error is reported, a `QUEUE_FULL` removes the session,
any other error is followed by the next call. -/
def afterAdd (outcome : Settlement) (st : BotState) : BotState :=
  match outcome with
  | Settlement.jobReturned result => enqueueNextTrack false (jobBody result st)
  | Settlement.rejected error =>
    let st1 :=
      { st with
        effects := st.effects ++
          (if shouldNotifyAdmin error then [Effect.notifyAdmins error] else []) ++
          [Effect.reply (formatUserFacingError error)] }
    if error.code == some "QUEUE_FULL" then { st1 with registered := false }
    else enqueueNextTrack false st1

/-- The handler of `callback_query:data` for a payload `pl:<action>:<sessionId>` sent by the
user `fromId`. -/
def handleCallback (action sessionId : String) (fromId : Option Nat) (st : BotState) :
    BotState :=
  if !(st.registered && sessionId == st.session.id) then
    { st with effects := st.effects ++ [Effect.answerCallbackQuery CallbackAnswer.sessionExpired] }
  else if fromId != some st.session.userId then
    { st with
      effects := st.effects ++ [Effect.answerCallbackQuery CallbackAnswer.notYourPlaylist] }
  else if action == "stop" then
    { st with
      registered := false
      effects := st.effects ++
        [Effect.answerCallbackQuery CallbackAnswer.stopped,
          Effect.editMessageText Message.playlistStopped] }
  else if action == "cont" then
    enqueueNextTrack true
      { st with
        session := { st.session with awaitingPrompt := false }
        effects := st.effects ++ [Effect.answerCallbackQuery CallbackAnswer.continuing] }
  else st

/-- The function `handlePlaylistRequest` once `fetchPlaylistTracks` has returned `entries`:
without entries no session is registered; otherwise the session is created with the cursor
at 0 and the first call of `enqueueNextTrack` is made. -/
def handlePlaylistRequest (userId : Nat) (sessionId : String) (entries : List String) :
    BotState :=
  let session : Session :=
    { id := sessionId, userId := userId, tracks := entries, nextIndex := 0,
      promptMessageId := none, awaitingPrompt := false, buffer := [] }
  if entries.length == 0 then
    { session := session, registered := false, inFlight := [],
      effects := [Effect.reply Message.playlistNoEntries] }
  else
    enqueueNextTrack false
      { session := session, registered := true, inFlight := [],
        effects :=
          [Effect.reply
            (Message.playlistDetected entries.length PLAYLIST_CHUNK_SIZE PLAYLIST_MAX_ITEMS)] }

/-- What can happen to a session from outside. -/
inductive BotEvent where
  /-- The promise of the pending `add` of index `i` in `inFlight` settles. -/
  | settled (i : Nat) (outcome : Settlement)
  /-- A button payload `pl:<action>:<sessionId>` arrives from `fromId`. -/
  | callback (action sessionId : String) (fromId : Option Nat)
deriving DecidableEq, Repr

/-- The effect of one event. -/
def step (st : BotState) : BotEvent → BotState
  | BotEvent.settled i outcome =>
    if i < st.inFlight.length then afterAdd outcome { st with inFlight := st.inFlight.eraseIdx i }
    else st
  | BotEvent.callback action sessionId fromId => handleCallback action sessionId fromId st

/-- A session in which the owner answers every prompt with continue: while something is to
be done, the pending job settles as `outcomes` says for its track index, or the pending
prompt is answered with continue by the owner. -/
def playToEnd (outcomes : Nat → Settlement) : Nat → BotState → BotState
  | 0, st => st
  | fuel + 1, st =>
    if st.inFlight.length != 0 then
      playToEnd outcomes fuel
        (step st (BotEvent.settled 0 (outcomes (st.session.nextIndex - 1))))
    else if st.registered && st.session.awaitingPrompt then
      playToEnd outcomes fuel
        (step st (BotEvent.callback "cont" st.session.id (some st.session.userId)))
    else st

/-- The cursor values at which a confirmation prompt was emitted, in order. -/
def promptCursors : List Effect → List Nat
  | [] => []
  | Effect.replyWithButtons (Message.playlistChunkPrompt downloaded _ _) _ :: rest =>
    downloaded :: promptCursors rest
  | _ :: rest => promptCursors rest

/-- A scheduling act: a prompt at a cursor value, or a track given to the queue. -/
inductive Act where
  | pause (cursor : Nat)
  | submit (trackUrl : String)
deriving DecidableEq, Repr

/-- The prompts and the submissions among the effects, in order. -/
def scheduleLog : List Effect → List Act
  | [] => []
  | Effect.replyWithButtons (Message.playlistChunkPrompt downloaded _ _) _ :: rest =>
    Act.pause downloaded :: scheduleLog rest
  | Effect.queueAdd trackUrl :: rest => Act.submit trackUrl :: scheduleLog rest
  | _ :: rest => scheduleLog rest

/-- Whether a cursor value is a chunk boundary: a positive multiple of the chunk size. -/
def isBoundary (cursor : Nat) : Bool :=
  decide (0 < cursor) && cursor % PLAYLIST_CHUNK_SIZE == 0

/-- The schedule expected for the tracks of index below `k`: each track submitted in order,
with a pause before the track whose index is a chunk boundary. -/
def expectedSchedule (tracks : List String) : Nat → List Act
  | 0 => []
  | k + 1 =>
    expectedSchedule tracks k ++
      (if isBoundary k then [Act.pause k] else []) ++
      (match tracks[k]? with
        | some trackUrl => [Act.submit trackUrl]
        | none => [])

/-- Whether a settlement is a rejection whose error has the code `QUEUE_FULL`. -/
def Settlement.isQueueFull : Settlement → Bool
  | Settlement.rejected error => error.code == some "QUEUE_FULL"
  | Settlement.jobReturned _ => false

/-- The pauses of a schedule, in order. -/
def pausesOf : List Act → List Nat
  | [] => []
  | Act.pause cursor :: rest => cursor :: pausesOf rest
  | Act.submit _ :: rest => pausesOf rest

/-- The part of a state the scheduling depends on: whether the session is registered and
awaiting a confirmation, its tracks and cursor, how many of its jobs are pending, and its
schedule so far. -/
structure Shape (st : BotState) (registered awaiting : Bool) (tracks : List String)
    (cursor pending : Nat) (log : List Act) : Prop where
  registered_eq : st.registered = registered
  awaiting_eq : st.session.awaitingPrompt = awaiting
  cursor_eq : st.session.nextIndex = cursor
  tracks_eq : st.session.tracks = tracks
  pending_eq : st.inFlight.length = pending
  log_eq : scheduleLog st.effects = log

/-- A session that has ended after the track of index `c` was submitted: it is removed,
nothing is pending, its schedule is the expected one up to its last cursor value, and that
value is the number of tracks unless a submission from `c` on was refused with `QUEUE_FULL`. -/
def Finished (tracks : List String) (outcomes : Nat → Settlement) (c : Nat) (st : BotState) :
    Prop :=
  ∃ k, Shape st false false tracks k 0 (expectedSchedule tracks k) ∧ k ≤ tracks.length ∧
    c < k ∧
    ((∀ i, c ≤ i → i < tracks.length → (outcomes i).isQueueFull = false) → k = tracks.length)

/-- Tracks `t0`, `t1`, ... for examples. -/
def sampleTracks (n : Nat) : List String :=
  (List.range n).map (fun i => "t" ++ toString i)

/-- The tracks given to the queue, in order. -/
def submittedTracks : List Effect → List String
  | [] => []
  | Effect.queueAdd trackUrl :: rest => trackUrl :: submittedTracks rest
  | _ :: rest => submittedTracks rest

/-- The submissions of a schedule, in order. -/
def submitsOf : List Act → List String
  | [] => []
  | Act.submit trackUrl :: rest => trackUrl :: submitsOf rest
  | Act.pause _ :: rest => submitsOf rest

/-- The state after a list of events. -/
def runEvents (st : BotState) (events : List BotEvent) : BotState :=
  events.foldl step st

/-- The test at the head of `sendPlaylistGroup`: a registered session with a buffer that is
not empty.  When it holds the function enters its loop and is suspended at the first
`await` of a send. -/
def sendPlaylistGroupEnters (st : BotState) : Bool :=
  st.registered && st.session.buffer.length != 0

/-- The rest of `sendPlaylistGroup` once the sends it awaits are done: the items of the
buffer are delivered, `session.buffer = []`, and `playlistSessions.set(sessionId, session)`
maps the id to the session object again, whatever happened to the registry meanwhile. -/
def sendPlaylistGroupResume (st : BotState) : BotState :=
  { st with
    session := { st.session with buffer := [] }
    registered := true
    effects := st.effects ++ (st.session.buffer.map deliverItem).flatten }

/-- A session together with whether the job of its oldest pending submission is suspended
inside the loop of `sendPlaylistGroup`. -/
structure FineState where
  bot : BotState
  delivering : Bool
deriving DecidableEq, Repr

/-- The events of a session when the `await` inside `sendPlaylistGroup` is taken into
account: an event of the coarse kind, the return of `handleDownloadJob` with a result for the
oldest pending job, and the end of the sends a suspended delivery awaits. -/
inductive Happening where
  | coarse (event : BotEvent)
  | resultArrives (item : Item)
  | sendsDone
deriving DecidableEq, Repr

/-- The effect of one happening.  While a delivery is suspended only button payloads are
handled; the suspended job ends with `sendsDone`, after which its promise is fulfilled and
`enqueueNextTrack` goes on. -/
def happen (fs : FineState) : Happening → FineState
  | Happening.coarse (BotEvent.callback action sessionId fromId) =>
    { fs with bot := handleCallback action sessionId fromId fs.bot }
  | Happening.coarse (BotEvent.settled i outcome) =>
    if fs.delivering then fs
    else { fs with bot := step fs.bot (BotEvent.settled i outcome) }
  | Happening.resultArrives item =>
    if fs.delivering || fs.bot.inFlight.length == 0 then fs
    else if sendPlaylistGroupEnters
        { fs.bot with session := { fs.bot.session with buffer := fs.bot.session.buffer ++ [item] } }
    then
      { bot :=
          { fs.bot with
            session := { fs.bot.session with buffer := fs.bot.session.buffer ++ [item] } }
        delivering := true }
    else
      { bot :=
          enqueueNextTrack false
            { fs.bot with
              session := { fs.bot.session with buffer := fs.bot.session.buffer ++ [item] }
              inFlight := fs.bot.inFlight.eraseIdx 0 }
        delivering := false }
  | Happening.sendsDone =>
    if !fs.delivering then fs
    else
      { bot :=
          enqueueNextTrack false
            { sendPlaylistGroupResume fs.bot with inFlight := fs.bot.inFlight.eraseIdx 0 }
        delivering := false }

/-- The state after a list of happenings. -/
def runHappenings (fs : FineState) (happenings : List Happening) : FineState :=
  happenings.foldl happen fs

/-- A result for examples: a file of the temporary directory 5. -/
def sampleItem : Item :=
  { download :=
      { tempDir := 5, path := { dir := 5, name := "a.mp3" }, filename := "a.mp3",
        metadata := none, rateLimited := none }
    qualityWarning := none
    size := 1000 }

/-- A session of 25 tracks of user 7 brought to its first pause, every job having returned
nothing, and then continued by its owner: the track of index 10 is pending. -/
def continuedAfterFirstPause : BotState :=
  runEvents (handlePlaylistRequest 7 "7-1" (sampleTracks 25))
    ((List.replicate 10 (BotEvent.settled 0 (Settlement.jobReturned none))) ++
      [BotEvent.callback "cont" "7-1" (some 7)])

/-- The function `handlePlaylistRequest` from its first line: `fetchPlaylistTracks(url,
PLAYLIST_MAX_ITEMS)` is awaited, an error it throws leaves the function, and its entries are
the tracks of the session. -/
def handlePlaylistRequestFrom (parse : String → Except JsError Downloader.Json)
    (getYtDlp : Except JsError Downloader.PlaylistEngine) (url : String)
    (userId : Nat) (sessionId : String) : Except JsError BotState :=
  match Downloader.fetchPlaylistTracks parse getYtDlp url PLAYLIST_MAX_ITEMS with
  | Except.error error => Except.error error
  | Except.ok entries => Except.ok (handlePlaylistRequest userId sessionId entries)

/-- The constant `TELEGRAM_MAX_FILE_BYTES` of config.js. -/
def TELEGRAM_MAX_FILE_BYTES : Nat := 50 * 1024 * 1024

/-- What `handleDownloadJob` meets outside the file: `stat p` is the size `fsp.stat(p)`
reports, or the error it throws; `analyzeTrackQuality d` is the warning of the quality info
(`none` for no info or no warning), or the error thrown; `sendError call` is the error a call
to Telegram throws, `none` when the call succeeds. -/
structure JobEnv where
  stat : FilePath → Except JsError Nat
  ENABLE_QUALITY_ANALYSIS : Bool
  analyzeTrackQuality : Download → Except JsError (Option String)
  sendError : Effect → Option JsError

/-- Calls to Telegram awaited one after the other: the calls made, up to and with the first
that throws, and its error. -/
def sendAll (env : JobEnv) : List Effect → Option JsError × List Effect
  | [] => (none, [])
  | call :: rest =>
    match env.sendError call with
    | some error => (some error, [call])
    | none => ((sendAll env rest).1, call :: (sendAll env rest).2)

/-- How a call of `handleDownloadJob` ends: what it returns (`none` for `undefined`) or
throws, the temporary directories left, and what it did. -/
structure JobOutcome where
  result : Except JsError (Option Item)
  world : Downloader.World
  effects : List Effect

/-- The `try` block of `handleDownloadJob` from the line after `downloadTrack` has returned
`download`: what the block returns or throws, and what it did. -/
def afterDownload (env : JobEnv) (download : Download) (skipSend : Bool) :
    Except JsError (Option Item) × List Effect :=
  let notice :=
    if download.rateLimited == some true && !skipSend then
      [Effect.reply Message.premiumRateLimited]
    else []
  match (sendAll env notice).1 with
  | some error => (Except.error error, (sendAll env notice).2)
  | none =>
    match env.stat download.path with
    | Except.error error => (Except.error error, notice)
    | Except.ok size =>
      if size > TELEGRAM_MAX_FILE_BYTES then
        let refusal := if !skipSend then [Effect.reply Message.fileTooLarge] else []
        match (sendAll env refusal).1 with
        | some error => (Except.error error, notice ++ (sendAll env refusal).2)
        | none => (Except.ok none, notice ++ refusal)
      else
        let qualityWarning :=
          if env.ENABLE_QUALITY_ANALYSIS then
            match env.analyzeTrackQuality download with
            | Except.ok warning => warning
            | Except.error _ => none
          else none
        if skipSend then
          (Except.ok (some ⟨download, qualityWarning, size⟩), notice)
        else
          let sends :=
            [Effect.replyWithDocument download.path download.filename] ++
              (match Downloader.truthy qualityWarning with
                | some warning => [Effect.reply (Message.text warning)]
                | none => [])
          match (sendAll env sends).1 with
          | some error => (Except.error error, notice ++ (sendAll env sends).2)
          | none => (Except.ok none, notice ++ sends ++ [Effect.incrementDownloadCount])

/-- The function `handleDownloadJob(ctx, url, { skipSend })` run in the world `w`: the
download, the `try` block, and the `finally`, which removes the temporary directory when
there is a download and `skipSend` is false. -/
def handleDownloadJob (env : JobEnv) (dl : Downloader.Env)
    (getYtDlp : Except JsError Downloader.YtDlp) (url : String) (skipSend : Bool)
    (w : Downloader.World) : JobOutcome :=
  match Downloader.downloadTrack dl getYtDlp url w with
  | (Except.error error, w1) => { result := Except.error error, world := w1, effects := [] }
  | (Except.ok download, w1) =>
    if !skipSend then
      { result := (afterDownload env download skipSend).1
        world := Downloader.cleanupTempDir download.tempDir w1
        effects := (afterDownload env download skipSend).2 ++
          [Effect.cleanupTempDir download.tempDir] }
    else
      { result := (afterDownload env download skipSend).1
        world := w1
        effects := (afterDownload env download skipSend).2 }

/-- The job `enqueueNextTrack` gives to the queue, up to its test `if (!result) return`:
`handleDownloadJob` with `skipSend` true; how its promise settles unless a later send
throws, and the world it leaves. -/
def playlistJob (env : JobEnv) (dl : Downloader.Env)
    (getYtDlp : Except JsError Downloader.YtDlp) (trackUrl : String) (w : Downloader.World) :
    Settlement × Downloader.World :=
  match (handleDownloadJob env dl getYtDlp trackUrl true w).result with
  | Except.error error =>
    (Settlement.rejected error, (handleDownloadJob env dl getYtDlp trackUrl true w).world)
  | Except.ok result =>
    (Settlement.jobReturned result, (handleDownloadJob env dl getYtDlp trackUrl true w).world)

/-- An environment for examples: every file has the size `size`, no quality analysis, no
call to Telegram throws. -/
def sampleJobEnv (size : Nat) : JobEnv :=
  { stat := fun _ => Except.ok size
    ENABLE_QUALITY_ANALYSIS := false
    analyzeTrackQuality := fun _ => Except.ok none
    sendError := fun _ => none }

/-- An engine for examples that leaves one audio file and does not throw. -/
def oneTrackEngine : Downloader.YtDlp :=
  fun _ _ => { files := ["t.mp3"], error := none }

/-- The number of continue signals the handler has taken so far: its answers `On continue`. -/
def continueCount (effects : List Effect) : Nat :=
  (effects.filter
    (fun effect => effect == Effect.answerCallbackQuery CallbackAnswer.continuing)).length

/-- Whether the handler, in the state `st`, takes the event as a continue: a payload
`pl:cont:<id>` for the registered session, sent by its owner. -/
def takesContinue (st : BotState) : BotEvent → Bool
  | BotEvent.callback action sessionId fromId =>
    st.registered && sessionId == st.session.id && fromId == some st.session.userId
      && action == "cont"
  | BotEvent.settled _ _ => false

/-- A single scheduling chain: every prompt is answered with at most one continue, that is,
whenever the handler takes a continue, fewer continues than prompts were taken before. -/
def answeredAtMostOnce : BotState → List BotEvent → Bool
  | _, [] => true
  | st, event :: rest =>
    (!takesContinue st event ||
        decide (continueCount st.effects < (promptCursors st.effects).length))
      && answeredAtMostOnce (step st event) rest

/-- The file of a buffered result, as `sendPlaylistGroup` sends it: path and name. -/
def Item.file (item : Item) : FilePath × String :=
  (item.download.path, item.download.filename)

/-- The documents sent so far, in order: path and name. -/
def deliveredFiles (effects : List Effect) : List (FilePath × String) :=
  effects.filterMap
    (fun effect =>
      match effect with
      | Effect.replyWithDocument path filename => some (path, filename)
      | _ => none)

/-- The job an event settles in the state `st`, if it settles one: the track of the job and
how its promise settled. -/
def settlementOf (st : BotState) : BotEvent → List (String × Settlement)
  | BotEvent.settled i outcome =>
    match st.inFlight[i]? with
    | some trackUrl => [(trackUrl, outcome)]
    | none => []
  | BotEvent.callback _ _ _ => []

/-- The jobs a list of events settles, in order. -/
def settlements : BotState → List BotEvent → List (String × Settlement)
  | _, [] => []
  | st, event :: rest => settlementOf st event ++ settlements (step st event) rest

/-- The results among settlements, in order. -/
def returnedItems (log : List (String × Settlement)) : List Item :=
  log.filterMap
    (fun entry =>
      match entry.2 with
      | Settlement.jobReturned (some item) => some item
      | _ => none)

/-- What holds of a session driven by a single chain, `log` being the settlements so far: at
most one job is pending, and then nobody waits for a confirmation; the tracks given to the
queue are the tracks before the cursor; they are the settled ones, in the order of
settlement, followed by the pending one; the prompts are the continues taken plus the
pending prompt; every result returned is delivered or buffered, in the order of return. -/
structure Chain (tracks : List String) (st : BotState) (log : List (String × Settlement)) :
    Prop where
  tracks_eq : st.session.tracks = tracks
  cursor_le : st.session.nextIndex ≤ tracks.length
  submitted : submittedTracks st.effects = tracks.take st.session.nextIndex
  pending : st.inFlight.length ≤ 1
  settled : log.map Prod.fst ++ st.inFlight = submittedTracks st.effects
  prompts : (promptCursors st.effects).length =
    continueCount st.effects + (if st.session.awaitingPrompt then 1 else 0)
  idle : st.session.awaitingPrompt = true → st.inFlight = []
  delivered : deliveredFiles st.effects ++ st.session.buffer.map Item.file =
    (returnedItems log).map Item.file

/-- A result for examples: the file `name` of the temporary directory `dir`. -/
def itemOf (dir : Nat) (name : String) : Item :=
  { download :=
      { tempDir := dir, path := { dir := dir, name := name }, filename := name,
        metadata := none, rateLimited := none }
    qualityWarning := none
    size := 1000 }

/-- Events for examples, for a session of 12 tracks of user 7: the first job returns a
result, the next nine return nothing, the owner answers the prompt with continue, and the
job of the eleventh track returns a result. -/
def chainEvents : List BotEvent :=
  [BotEvent.settled 0 (Settlement.jobReturned (some (itemOf 1 "a.mp3")))] ++
    List.replicate 9 (BotEvent.settled 0 (Settlement.jobReturned none)) ++
    [BotEvent.callback "cont" "7-1" (some 7),
      BotEvent.settled 0 (Settlement.jobReturned (some (itemOf 2 "b.mp3")))]

/-- A session of 25 tracks of user 7 whose first prompt was answered with continue twice, so
that two chains run: every job returns nothing, and when the first chain has sent the prompt
at cursor 20 the job of the track of index 19, submitted by the second chain, is still
pending. -/
def promptPendingJobInFlight : BotState :=
  runEvents (handlePlaylistRequest 7 "7-1" (sampleTracks 25))
    (List.replicate 10 (BotEvent.settled 0 (Settlement.jobReturned none)) ++
      [BotEvent.callback "cont" "7-1" (some 7), BotEvent.callback "cont" "7-1" (some 7)] ++
      List.replicate 9 (BotEvent.settled 0 (Settlement.jobReturned none)))

/-- A session of 25 tracks of user 7 in which the jobs of the first nine tracks returned
nothing: the cursor is 10 and the job of the track of index 9 is pending. -/
def beforeFirstBoundary : BotState :=
  runEvents (handlePlaylistRequest 7 "7-1" (sampleTracks 25))
    (List.replicate 9 (BotEvent.settled 0 (Settlement.jobReturned none)))

/-- The result an event hands to the session while the session is registered: the result of
a pending job that returns one, if `playlistSessions` holds the session at that moment. -/
def deliverableOf (st : BotState) : BotEvent → List Item
  | BotEvent.settled i (Settlement.jobReturned (some item)) =>
    if decide (i < st.inFlight.length) && st.registered then [item] else []
  | _ => []

/-- The results a list of events hands to the session while it is registered, in order. -/
def resultsWhileRegistered : BotState → List BotEvent → List Item
  | _, [] => []
  | st, event :: rest => deliverableOf st event ++ resultsWhileRegistered (step st event) rest

/-- What holds of the buffer of a session, `sent` being the results handed to it while it
was registered: a registered session has nothing buffered, and the documents sent are the
files of these results, in order. -/
structure Flushed (st : BotState) (sent : List Item) : Prop where
  empty : st.registered = true → st.session.buffer = []
  sent_eq : deliveredFiles st.effects = sent.map Item.file

end Bot

/-! ## auth-store.js -/

namespace Store

open Downloader (JsError)

/-- A JavaScript number as the store meets it: a finite value, taken to be an integer (the
counter and the user ids are), or one of `NaN`, `Infinity`, `-Infinity`. -/
inductive JsNumber where
  | finite (value : Int)
  | nonFinite
deriving DecidableEq, Repr

/-- A JSON value below the top level, as far as the code looks at it: `other` stands for a
nested array or object. -/
inductive JsAtom where
  | null
  | bool (value : Bool)
  | number (value : JsNumber)
  | string (value : String)
  | other
deriving DecidableEq, Repr

/-- A value `JSON.parse` returns: an atom, an array, or an object given by its properties
(each key once). -/
inductive JsValue where
  | atom (value : JsAtom)
  | array (items : List JsAtom)
  | object (fields : List (String × JsAtom))
deriving DecidableEq, Repr

/-- The content of a file: the text of a JSON value, so that `JSON.parse` of the text
`JSON.stringify` made of a value gives the value back, or a text `JSON.parse` rejects. -/
inductive FileContent where
  | json (value : JsValue)
  | garbage (raw : String)
deriving DecidableEq, Repr

/-- The files by path; `none` where no file exists. -/
abbrev Disk := String → Option FileContent

/-- The call `fsp.writeFile(path, content)`. -/
def Disk.writeFile (disk : Disk) (path : String) (content : FileContent) : Disk :=
  fun p => if p = path then some content else disk p

/-- The call `fsp.rename(source, target)`: the target gets the content of the source, which
is gone. -/
def Disk.rename (disk : Disk) (source target : String) : Disk :=
  fun p => if p = target then disk source else if p = source then none else disk p

/-- The two stores of the file. -/
inductive StoreKind where
  | users
  | count
deriving DecidableEq, Repr

/-- The module variables of auth-store.js, and around them the timeouts that are set and
have neither fired nor been cleared (handle and store), the next free handle, the files, the
calls of `fsp.writeFile` made so far and the errors logged. -/
structure StoreState where
  authorizedUsers : List Int
  downloadCount : Int
  authorizedUsersDirty : Bool
  downloadCountDirty : Bool
  persistAuthorizedUsersTimer : Option Nat
  persistDownloadCountTimer : Option Nat
  timers : List (Nat × StoreKind)
  nextHandle : Nat
  disk : Disk
  writes : List (String × FileContent)
  logged : List JsError

/-- The constant `AUTH_STORE_PATH` of config.js, from the directory of the repository. -/
def AUTH_STORE_PATH : String := "data/authorized-users.json"

/-- The constant `DOWNLOAD_COUNT_PATH` of config.js, from the directory of the repository. -/
def DOWNLOAD_COUNT_PATH : String := "data/download-count.json"

/-- The module as loaded: no user, count 0, nothing dirty, no timer, on the given files. -/
def initialStore (disk : Disk) : StoreState :=
  { authorizedUsers := [], downloadCount := 0, authorizedUsersDirty := false,
    downloadCountDirty := false, persistAuthorizedUsersTimer := none,
    persistDownloadCountTimer := none, timers := [], nextHandle := 0, disk := disk,
    writes := [], logged := [] }

/-- Where a persistence pass stops: nowhere, or at the `await` that rejects with the error. -/
inductive Fault where
  | none
  | mkdir (error : JsError)
  | writeFile (error : JsError)
  | rename (error : JsError)
deriving DecidableEq, Repr

/-- The text `${path}.tmp-${Date.now()}`. -/
def tempPathOf (path : String) (now : Nat) : String :=
  path ++ ".tmp-" ++ toString now

/-- The three awaited calls of a persistence pass, `mkdir`, `writeFile` to the temporary
path and `rename` over the canonical path, up to the one that fails. -/
def writeThenRename (path : String) (payload : FileContent) (now : Nat) (fault : Fault)
    (s : StoreState) : Except JsError Unit × StoreState :=
  match fault with
  | Fault.mkdir error => (Except.error error, s)
  | Fault.writeFile error => (Except.error error, s)
  | Fault.rename error =>
    (Except.error error,
      { s with
        disk := s.disk.writeFile (tempPathOf path now) payload
        writes := s.writes ++ [(tempPathOf path now, payload)] })
  | Fault.none =>
    (Except.ok (),
      { s with
        disk := (s.disk.writeFile (tempPathOf path now) payload).rename
          (tempPathOf path now) path
        writes := s.writes ++ [(tempPathOf path now, payload)] })

/-- The text `JSON.stringify([...authorizedUsers])`. -/
def usersPayload (s : StoreState) : FileContent :=
  FileContent.json (JsValue.array (s.authorizedUsers.map (fun id => JsAtom.number (JsNumber.finite id))))

/-- The text `JSON.stringify(downloadCount)`. -/
def countPayload (s : StoreState) : FileContent :=
  FileContent.json (JsValue.atom (JsAtom.number (JsNumber.finite s.downloadCount)))

/-- The function `persistAuthorizedUsers`, `now` being the value of `Date.now()`. -/
def persistAuthorizedUsers (now : Nat) (fault : Fault) (s : StoreState) :
    Except JsError Unit × StoreState :=
  writeThenRename AUTH_STORE_PATH (usersPayload s) now fault
    { s with authorizedUsersDirty := false }

/-- The function `persistDownloadCount`, `now` being the value of `Date.now()`. -/
def persistDownloadCount (now : Nat) (fault : Fault) (s : StoreState) :
    Except JsError Unit × StoreState :=
  writeThenRename DOWNLOAD_COUNT_PATH (countPayload s) now fault
    { s with downloadCountDirty := false }

/-- The call `setTimeout(callback, 250)` for the callback of a store: a new pending timeout
under the next free handle. -/
def setTimeout (kind : StoreKind) (s : StoreState) : Nat × StoreState :=
  (s.nextHandle,
    { s with timers := s.timers ++ [(s.nextHandle, kind)], nextHandle := s.nextHandle + 1 })

/-- The call `clearTimeout(handle)`. -/
def clearTimeout (handle : Nat) (s : StoreState) : StoreState :=
  { s with timers := s.timers.filter (fun t => t.1 != handle) }

/-- The function `scheduleAuthorizedPersist`. -/
def scheduleAuthorizedPersist (s : StoreState) : StoreState :=
  if s.persistAuthorizedUsersTimer.isSome then { s with authorizedUsersDirty := true }
  else
    { (setTimeout StoreKind.users { s with authorizedUsersDirty := true }).2 with
      persistAuthorizedUsersTimer :=
        some (setTimeout StoreKind.users { s with authorizedUsersDirty := true }).1 }

/-- The function `scheduleDownloadCountPersist`. -/
def scheduleDownloadCountPersist (s : StoreState) : StoreState :=
  if s.persistDownloadCountTimer.isSome then { s with downloadCountDirty := true }
  else
    { (setTimeout StoreKind.count { s with downloadCountDirty := true }).2 with
      persistDownloadCountTimer :=
        some (setTimeout StoreKind.count { s with downloadCountDirty := true }).1 }

/-- The call `authorizedUsers.add(userId)` on the set, kept in insertion order. -/
def setAdd (users : List Int) (userId : Int) : List Int :=
  if users.contains userId then users else users ++ [userId]

/-- The function `addAuthorizedUser`. -/
def addAuthorizedUser (userId : Int) (s : StoreState) : StoreState :=
  scheduleAuthorizedPersist { s with authorizedUsers := setAdd s.authorizedUsers userId }

/-- The function `incrementDownloadCount`. -/
def incrementDownloadCount (s : StoreState) : StoreState :=
  scheduleDownloadCountPersist { s with downloadCount := s.downloadCount + 1 }

/-- The pending timeout of index `i` fires: it is no longer pending and its callback runs,
which forgets the handle and starts the persistence pass, logging the error if the pass
fails. -/
def fireTimer (i : Nat) (now : Nat) (fault : Fault) (s : StoreState) : StoreState :=
  match s.timers[i]? with
  | none => s
  | some (_, StoreKind.users) =>
    match persistAuthorizedUsers now fault
        { s with timers := s.timers.eraseIdx i, persistAuthorizedUsersTimer := none } with
    | (Except.ok _, s1) => s1
    | (Except.error error, s1) => { s1 with logged := s1.logged ++ [error] }
  | some (_, StoreKind.count) =>
    match persistDownloadCount now fault
        { s with timers := s.timers.eraseIdx i, persistDownloadCountTimer := none } with
    | (Except.ok _, s1) => s1
    | (Except.error error, s1) => { s1 with logged := s1.logged ++ [error] }

/-- Lines 76 to 83 of `flushState`: each timer variable that holds a handle is cleared and
forgotten. -/
def cancelTimers (s : StoreState) : StoreState :=
  let s1 :=
    match s.persistAuthorizedUsersTimer with
    | some handle => { clearTimeout handle s with persistAuthorizedUsersTimer := none }
    | none => s
  match s1.persistDownloadCountTimer with
  | some handle => { clearTimeout handle s1 with persistDownloadCountTimer := none }
  | none => s1

/-- The pass `flushState` starts for the users when they are dirty, with its `.catch` that
logs and throws again. -/
def flushUsers (now : Nat) (fault : Fault) (s : StoreState) : Except JsError Unit × StoreState :=
  if s.authorizedUsersDirty then
    match persistAuthorizedUsers now fault s with
    | (Except.ok _, s1) => (Except.ok (), s1)
    | (Except.error error, s1) => (Except.error error, { s1 with logged := s1.logged ++ [error] })
  else (Except.ok (), s)

/-- The pass `flushState` starts for the count when it is dirty, with its `.catch` that logs
and throws again. -/
def flushCount (now : Nat) (fault : Fault) (s : StoreState) : Except JsError Unit × StoreState :=
  if s.downloadCountDirty then
    match persistDownloadCount now fault s with
    | (Except.ok _, s1) => (Except.ok (), s1)
    | (Except.error error, s1) => (Except.error error, { s1 with logged := s1.logged ++ [error] })
  else (Except.ok (), s)

/-- The function `flushState`: the timers are cancelled, a pass is made for each dirty store,
and the promise is rejected with the error of a failed pass, the one of the users first. -/
def flushState (now : Nat) (faultUsers faultCount : Fault) (s : StoreState) :
    Except JsError Unit × StoreState :=
  match (flushUsers now faultUsers (cancelTimers s)).1,
      (flushCount now faultCount (flushUsers now faultUsers (cancelTimers s)).2).1 with
  | Except.error error, _ =>
    (Except.error error, (flushCount now faultCount (flushUsers now faultUsers (cancelTimers s)).2).2)
  | Except.ok _, Except.error error =>
    (Except.error error, (flushCount now faultCount (flushUsers now faultUsers (cancelTimers s)).2).2)
  | Except.ok _, Except.ok _ =>
    (Except.ok (), (flushCount now faultCount (flushUsers now faultUsers (cancelTimers s)).2).2)

/-- The value the code of `loadDownloadCountFromDisk` takes from what it parsed: the number
itself, or the property `count` of an object when it is a number; nothing otherwise. -/
def countValueOf : JsValue → Option JsNumber
  | JsValue.atom (JsAtom.number n) => some n
  | JsValue.atom _ => none
  | JsValue.array _ => none
  | JsValue.object fields =>
    match fields.lookup "count" with
    | some (JsAtom.number n) => some n
    | _ => none

/-- The test `Number.isFinite(value)`, `none` being `undefined`. -/
def isFiniteValue : Option JsNumber → Option Int
  | some (JsNumber.finite value) => some value
  | _ => none

/-- The `try` block of `loadDownloadCountFromDisk`: `readError` is the error `readFile`
throws for a reason other than a missing file, if any. -/
def loadDownloadCountBody (readError : Option JsError) (s : StoreState) :
    Except JsError StoreState :=
  match readError with
  | some error => Except.error error
  | none =>
    match s.disk DOWNLOAD_COUNT_PATH with
    | none => Except.error { message := some "no such file or directory", code := some "ENOENT" }
    | some (FileContent.garbage _) => Except.error { message := some "Unexpected token" }
    | some (FileContent.json parsed) =>
      match isFiniteValue (countValueOf parsed) with
      | some value => Except.ok { s with downloadCount := value }
      | none => Except.ok s

/-- The function `loadDownloadCountFromDisk`: the `try` block, and the `catch` that warns
unless the code of the error is `ENOENT`. -/
def loadDownloadCountFromDisk (readError : Option JsError) (s : StoreState) :
    Except JsError Unit × StoreState :=
  match loadDownloadCountBody readError s with
  | Except.ok s1 => (Except.ok (), s1)
  | Except.error error =>
    if error.code != some "ENOENT" then (Except.ok (), { s with logged := s.logged ++ [error] })
    else (Except.ok (), s)

/-- Every pending timeout is the one its store remembers: the pending timeouts of a store
are exactly the handle in its timer variable, if any. -/
def TimersConsistent (s : StoreState) : Prop :=
  s.timers.filter (fun t => t.2 == StoreKind.users) =
      (s.persistAuthorizedUsersTimer.map (fun h => (h, StoreKind.users))).toList ∧
  s.timers.filter (fun t => t.2 == StoreKind.count) =
      (s.persistDownloadCountTimer.map (fun h => (h, StoreKind.count))).toList

/-- Files for examples: the count file holds the number 7, no other file exists. -/
def diskWithCount7 : Disk :=
  fun p =>
    if p = DOWNLOAD_COUNT_PATH then
      some (FileContent.json (JsValue.atom (JsAtom.number (JsNumber.finite 7))))
    else none

/-- An error for examples: the disk is full. -/
def diskFull : JsError :=
  { message := some "ENOSPC: no space left on device", code := some "ENOSPC" }

/-- An error for examples: the file may not be read. -/
def accessDenied : JsError :=
  { message := some "EACCES: permission denied", code := some "EACCES" }

end Store
/-! ## utils.js -/

namespace Utils

/-- A JavaScript string as the sequence of its UTF-16 code units, on which `length` and
`slice` work. -/
abbrev JsString := List Nat

/-- The call `text.slice(0, stop)` for an integer `stop`: a negative `stop` counts back from
the length, and the index at which the slice stops is kept between 0 and the length. -/
def slice0 (text : JsString) (stop : Int) : JsString :=
  if stop < 0 then text.take ((text.length : Int) + stop).toNat
  else text.take stop.toNat

/-- The three code units the template of `truncate` appends after the slice, as the file has
them: U+00E2, U+20AC, U+00A6. -/
def truncateSuffix : JsString := [0xE2, 0x20AC, 0xA6]

/-- The function `truncate(text, max)`. -/
def truncate (text : JsString) (max : Int) : JsString :=
  if (text.length : Int) ≤ max then text
  else slice0 text (max - 1) ++ truncateSuffix

/-- The default value of the parameter `max` of `truncate`. -/
def truncateDefaultMax : Int := 140

/-- The call `truncate(text)` with one argument, as `pickUserFriendlyLine` makes it. -/
def truncateDefault (text : JsString) : JsString :=
  truncate text truncateDefaultMax

/-- The code units of an ASCII text, for examples. -/
def ofAscii (text : String) : JsString :=
  text.data.map Char.toNat

end Utils


/-! ## Properties of queue.js -/

namespace Queue

variable {α : Type}

theorem acceptedJobs_append (xs ys : List (QEvent α)) :
    acceptedJobs (xs ++ ys) = acceptedJobs xs ++ acceptedJobs ys := by
  induction xs with
  | nil => rfl
  | cons e es ih => cases e <;> simp [acceptedJobs, ih]

theorem startedJobs_append (xs ys : List (QEvent α)) :
    startedJobs (xs ++ ys) = startedJobs xs ++ startedJobs ys := by
  induction xs with
  | nil => rfl
  | cons e es ih => cases e <;> simp [startedJobs, ih]

theorem settledJobs_append (xs ys : List (QEvent α)) :
    settledJobs (xs ++ ys) = settledJobs xs ++ settledJobs ys := by
  induction xs with
  | nil => rfl
  | cons e es ih => cases e <;> simp [settledJobs, ih]

theorem createLimits_wellFormed (dc mq : Option Int) : (createLimits dc mq).WellFormed := by
  constructor
  · intro l h
    cases dc with
    | none => simp [createLimits] at h
    | some n =>
      by_cases hn : 0 < n
      · simp [createLimits, hn] at h; omega
      · simp [createLimits, hn] at h
  · intro b h
    cases mq with
    | none => simp [createLimits] at h
    | some n =>
      by_cases hn : 0 ≤ n
      · simp [createLimits, hn] at h; omega
      · simp [createLimits, hn] at h

theorem atLeast_eq_true_iff (x : Int) (l : Limit) :
    atLeast x l = true ↔ ∃ b, l = some b ∧ b ≤ x := by
  cases l with
  | none => simp [atLeast]
  | some b => simp [atLeast]

theorem atLeast_eq_false_iff (x : Int) (l : Limit) :
    atLeast x l = false ↔ ∀ b, l = some b → x < b := by
  cases l with
  | none => simp [atLeast]
  | some b => simp [atLeast]

/-- `runNext` does nothing when no slot is free. -/
theorem runNext_busy (c : Limits) (s : QueueState α) (h : atLeast s.active c.limit = true) :
    runNext c s = s := by
  simp [runNext, h]

/-- `runNext` does nothing when nothing is pending. -/
theorem runNext_empty (c : Limits) (s : QueueState α) (h : s.queue = []) :
    runNext c s = s := by
  simp [runNext, h]

/-- `runNext` starts the head when a slot is free. -/
theorem runNext_cons (c : Limits) (s : QueueState α) (job : α) (rest : List α)
    (h : atLeast s.active c.limit = false) (hq : s.queue = job :: rest) :
    runNext c s =
      { active := s.active + 1, queue := rest, running := s.running ++ [job],
        trace := s.trace ++ [QEvent.started job] } := by
  simp [runNext, h, hq]

theorem inv_initial (c : Limits) (hc : c.WellFormed) : Inv c (initial α) := by
  constructor
  · simp [initial]
  · intro l hl; have := hc.limit_pos l hl; simp [initial]; omega
  · intro b hb; have := hc.queueLimit_nonneg b hb; simp [initial]; omega
  · simp [initial]
  · simp [initial, acceptedJobs, startedJobs]
  · simp [initial, settledJobs, startedJobs]

theorem inv_add (c : Limits) (task : α) (s : QueueState α) (h : Inv c s) :
    Inv c (add c task s).2 := by
  unfold add
  by_cases hfull : atLeast (s.queue.length : Int) c.queueLimit = true
  · simpa [hfull] using h
  · simp only [hfull]
    have hroom : ∀ b, c.queueLimit = some b → (s.queue.length : Int) < b :=
      (atLeast_eq_false_iff _ _).1 (by simpa using hfull)
    by_cases hbusy : atLeast s.active c.limit = true
    · rw [runNext_busy c _ (by simpa using hbusy)]
      obtain ⟨l, hl, hle⟩ := (atLeast_eq_true_iff _ _).1 hbusy
      have hal := h.active_le l hl
      constructor
      · exact h.active_eq
      · exact h.active_le
      · intro b hb; have := hroom b hb; simp; omega
      · intro _; simp; rw [hl]; congr 1; omega
      · simp [acceptedJobs_append, startedJobs_append, acceptedJobs, startedJobs, h.fifo]
      · simpa [settledJobs_append, startedJobs_append, settledJobs, startedJobs] using h.count
    · have hfree : atLeast s.active c.limit = false := by simpa using hbusy
      have hq : s.queue = [] := by
        by_contra hne
        have := h.busy hne
        rw [this] at hfree
        simp [atLeast] at hfree
      rw [runNext_cons c _ task [] (by simpa using hfree) (by simp [hq])]
      have hfifo := h.fifo
      have hcount := h.count
      rw [hq] at hfifo
      constructor
      · simp [h.active_eq]
      · intro l hl
        have := (atLeast_eq_false_iff _ _).1 hfree l hl
        simp; omega
      · intro b hb; have := hroom b hb; simp; omega
      · simp
      · simp at hfifo
        simp [acceptedJobs_append, startedJobs_append, acceptedJobs, startedJobs, hfifo]
      · simp [settledJobs_append, startedJobs_append, settledJobs, startedJobs, hcount]
        omega

/-- The state between the decrement of a completion handler and its call of `runNext`. -/
theorem inv_settle_aux (c : Limits) (job : α) [DecidableEq α] (s : QueueState α) (h : Inv c s)
    (hmem : job ∈ s.running) (ev : QEvent α)
    (hev : settledJobs [ev] = [job] ∧ startedJobs [ev] = [] ∧ acceptedJobs [ev] = []) :
    runNext c { s with active := s.active - 1, running := s.running.erase job,
                       trace := s.trace ++ [ev] } =
      (match s.queue with
       | [] =>
         { active := s.active - 1, queue := [], running := s.running.erase job,
           trace := s.trace ++ [ev] }
       | head :: rest =>
         { active := s.active - 1 + 1, queue := rest, running := s.running.erase job ++ [head],
           trace := s.trace ++ [ev] ++ [QEvent.started head] }) ∧
    Inv c (runNext c { s with active := s.active - 1, running := s.running.erase job,
                              trace := s.trace ++ [ev] }) := by
  obtain ⟨hset, hsta, hacc⟩ := hev
  have hlen : (s.running.erase job).length + 1 = s.running.length := by
    rw [List.length_erase_of_mem hmem]
    have : 0 < s.running.length := List.length_pos_of_mem hmem
    omega
  have hfree : atLeast (s.active - 1) c.limit = false := by
    rw [atLeast_eq_false_iff]
    intro b hb
    have := h.active_le b hb
    omega
  have hfifo := h.fifo
  have hcount := h.count
  have hact := h.active_eq
  cases hq : s.queue with
  | nil =>
    have hrun := runNext_empty c
      { active := s.active - 1, queue := [], running := s.running.erase job,
        trace := s.trace ++ [ev] } rfl
    rw [hrun]
    refine ⟨rfl, ?_⟩
    constructor
    · simp; omega
    · intro l hl; have := h.active_le l hl; simp; omega
    · intro b hb; have := h.queue_le b hb; simp; omega
    · intro hne; simp at hne
    · show acceptedJobs (s.trace ++ [ev]) = startedJobs (s.trace ++ [ev]) ++ []
      rw [acceptedJobs_append, startedJobs_append, hsta, hacc, hfifo, hq]
    · show (startedJobs (s.trace ++ [ev])).length =
        (settledJobs (s.trace ++ [ev])).length + (s.running.erase job).length
      rw [settledJobs_append, startedJobs_append, hsta, hset]
      simp [hcount]; omega
  | cons head rest =>
    have hrun := runNext_cons c
      { active := s.active - 1, queue := head :: rest, running := s.running.erase job,
        trace := s.trace ++ [ev] } head rest hfree rfl
    rw [hrun]
    refine ⟨by simp, ?_⟩
    have hb := h.busy (by simp [hq])
    constructor
    · simp; omega
    · intro l hl; have := h.active_le l hl; simp; omega
    · intro b hb; have := h.queue_le b hb; rw [hq] at this; simp at this ⊢; omega
    · intro _; simp; exact hb
    · show acceptedJobs (s.trace ++ [ev] ++ [QEvent.started head]) =
        startedJobs (s.trace ++ [ev] ++ [QEvent.started head]) ++ rest
      rw [acceptedJobs_append, acceptedJobs_append, startedJobs_append, startedJobs_append,
        hsta, hacc, hfifo, hq]
      simp [acceptedJobs, startedJobs]
    · show (startedJobs (s.trace ++ [ev] ++ [QEvent.started head])).length =
        (settledJobs (s.trace ++ [ev] ++ [QEvent.started head])).length +
          (s.running.erase job ++ [head]).length
      rw [settledJobs_append, settledJobs_append, startedJobs_append, startedJobs_append,
        hsta, hset]
      simp [hcount, settledJobs, startedJobs]; omega

theorem inv_step [DecidableEq α] (c : Limits) (s : QueueState α) (op : QOp α) (h : Inv c s) :
    Inv c (step c s op) := by
  cases op with
  | add task => exact inv_add c task s h
  | succeed job =>
    by_cases hmem : job ∈ s.running
    · simp only [step, hmem, if_true, onFulfilled]
      exact (inv_settle_aux c job s h hmem (QEvent.resolved job) (by simp [settledJobs, startedJobs, acceptedJobs])).2
    · simpa [step, hmem] using h
  | fail job =>
    by_cases hmem : job ∈ s.running
    · simp only [step, hmem, if_true, onRejected]
      exact (inv_settle_aux c job s h hmem (QEvent.rejected job) (by simp [settledJobs, startedJobs, acceptedJobs])).2
    · simpa [step, hmem] using h

theorem inv_run [DecidableEq α] (c : Limits) (ops : List (QOp α)) (s : QueueState α)
    (h : Inv c s) : Inv c (run c s ops) := by
  induction ops generalizing s with
  | nil => simpa [run] using h
  | cons op ops ih => exact ih (step c s op) (inv_step c s op h)

theorem inv_runFresh [DecidableEq α] (dc mq : Option Int) (ops : List (QOp α)) :
    Inv (createLimits dc mq) (runFresh dc mq ops) :=
  inv_run _ ops _ (inv_initial _ (createLimits_wellFormed dc mq))

/-- C1: in every state reached from `createTaskQueue(N, B)`, with `N` a positive and `B` a
non-negative integer, through any sequence of `add` calls and completions, at most `N` tasks
are running (both the counter `active` and the number of live promise chains) and at most `B`
are pending. -/
theorem queue_bounds [DecidableEq α] (N B : Int) (hN : 0 < N) (hB : 0 ≤ B)
    (ops : List (QOp α)) :
    (runFresh (some N) (some B) ops).active ≤ N ∧
    ((runFresh (some N) (some B) ops).running.length : Int) ≤ N ∧
    ((runFresh (some N) (some B) ops).queue.length : Int) ≤ B := by
  have h := inv_runFresh (some N) (some B) ops
  have hc : createLimits (some N) (some B) = { limit := some N, queueLimit := some B } := by
    simp [createLimits, hN, hB]
  rw [hc] at h
  have h1 := h.active_le N rfl
  have h2 := h.queue_le B rfl
  have h3 := h.active_eq
  exact ⟨h1, by omega, h2⟩

/-- Witness of C1: two slots, one backlog place, four submissions and a completion. -/
theorem queue_bounds_witness :
    (0 : Int) < 2 ∧ (0 : Int) ≤ 1 ∧
    (runFresh (some 2) (some 1)
      [QOp.add 1, QOp.add 2, QOp.add 3, QOp.add 4, QOp.succeed 1]).active ≤ 2 ∧
    ((runFresh (some 2) (some 1)
      [QOp.add 1, QOp.add 2, QOp.add 3, QOp.add 4, QOp.succeed 1]).running.length : Int) ≤ 2 ∧
    ((runFresh (some 2) (some 1)
      [QOp.add 1, QOp.add 2, QOp.add 3, QOp.add 4, QOp.succeed 1]).queue.length : Int) ≤ 1 :=
  ⟨by decide, by decide,
    queue_bounds 2 1 (by decide) (by decide)
      [QOp.add 1, QOp.add 2, QOp.add 3, QOp.add 4, QOp.succeed 1]⟩

/-- C2: in every state, `add(task)` returns a promise rejected with code `QUEUE_FULL` exactly
when the backlog limit is finite and the pending length has reached it; the call then leaves
the whole state as it was (running count, pending sequence, running jobs, log: the task is
neither queued nor started), so the queue goes on as if the call had not been made. -/
theorem add_queue_full_iff [DecidableEq α] (c : Limits) (task : α) (s : QueueState α) :
    ((add c task s).1.errorCode = some "QUEUE_FULL" ↔
      ∃ b, c.queueLimit = some b ∧ b ≤ (s.queue.length : Int)) ∧
    ((add c task s).1.errorCode = some "QUEUE_FULL" →
      (add c task s).2 = s ∧ ∀ ops, run c (add c task s).2 ops = run c s ops) := by
  by_cases hfull : atLeast (s.queue.length : Int) c.queueLimit = true
  · have hex := (atLeast_eq_true_iff _ _).1 hfull
    simp [add, hfull, AddResult.errorCode, hex]
  · have hfalse : atLeast (s.queue.length : Int) c.queueLimit = false := by simpa using hfull
    have hno : ¬ ∃ b, c.queueLimit = some b ∧ b ≤ (s.queue.length : Int) := by
      rw [← atLeast_eq_true_iff]; simp [hfalse]
    simp [add, hfalse, AddResult.errorCode, hno]

/-- Witness of C2: one slot taken, one job pending, backlog limit one: a further `add` is
rejected and changes nothing. -/
theorem add_queue_full_iff_witness :
    (add (createLimits (some 1) (some 1)) 3
        (runFresh (some 1) (some 1) [QOp.add 1, QOp.add 2])).1.errorCode = some "QUEUE_FULL" ∧
    (add (createLimits (some 1) (some 1)) 3
        (runFresh (some 1) (some 1) [QOp.add 1, QOp.add 2])).2 =
      runFresh (some 1) (some 1) [QOp.add (1 : Nat), QOp.add 2] :=
  ⟨by decide,
    ((add_queue_full_iff (createLimits (some 1) (some 1)) 3
        (runFresh (some 1) (some 1) [QOp.add (1 : Nat), QOp.add 2])).2 (by decide)).1⟩

/-- C3: after any sequence of `add` calls and completions the accepted jobs, in the order of
their submission, are the started jobs in the order of their start followed by the pending
sequence: the k-th job started is the k-th job accepted, so no job starts before one that
was accepted earlier. -/
theorem start_order_is_submission_order [DecidableEq α] (dc mq : Option Int)
    (ops : List (QOp α)) :
    acceptedJobs (runFresh dc mq ops).trace =
        startedJobs (runFresh dc mq ops).trace ++ (runFresh dc mq ops).queue ∧
    startedJobs (runFresh dc mq ops).trace <+: acceptedJobs (runFresh dc mq ops).trace := by
  have h := (inv_runFresh dc mq ops).fifo
  exact ⟨h, ⟨_, h.symm⟩⟩

/-- C4: in a reachable state the failure of a running job and its success cause the same
transition, up to the kind of settlement logged: `active` is decremented once, the promise of
that job and no other is settled, and the head of the pending sequence, if there is one, is
started (taking the freed slot).  Hence, when as many promises are settled as jobs were
accepted, nothing is running and nothing is pending. -/
theorem completion_frees_slot [DecidableEq α] (dc mq : Option Int) (ops : List (QOp α)) :
    (∀ job, job ∈ (runFresh dc mq ops).running →
      onFulfilled (createLimits dc mq) job (runFresh dc mq ops) =
        (match (runFresh dc mq ops).queue with
         | [] =>
           { active := (runFresh dc mq ops).active - 1
             queue := []
             running := (runFresh dc mq ops).running.erase job
             trace := (runFresh dc mq ops).trace ++ [QEvent.resolved job] }
         | head :: rest =>
           { active := (runFresh dc mq ops).active - 1 + 1
             queue := rest
             running := (runFresh dc mq ops).running.erase job ++ [head]
             trace := (runFresh dc mq ops).trace ++ [QEvent.resolved job] ++
               [QEvent.started head] }) ∧
      onRejected (createLimits dc mq) job (runFresh dc mq ops) =
        (match (runFresh dc mq ops).queue with
         | [] =>
           { active := (runFresh dc mq ops).active - 1
             queue := []
             running := (runFresh dc mq ops).running.erase job
             trace := (runFresh dc mq ops).trace ++ [QEvent.rejected job] }
         | head :: rest =>
           { active := (runFresh dc mq ops).active - 1 + 1
             queue := rest
             running := (runFresh dc mq ops).running.erase job ++ [head]
             trace := (runFresh dc mq ops).trace ++ [QEvent.rejected job] ++
               [QEvent.started head] })) ∧
    ((settledJobs (runFresh dc mq ops).trace).length =
        (acceptedJobs (runFresh dc mq ops).trace).length →
      (runFresh dc mq ops).active = 0 ∧ (runFresh dc mq ops).queue = [] ∧
        (runFresh dc mq ops).running = []) := by
  have h := inv_runFresh dc mq ops
  refine ⟨fun job hmem => ⟨?_, ?_⟩, fun hall => ?_⟩
  · exact (inv_settle_aux _ job _ h hmem (QEvent.resolved job)
      (by simp [settledJobs, startedJobs, acceptedJobs])).1
  · exact (inv_settle_aux _ job _ h hmem (QEvent.rejected job)
      (by simp [settledJobs, startedJobs, acceptedJobs])).1
  · have hf := congrArg List.length h.fifo
    have hcnt := h.count
    have hact := h.active_eq
    rw [List.length_append] at hf
    have hq : (runFresh dc mq ops).queue.length = 0 := by omega
    have hr : (runFresh dc mq ops).running.length = 0 := by omega
    refine ⟨by omega, List.length_eq_zero.1 hq, List.length_eq_zero.1 hr⟩

/-- Witness of C4: three jobs through a queue of one slot, the second one failing. -/
theorem completion_frees_slot_witness :
    (1 : Nat) ∈ (runFresh (some 1) (some 5) [QOp.add 1, QOp.add 2, QOp.add 3]).running ∧
    onRejected (createLimits (some 1) (some 5)) 1
        (runFresh (some 1) (some 5) [QOp.add 1, QOp.add 2, QOp.add 3]) =
      { active := 1, queue := [3], running := [2],
        trace := [QEvent.accepted 1, QEvent.started 1, QEvent.accepted 2, QEvent.accepted 3,
          QEvent.rejected 1, QEvent.started 2] } ∧
    (runFresh (some 1) (some 5)
      [QOp.add (1 : Nat), QOp.add 2, QOp.add 3, QOp.succeed 1, QOp.fail 2,
        QOp.succeed 3]).active = 0 :=
  ⟨by decide,
    ((completion_frees_slot (some 1) (some 5)
      [QOp.add (1 : Nat), QOp.add 2, QOp.add 3]).1 1 (by decide)).2.trans (by decide),
    ((completion_frees_slot (some 1) (some 5)
      [QOp.add (1 : Nat), QOp.add 2, QOp.add 3, QOp.succeed 1, QOp.fail 2,
        QOp.succeed 3]).2 (by decide)).1⟩


theorem submitAll_append (c : Limits) (xs ys : List α) (s : QueueState α) :
    submitAll c s (xs ++ ys) =
      ((submitAll c s xs).1 ++ (submitAll c (submitAll c s xs).2 ys).1,
        (submitAll c (submitAll c s xs).2 ys).2) := by
  induction xs generalizing s with
  | nil => simp [submitAll]
  | cons x xs ih => simp [submitAll, ih]

/-- `add` on a full backlog. -/
theorem add_full (c : Limits) (task : α) (s : QueueState α)
    (h : atLeast (s.queue.length : Int) c.queueLimit = true) :
    add c task s = (AddResult.rejectedWith "QUEUE_FULL" "Download queue is full.", s) := by
  simp [add, h]

/-- `add` with room in the backlog and every slot taken: the job waits. -/
theorem add_busy (c : Limits) (task : α) (s : QueueState α)
    (h : atLeast (s.queue.length : Int) c.queueLimit = false)
    (hb : atLeast s.active c.limit = true) :
    add c task s =
      (AddResult.pending,
        { s with queue := s.queue ++ [task], trace := s.trace ++ [QEvent.accepted task] }) := by
  simp [add, h, runNext_busy c _ hb]
  rw [runNext_busy c _ (by simpa using hb)]

/-- `add` on an empty backlog with a free slot: the job starts at once. -/
theorem add_free (c : Limits) (task : α) (s : QueueState α)
    (h : atLeast (s.queue.length : Int) c.queueLimit = false)
    (hf : atLeast s.active c.limit = false) (hq : s.queue = []) :
    add c task s =
      (AddResult.pending,
        { active := s.active + 1, queue := [], running := s.running ++ [task],
          trace := s.trace ++ [QEvent.accepted task] ++ [QEvent.started task] }) := by
  simp [add, h]
  rw [runNext_cons c _ task [] (by simpa using hf) (by simp [hq])]
  simp

/-- The state after submitting `tasks` to a fresh queue of `N ≥ 1` slots and `B ≥ 1` backlog
places, nothing completing. -/
theorem submitAll_fresh (N B : Nat) (hN : 1 ≤ N) (hB : 1 ≤ B) (tasks : List α) :
    (submitAll (createLimits (some (N : Int)) (some (B : Int))) (initial α) tasks).1 =
      (List.range tasks.length).map (fun i =>
        if i < N + B then AddResult.pending
        else AddResult.rejectedWith "QUEUE_FULL" "Download queue is full.") ∧
    (submitAll (createLimits (some (N : Int)) (some (B : Int))) (initial α) tasks).2.active =
      ((min tasks.length N : Nat) : Int) ∧
    (submitAll (createLimits (some (N : Int)) (some (B : Int))) (initial α) tasks).2.running =
      tasks.take N ∧
    (submitAll (createLimits (some (N : Int)) (some (B : Int))) (initial α) tasks).2.queue =
      (tasks.drop N).take B ∧
    startedJobs
      (submitAll (createLimits (some (N : Int)) (some (B : Int))) (initial α) tasks).2.trace =
      tasks.take N := by
  have hc : createLimits (some (N : Int)) (some (B : Int)) =
      { limit := some (N : Int), queueLimit := some (B : Int) } := by
    have h1 : (0 : Int) < N := by omega
    simp [createLimits, h1]
  rw [hc]
  induction tasks using List.reverseRecOn with
  | nil => simp [submitAll, initial, startedJobs]
  | append_singleton ts t ih =>
    obtain ⟨ih1, ih2, ih3, ih4, ih5⟩ := ih
    rw [submitAll_append]
    generalize hs : (submitAll { limit := some (N : Int), queueLimit := some (B : Int) }
      (initial α) ts).2 = s at *
    simp only [submitAll, List.append_nil]
    have hqlen : s.queue.length = min B (ts.length - N) := by
      rw [ih4]; simp
    by_cases hfull : N + B ≤ ts.length
    · have hF : atLeast (s.queue.length : Int)
          ({ limit := some (N : Int), queueLimit := some (B : Int) } : Limits).queueLimit
          = true := by
        simp [atLeast, hqlen]; omega
      rw [add_full _ t s hF]
      refine ⟨?_, ?_, ?_, ?_, ?_⟩
      · simp [ih1, List.range_succ, Nat.not_lt.2 hfull]
      · rw [ih2, List.length_append, List.length_singleton,
          Nat.min_eq_right (by omega), Nat.min_eq_right (by omega)]
      · rw [ih3, List.take_append_of_le_length (by omega)]
      · rw [ih4, List.drop_append_of_le_length (by omega),
          List.take_append_of_le_length (by simp; omega)]
      · rw [ih5, List.take_append_of_le_length (by omega)]
    · have hF : atLeast (s.queue.length : Int)
          ({ limit := some (N : Int), queueLimit := some (B : Int) } : Limits).queueLimit
          = false := by
        simp [atLeast, hqlen]; omega
      by_cases hbusy : N ≤ ts.length
      · have hB2 : atLeast s.active
            ({ limit := some (N : Int), queueLimit := some (B : Int) } : Limits).limit
            = true := by
          simp [atLeast, ih2]; omega
        rw [add_busy _ t s hF hB2]
        have hlt : ts.length < N + B := by omega
        refine ⟨?_, ?_, ?_, ?_, ?_⟩
        · simp [ih1, List.range_succ, hlt]
        · show s.active = _
          rw [ih2, List.length_append, List.length_singleton,
            Nat.min_eq_right (by omega), Nat.min_eq_right (by omega)]
        · simp only []; rw [ih3, List.take_append_of_le_length (by omega)]
        · simp only []
          rw [ih4, List.drop_append_of_le_length (by omega)]
          rw [List.take_of_length_le (by simp; omega),
            List.take_of_length_le (by simp; omega)]
        · simp only []
          rw [startedJobs_append, ih5, List.take_append_of_le_length (by omega)]
          simp [startedJobs]
      · have hB2 : atLeast s.active
            ({ limit := some (N : Int), queueLimit := some (B : Int) } : Limits).limit
            = false := by
          simp [atLeast, ih2]; omega
        have hq : s.queue = [] := by
          apply List.length_eq_zero.1; rw [hqlen]; omega
        rw [add_free _ t s hF hB2 hq]
        have hlt : ts.length < N + B := by omega
        refine ⟨?_, ?_, ?_, ?_, ?_⟩
        · simp [ih1, List.range_succ, hlt]
        · show s.active + 1 = _
          rw [ih2, List.length_append, List.length_singleton,
            Nat.min_eq_left (by omega), Nat.min_eq_left (by omega)]
          push_cast; ring
        · simp only []
          rw [ih3, List.take_of_length_le (by omega), List.take_of_length_le (by simp; omega)]
        · simp only []
          rw [List.drop_of_length_le (by simp; omega)]; simp
        · simp only []
          rw [startedJobs_append, startedJobs_append, ih5, List.take_of_length_le (by omega),
            List.take_of_length_le (by simp; omega)]
          simp [startedJobs]

theorem inv_submitAll (c : Limits) (tasks : List α) (s : QueueState α) (h : Inv c s) :
    Inv c (submitAll c s tasks).2 := by
  induction tasks generalizing s with
  | nil => simpa [submitAll] using h
  | cons t ts ih => simpa [submitAll] using ih _ (inv_add c t s h)

/-- C5 (amended to a backlog limit of at least one): on a fresh queue of `N ≥ 1` slots and
`B ≥ 1` backlog places, when `tasks` are submitted one after the other and none completes,
the submission of index `i` (from 0) is accepted exactly when `i < N + B` and rejected with
`QUEUE_FULL` otherwise; the first `N` tasks are the running ones and the only ones started,
the next `B` are pending in the order of submission; and when a running job then completes,
with success or failure, the first pending task is the one that starts. -/
theorem submit_without_completion [DecidableEq α] (N B : Nat) (hN : 1 ≤ N) (hB : 1 ≤ B)
    (tasks : List α) :
    (submitAll (createLimits (some (N : Int)) (some (B : Int))) (initial α) tasks).1 =
      (List.range tasks.length).map (fun i =>
        if i < N + B then AddResult.pending
        else AddResult.rejectedWith "QUEUE_FULL" "Download queue is full.") ∧
    (submitAll (createLimits (some (N : Int)) (some (B : Int))) (initial α) tasks).2.active =
      ((min tasks.length N : Nat) : Int) ∧
    (submitAll (createLimits (some (N : Int)) (some (B : Int))) (initial α) tasks).2.running =
      tasks.take N ∧
    (submitAll (createLimits (some (N : Int)) (some (B : Int))) (initial α) tasks).2.queue =
      (tasks.drop N).take B ∧
    startedJobs
      (submitAll (createLimits (some (N : Int)) (some (B : Int))) (initial α) tasks).2.trace =
      tasks.take N ∧
    (∀ job,
      job ∈ (submitAll (createLimits (some (N : Int)) (some (B : Int)))
        (initial α) tasks).2.running →
      N < tasks.length →
      startedJobs (onFulfilled (createLimits (some (N : Int)) (some (B : Int))) job
        (submitAll (createLimits (some (N : Int)) (some (B : Int)))
          (initial α) tasks).2).trace = tasks.take (N + 1) ∧
      startedJobs (onRejected (createLimits (some (N : Int)) (some (B : Int))) job
        (submitAll (createLimits (some (N : Int)) (some (B : Int)))
          (initial α) tasks).2).trace = tasks.take (N + 1)) := by
  obtain ⟨h1, h2, h3, h4, h5⟩ := submitAll_fresh N B hN hB tasks
  refine ⟨h1, h2, h3, h4, h5, ?_⟩
  intro job hmem hlen
  have hinv := inv_submitAll (createLimits (some (N : Int)) (some (B : Int))) tasks
    (initial α) (inv_initial _ (createLimits_wellFormed _ _))
  generalize (submitAll (createLimits (some (N : Int)) (some (B : Int)))
    (initial α) tasks).2 = s at *
  have hq : s.queue = tasks[N] :: (tasks.drop (N + 1)).take (B - 1) := by
    rw [h4, List.drop_eq_getElem_cons hlen]
    obtain ⟨b, rfl⟩ : ∃ b, B = b + 1 := ⟨B - 1, by omega⟩
    rfl
  have hsucc : tasks.take (N + 1) = tasks.take N ++ [tasks[N]] := by
    rw [List.take_succ]; simp [List.getElem?_eq_getElem hlen]
  have hF := (inv_settle_aux _ job s hinv hmem (QEvent.resolved job)
      (by simp [settledJobs, startedJobs, acceptedJobs])).1
  have hR := (inv_settle_aux _ job s hinv hmem (QEvent.rejected job)
      (by simp [settledJobs, startedJobs, acceptedJobs])).1
  constructor
  · unfold onFulfilled
    rw [hF, hq]
    simp only []
    rw [startedJobs_append, startedJobs_append, h5, hsucc]
    simp [startedJobs]
  · unfold onRejected
    rw [hR, hq]
    simp only []
    rw [startedJobs_append, startedJobs_append, h5, hsucc]
    simp [startedJobs]

/-- Witness of C5 as amended: two slots, two backlog places, five submissions. -/
theorem submit_without_completion_witness :
    (submitAll (createLimits (some ((2 : Nat) : Int)) (some ((2 : Nat) : Int))) (initial Nat)
        [10, 11, 12, 13, 14]).1 =
      (List.range [10, 11, 12, 13, 14].length).map (fun i =>
        if i < 2 + 2 then AddResult.pending
        else AddResult.rejectedWith "QUEUE_FULL" "Download queue is full.") ∧
    (submitAll (createLimits (some ((2 : Nat) : Int)) (some ((2 : Nat) : Int))) (initial Nat)
        [10, 11, 12, 13, 14]).2.running = [10, 11] ∧
    (submitAll (createLimits (some ((2 : Nat) : Int)) (some ((2 : Nat) : Int))) (initial Nat)
        [10, 11, 12, 13, 14]).2.queue = [12, 13] :=
  ⟨(submit_without_completion 2 2 (by decide) (by decide) [10, 11, 12, 13, 14]).1,
    (submit_without_completion 2 2 (by decide) (by decide) [10, 11, 12, 13, 14]).2.2.1,
    (submit_without_completion 2 2 (by decide) (by decide) [10, 11, 12, 13, 14]).2.2.2.1⟩

/-- C5 as stated fails for a backlog limit of zero: on a fresh queue of one slot the first
submission is rejected with `QUEUE_FULL`, nothing runs and nothing was started. -/
theorem submit_backlog_zero_rejects_first :
    (submitAll (createLimits (some 1) (some 0)) (initial Nat) [10]).1 =
      [AddResult.rejectedWith "QUEUE_FULL" "Download queue is full."] ∧
    (submitAll (createLimits (some 1) (some 0)) (initial Nat) [10]).2.running = [] ∧
    (submitAll (createLimits (some 1) (some 0)) (initial Nat) [10]).2.active = 0 ∧
    startedJobs (submitAll (createLimits (some 1) (some 0)) (initial Nat) [10]).2.trace = [] := by
  decide

/-- C23: the queue is work-conserving.  In every state reached from `createTaskQueue` through
any sequence of `add` calls and completions (limits that are integers, as `readPositiveInt`
yields them), if a task is pending then the concurrency limit is a finite positive number
`N`, the counter `active` equals `N` and `N` promise chains are live: no task waits while a
slot is free.  In particular nothing is ever pending on a queue without a limit. -/
theorem work_conserving [DecidableEq α] (dc mq : Option Int) (ops : List (QOp α))
    (hpending : (runFresh dc mq ops).queue ≠ []) :
    ∃ N : Int, dc = some N ∧ 0 < N ∧ (createLimits dc mq).limit = some N ∧
      (runFresh dc mq ops).active = N ∧ ((runFresh dc mq ops).running.length : Int) = N := by
  have h := inv_runFresh dc mq ops
  have hb := h.busy hpending
  have ha := h.active_eq
  cases dc with
  | none => simp [createLimits] at hb
  | some n =>
    by_cases hn : 0 < n
    · have hl : (createLimits (some n) mq).limit = some n := by simp [createLimits, hn]
      rw [hl] at hb
      have hn2 : n = (runFresh (some n) mq ops).active := by simpa using hb
      exact ⟨n, rfl, hn, hl, hn2.symm, by omega⟩
    · simp [createLimits, hn] at hb

/-- Witness of C23: two slots, three submissions: the third task waits and both slots are
taken. -/
theorem work_conserving_witness :
    (runFresh (some 2) (some 5) [QOp.add 1, QOp.add 2, QOp.add 3]).queue ≠ [] ∧
    ∃ N : Int, some 2 = some N ∧ 0 < N ∧ (createLimits (some 2) (some 5)).limit = some N ∧
      (runFresh (some 2) (some 5) [QOp.add 1, QOp.add 2, QOp.add 3]).active = N ∧
      ((runFresh (some 2) (some 5) [QOp.add 1, QOp.add 2, QOp.add 3]).running.length : Int) = N :=
  ⟨by decide, work_conserving (some 2) (some 5) [QOp.add 1, QOp.add 2, QOp.add 3] (by decide)⟩

end Queue


/-! ## Properties of downloader.js -/

namespace Downloader

/-- The two ways `attemptDownload` ends: an error after the directory was removed, or a
result that names the directory, which is left in place. -/
theorem attemptDownload_cases (env : Env) (ytdlp : YtDlp) (url : String)
    (options : YtDlpOptions) (w : World) :
    (∃ error, attemptDownload env ytdlp url options w =
        (Except.error error, cleanupTempDir w.nextTmp (afterEngine ytdlp url options w))) ∨
    (∃ result, attemptDownload env ytdlp url options w =
        (Except.ok result, afterEngine ytdlp url options w) ∧
      result.tempDir = w.nextTmp ∧ result.rateLimited = none) := by
  unfold attemptDownload afterEngine
  simp only [mkdtemp]
  split
  · exact Or.inl ⟨_, rfl⟩
  · split
    · exact Or.inl ⟨_, rfl⟩
    · split
      · exact Or.inl ⟨_, rfl⟩
      · exact Or.inr ⟨_, rfl, rfl, rfl⟩

theorem afterEngine_calls (ytdlp : YtDlp) (url : String) (options : YtDlpOptions) (w : World) :
    (afterEngine ytdlp url options w).calls =
      w.calls ++ [(url, withOutput options w.nextTmp)] := by
  simp [afterEngine, runEngine, mkdtemp]

theorem afterEngine_nextTmp (ytdlp : YtDlp) (url : String) (options : YtDlpOptions)
    (w : World) : (afterEngine ytdlp url options w).nextTmp = w.nextTmp + 1 := by
  simp [afterEngine, runEngine, mkdtemp]

theorem afterEngine_dirs (ytdlp : YtDlp) (url : String) (options : YtDlpOptions) (w : World) :
    (w.nextTmp, (ytdlp url (withOutput options w.nextTmp)).files) ∈
      (afterEngine ytdlp url options w).dirs := by
  simp [afterEngine, runEngine, mkdtemp]

theorem readdir_afterEngine (ytdlp : YtDlp) (url : String) (options : YtDlpOptions)
    (w : World) :
    readdir w.nextTmp (afterEngine ytdlp url options w) =
      (ytdlp url (withOutput options w.nextTmp)).files := by
  simp [afterEngine, runEngine, mkdtemp, readdir]

theorem cleanupTempDir_dirs (dir : Nat) (w : World) :
    ∀ d ∈ (cleanupTempDir dir w).dirs, d.1 ≠ dir := by
  intro d hd
  simp [cleanupTempDir] at hd
  exact hd.2

theorem attemptDownload_calls (env : Env) (ytdlp : YtDlp) (url : String)
    (options : YtDlpOptions) (w : World) :
    (attemptDownload env ytdlp url options w).2.calls =
      w.calls ++ [(url, withOutput options w.nextTmp)] := by
  rcases attemptDownload_cases env ytdlp url options w with ⟨e, h⟩ | ⟨r, h, -, -⟩
  · rw [h]; simp [cleanupTempDir, afterEngine_calls]
  · rw [h]; simp [afterEngine_calls]

theorem attemptDownload_nextTmp (env : Env) (ytdlp : YtDlp) (url : String)
    (options : YtDlpOptions) (w : World) :
    (attemptDownload env ytdlp url options w).2.nextTmp = w.nextTmp + 1 := by
  rcases attemptDownload_cases env ytdlp url options w with ⟨e, h⟩ | ⟨r, h, -, -⟩
  · rw [h]; simp [cleanupTempDir, afterEngine_nextTmp]
  · rw [h]; simp [afterEngine_nextTmp]

theorem intercalate_go_eq (lines : List String) :
    ∀ acc : String, String.intercalate.go acc "\n" lines =
      match lines with
      | [] => acc
      | next :: rest => acc ++ "\n" ++ joinLines (next :: rest) := by
  induction lines with
  | nil => intro acc; rfl
  | cons line rest ih =>
    intro acc
    rw [String.intercalate.go, ih]
    cases rest with
    | nil => rfl
    | cons next rest2 =>
      simp only [joinLines, String.append_assoc]

theorem intercalate_eq_joinLines (lines : List String) :
    String.intercalate "\n" lines = joinLines lines := by
  cases lines with
  | nil => rfl
  | cons line rest =>
    rw [String.intercalate, intercalate_go_eq]
    cases rest with
    | nil => rfl
    | cons next rest2 => rfl

theorem truthy_toList (text : Option String) : (truthy text).toList = presentText text := by
  cases text with
  | none => rfl
  | some t =>
    by_cases h : t = ""
    · subst h
      rfl
    · have hd : t.data ≠ [] := fun hd => h (String.ext hd)
      simp [truthy, presentText, h, hd]

theorem filterMap_truthy (texts : List (Option String)) :
    texts.filterMap truthy = (texts.map presentText).flatten := by
  induction texts with
  | nil => rfl
  | cons text rest ih =>
    rw [List.map_cons, List.flatten_cons, ← ih, ← truthy_toList]
    cases h : truthy text <;> simp [List.filterMap_cons, h]

/-- The text the classifier builds is the combined failure text of the specification. -/
theorem errorText_eq_combined (error : Option JsError) :
    errorText error = combinedErrorText error := by
  unfold errorText
  rw [intercalate_eq_joinLines, filterMap_truthy]
  cases error with
  | none => rfl
  | some e => simp [combinedErrorText]

theorem isRateLimit_iff_matches (toLowerCase : String → String) (error : Option JsError) :
    isSoundCloudRateLimitError toLowerCase error = true ↔
      MatchesRateLimitMarker toLowerCase error := by
  simp only [isSoundCloudRateLimitError, MatchesRateLimitMarker, rateLimitMarkers, includes,
    ← errorText_eq_combined]
  generalize toLowerCase (errorText error) = text
  have hinfix : ∀ marker : String, marker.data <:+: text.data ↔
      ∃ before after : List Char, text.data = before ++ marker.data ++ after := by
    intro marker
    constructor
    · rintro ⟨b, a, h⟩; exact ⟨b, a, h.symm⟩
    · rintro ⟨b, a, h⟩; exact ⟨b, a, h.symm⟩
  by_cases hempty : text.data = []
  · simp [hempty]
  · simp [hempty, hinfix, or_assoc]

theorem downloadTrack_primary_ok (env : Env) (ytdlp : YtDlp) (url : String) (w w1 : World)
    (result : Download)
    (h : attemptDownload env ytdlp url (buildYtDlpOptions env true none) w =
      (Except.ok result, w1)) :
    downloadTrack env (Except.ok ytdlp) url w = (Except.ok result, w1) := by
  simp [downloadTrack, h]

theorem downloadTrack_terminal (env : Env) (ytdlp : YtDlp) (url : String) (w w1 : World)
    (error : JsError)
    (h : attemptDownload env ytdlp url (buildYtDlpOptions env true none) w =
      (Except.error error, w1))
    (hrl : isSoundCloudRateLimitError env.toLowerCase (some error) = false) :
    downloadTrack env (Except.ok ytdlp) url w = (Except.error error, w1) := by
  simp [downloadTrack, h, hrl]

theorem downloadTrack_fallback_ok (env : Env) (ytdlp : YtDlp) (url : String) (w w1 w2 : World)
    (error : JsError) (result : Download)
    (h : attemptDownload env ytdlp url (buildYtDlpOptions env true none) w =
      (Except.error error, w1))
    (hrl : isSoundCloudRateLimitError env.toLowerCase (some error) = true)
    (h2 : attemptDownload env ytdlp url (buildYtDlpOptions env false (some fallbackFormat)) w1 =
      (Except.ok result, w2)) :
    downloadTrack env (Except.ok ytdlp) url w =
      (Except.ok { result with rateLimited := some true }, w2) := by
  simp [downloadTrack, h, hrl, h2]

theorem downloadTrack_fallback_error (env : Env) (ytdlp : YtDlp) (url : String)
    (w w1 w2 : World) (error error2 : JsError)
    (h : attemptDownload env ytdlp url (buildYtDlpOptions env true none) w =
      (Except.error error, w1))
    (hrl : isSoundCloudRateLimitError env.toLowerCase (some error) = true)
    (h2 : attemptDownload env ytdlp url (buildYtDlpOptions env false (some fallbackFormat)) w1 =
      (Except.error error2, w2)) :
    downloadTrack env (Except.ok ytdlp) url w = (Except.error error2, w2) := by
  simp [downloadTrack, h, hrl, h2]

/-- The engine calls `downloadTrack` makes: the primary one, then the fallback one exactly
when the primary attempt failed with an error classified as a rate limit. -/
theorem downloadTrack_calls (env : Env) (ytdlp : YtDlp) (url : String) (w : World) :
    (downloadTrack env (Except.ok ytdlp) url w).2.calls =
      w.calls ++ [primaryCall env url w] ++
        (match (attemptDownload env ytdlp url (buildYtDlpOptions env true none) w).1 with
         | Except.error error =>
           if isSoundCloudRateLimitError env.toLowerCase (some error) then
             [fallbackCall env url w]
           else []
         | Except.ok _ => []) := by
  have hc := attemptDownload_calls env ytdlp url (buildYtDlpOptions env true none) w
  have hn := attemptDownload_nextTmp env ytdlp url (buildYtDlpOptions env true none) w
  cases hP : attemptDownload env ytdlp url (buildYtDlpOptions env true none) w with
  | mk r w1 =>
    rw [hP] at hc hn
    simp only [] at hc hn
    cases r with
    | ok result =>
      rw [downloadTrack_primary_ok env ytdlp url w w1 result hP]
      simp [hc, primaryCall]
    | error error =>
      cases hrl : isSoundCloudRateLimitError env.toLowerCase (some error) with
      | false =>
        rw [downloadTrack_terminal env ytdlp url w w1 error hP hrl]
        simp [hc, primaryCall, hrl]
      | true =>
        have hc2 := attemptDownload_calls env ytdlp url
          (buildYtDlpOptions env false (some fallbackFormat)) w1
        cases hF : attemptDownload env ytdlp url
            (buildYtDlpOptions env false (some fallbackFormat)) w1 with
        | mk r2 w2 =>
          rw [hF] at hc2
          simp only [] at hc2
          cases r2 with
          | ok result =>
            rw [downloadTrack_fallback_ok env ytdlp url w w1 w2 error result hP hrl hF]
            simp [hc2, hc, hn, primaryCall, fallbackCall, hrl]
          | error error2 =>
            rw [downloadTrack_fallback_error env ytdlp url w w1 w2 error error2 hP hrl hF]
            simp [hc2, hc, hn, primaryCall, fallbackCall, hrl]

/-- C6: for every error value (absent, or with any `message`, `stderr`, `stdout`) the
classifier of the code answers true exactly when the lower-cased combined failure text of the
specification (the non-empty ones among `message`, `stderr` and `stdout`, in this order,
joined by line breaks, written down apart from the code) contains one of the four markers;
and `downloadTrack` calls the engine a second time, with the fallback options, exactly when
the primary attempt failed with an error the classifier accepts, and otherwise calls it
once. -/
theorem fallback_iff_rate_limit (env : Env) (ytdlp : YtDlp) (url : String) (w : World)
    (error : Option JsError) :
    (isSoundCloudRateLimitError env.toLowerCase error = true ↔
      MatchesRateLimitMarker env.toLowerCase error) ∧
    ((downloadTrack env (Except.ok ytdlp) url w).2.calls =
        w.calls ++ [primaryCall env url w, fallbackCall env url w] ↔
      ∃ failure,
        (attemptDownload env ytdlp url (buildYtDlpOptions env true none) w).1 =
          Except.error failure ∧
        isSoundCloudRateLimitError env.toLowerCase (some failure) = true) ∧
    ((downloadTrack env (Except.ok ytdlp) url w).2.calls = w.calls ++ [primaryCall env url w] ↔
      ¬ ∃ failure,
        (attemptDownload env ytdlp url (buildYtDlpOptions env true none) w).1 =
          Except.error failure ∧
        isSoundCloudRateLimitError env.toLowerCase (some failure) = true) := by
  refine ⟨isRateLimit_iff_matches _ _, ?_, ?_⟩
  · rw [downloadTrack_calls]
    cases (attemptDownload env ytdlp url (buildYtDlpOptions env true none) w).1 with
    | ok result => simp
    | error failure =>
      cases hrl : isSoundCloudRateLimitError env.toLowerCase (some failure) <;> simp [hrl]
  · rw [downloadTrack_calls]
    cases (attemptDownload env ytdlp url (buildYtDlpOptions env true none) w).1 with
    | ok result => simp
    | error failure =>
      cases hrl : isSoundCloudRateLimitError env.toLowerCase (some failure) <;> simp [hrl]

/-- Witness of C6: an error whose message has no marker and whose captured standard output
says `Rate Limit` in mixed case is classified as a rate limit; an error that only says
`HTTP Error 404: Not Found` matches no marker; an engine that fails with `Too Many Requests`
on its standard-error text is called a second time, with the fallback options. -/
theorem fallback_iff_rate_limit_witness :
    isSoundCloudRateLimitError sampleEnv.toLowerCase
      (some { message := some "boom", stdout := some "Rate Limit" }) = true ∧
    ¬ MatchesRateLimitMarker sampleEnv.toLowerCase
      (some { message := some "HTTP Error 404: Not Found" }) ∧
    (downloadTrack sampleEnv
      (Except.ok (fun _ _ =>
        { files := [], error := some { stderr := some "Too Many Requests" } }))
      "u" emptyWorld).2.calls =
      emptyWorld.calls ++ [primaryCall sampleEnv "u" emptyWorld,
        fallbackCall sampleEnv "u" emptyWorld] :=
  ⟨(fallback_iff_rate_limit sampleEnv (fun _ _ => { files := [], error := none }) "u"
      emptyWorld (some { message := some "boom", stdout := some "Rate Limit" })).1.mpr
      ⟨"rate limit", by decide, "boom\n".data, [], by decide⟩,
    fun h => absurd
      ((fallback_iff_rate_limit sampleEnv (fun _ _ => { files := [], error := none }) "u"
        emptyWorld (some { message := some "HTTP Error 404: Not Found" })).1.mpr h)
      (by decide),
    (fallback_iff_rate_limit sampleEnv
      (fun _ _ => { files := [], error := some { stderr := some "Too Many Requests" } })
      "u" emptyWorld none).2.1.mpr
      ⟨{ stderr := some "Too Many Requests" }, rfl, by decide⟩⟩

/-- C7: when the primary attempt fails with an error that is not classified as a rate limit,
`downloadTrack` fails with that very error, the engine was called once, and the temporary
directory of the attempt, which `mkdtemp` had created, no longer exists in the world in
which the error reaches the caller. -/
theorem terminal_error_propagates (env : Env) (ytdlp : YtDlp) (url : String) (w : World)
    (error : JsError)
    (hfail : (attemptDownload env ytdlp url (buildYtDlpOptions env true none) w).1 =
      Except.error error)
    (hterminal : isSoundCloudRateLimitError env.toLowerCase (some error) = false) :
    (downloadTrack env (Except.ok ytdlp) url w).1 = Except.error error ∧
    (downloadTrack env (Except.ok ytdlp) url w).2.calls = w.calls ++ [primaryCall env url w] ∧
    (w.nextTmp, []) ∈ (mkdtemp w).2.dirs ∧
    ∀ d ∈ (downloadTrack env (Except.ok ytdlp) url w).2.dirs, d.1 ≠ w.nextTmp := by
  rcases attemptDownload_cases env ytdlp url (buildYtDlpOptions env true none) w with
    ⟨e, h⟩ | ⟨r, h, -, -⟩
  · rw [h] at hfail
    simp only [Except.error.injEq] at hfail
    subst hfail
    rw [downloadTrack_terminal env ytdlp url w _ e h hterminal]
    refine ⟨rfl, ?_, ?_, ?_⟩
    · simp [cleanupTempDir, afterEngine_calls, primaryCall]
    · simp [mkdtemp]
    · exact cleanupTempDir_dirs _ _
  · rw [h] at hfail
    simp at hfail

/-- Witness of C7: the engine fails with a 404. -/
theorem terminal_error_propagates_witness :
    (downloadTrack sampleEnv
        (Except.ok (fun _ _ =>
          { files := ["t.part"], error := some { message := some "HTTP Error 404: Not Found" } }))
        "u" emptyWorld).1 = Except.error { message := some "HTTP Error 404: Not Found" } ∧
    (downloadTrack sampleEnv
        (Except.ok (fun _ _ =>
          { files := ["t.part"], error := some { message := some "HTTP Error 404: Not Found" } }))
        "u" emptyWorld).2.dirs = [] :=
  ⟨(terminal_error_propagates sampleEnv
      (fun _ _ =>
        { files := ["t.part"], error := some { message := some "HTTP Error 404: Not Found" } })
      "u" emptyWorld { message := some "HTTP Error 404: Not Found" } rfl (by decide)).1,
    by decide⟩

/-- C8: `downloadTrack` calls the engine at most twice.  A result of the primary attempt is
returned as it is and carries no `rateLimited` mark.  When the primary attempt fails with a
rate-limit error, the engine is called exactly once more, with options that carry no header
(so no `Authorization`) and the capped format; a success of that attempt is returned with
`rateLimited = true`, a failure of it, whatever its text, is propagated with no third call. -/
theorem single_fallback (env : Env) (ytdlp : YtDlp) (url : String) (w : World) :
    (downloadTrack env (Except.ok ytdlp) url w).2.calls.length ≤ w.calls.length + 2 ∧
    (fallbackCall env url w).2.addHeader = none ∧
    (fallbackCall env url w).2.format = fallbackFormat ∧
    (∀ result,
      (attemptDownload env ytdlp url (buildYtDlpOptions env true none) w).1 =
        Except.ok result →
      (downloadTrack env (Except.ok ytdlp) url w).1 = Except.ok result ∧
      result.rateLimited = none ∧
      (downloadTrack env (Except.ok ytdlp) url w).2.calls =
        w.calls ++ [primaryCall env url w]) ∧
    (∀ error,
      (attemptDownload env ytdlp url (buildYtDlpOptions env true none) w).1 =
        Except.error error →
      isSoundCloudRateLimitError env.toLowerCase (some error) = true →
      (downloadTrack env (Except.ok ytdlp) url w).2.calls =
        w.calls ++ [primaryCall env url w, fallbackCall env url w] ∧
      (∀ result,
        (attemptDownload env ytdlp url (buildYtDlpOptions env false (some fallbackFormat))
          (attemptDownload env ytdlp url (buildYtDlpOptions env true none) w).2).1 =
            Except.ok result →
        (downloadTrack env (Except.ok ytdlp) url w).1 =
          Except.ok { result with rateLimited := some true }) ∧
      (∀ error2,
        (attemptDownload env ytdlp url (buildYtDlpOptions env false (some fallbackFormat))
          (attemptDownload env ytdlp url (buildYtDlpOptions env true none) w).2).1 =
            Except.error error2 →
        (downloadTrack env (Except.ok ytdlp) url w).1 = Except.error error2)) := by
  have hcalls := downloadTrack_calls env ytdlp url w
  refine ⟨?_, ?_, ?_, ?_, ?_⟩
  · rw [hcalls]
    cases (attemptDownload env ytdlp url (buildYtDlpOptions env true none) w).1 with
    | ok result => simp
    | error failure =>
      cases hrl : isSoundCloudRateLimitError env.toLowerCase (some failure) <;> simp [hrl]
  · simp [fallbackCall, withOutput, buildYtDlpOptions]
  · simp [fallbackCall, withOutput, buildYtDlpOptions, truthy, fallbackFormat]
  · intro result hok
    rcases attemptDownload_cases env ytdlp url (buildYtDlpOptions env true none) w with
      ⟨e, h⟩ | ⟨r, h, -, hr⟩
    · rw [h] at hok; simp at hok
    · rw [hcalls]
      rw [h] at hok ⊢
      simp only [Except.ok.injEq] at hok
      subst hok
      rw [downloadTrack_primary_ok env ytdlp url w _ r h]
      exact ⟨rfl, hr, by simp⟩
  · intro error herr hrl
    rw [hcalls]
    cases hP : attemptDownload env ytdlp url (buildYtDlpOptions env true none) w with
    | mk r1 w1 =>
      rw [hP] at herr
      simp only [] at herr
      subst herr
      refine ⟨by simp [hrl], ?_, ?_⟩
      · intro result hok
        cases hF : attemptDownload env ytdlp url
            (buildYtDlpOptions env false (some fallbackFormat)) w1 with
        | mk r2 w2 =>
          rw [hF] at hok
          simp only [] at hok
          subst hok
          rw [downloadTrack_fallback_ok env ytdlp url w w1 w2 error result hP hrl hF]
      · intro error2 herr2
        cases hF : attemptDownload env ytdlp url
            (buildYtDlpOptions env false (some fallbackFormat)) w1 with
        | mk r2 w2 =>
          rw [hF] at herr2
          simp only [] at herr2
          subst herr2
          rw [downloadTrack_fallback_error env ytdlp url w w1 w2 error error2 hP hrl hF]

/-- Witness of C8: the engine answers 429 to the authenticated call and succeeds without
the header. -/
theorem single_fallback_witness :
    (downloadTrack sampleEnv
        (Except.ok (fun _ opts =>
          if opts.addHeader.isSome then
            { files := [],
              error := some { message := some "HTTP Error 429: Too Many Requests" } }
          else { files := ["t.m4a"], error := none }))
        "u" emptyWorld).1 =
      Except.ok
        { tempDir := 1, path := { dir := 1, name := "t.m4a" }, filename := "t.m4a",
          metadata := none, rateLimited := some true } :=
  ((single_fallback sampleEnv
      (fun _ opts =>
        if opts.addHeader.isSome then
          { files := [],
            error := some { message := some "HTTP Error 429: Too Many Requests" } }
        else { files := ["t.m4a"], error := none })
      "u" emptyWorld).2.2.2.2
    { message := some "HTTP Error 429: Too Many Requests" } rfl (by decide)).2.1
    { tempDir := 1, path := { dir := 1, name := "t.m4a" }, filename := "t.m4a",
      metadata := none, rateLimited := none } rfl

theorem pickAudioFile_error_iff (env : Env) (tmpDir : Nat) (files : List String) :
    (∃ error, pickAudioFile env tmpDir files = Except.error error) ↔
      (scanFiles env tmpDir files none []).2 = [] := by
  unfold pickAudioFile
  split
  · rename_i h; simp [h]
  · rename_i h; simp [h]

/-- C9: once `mkdtemp` has created the directory of an attempt, a failed attempt returns its
error in a world where that directory no longer exists, and a successful one returns a result
whose `tempDir` is that directory, which still exists with the files of the engine.  The
attempt fails exactly when the engine throws, the directory is empty, or no file is an audio
candidate. -/
theorem attempt_releases_or_hands_over (env : Env) (ytdlp : YtDlp) (url : String)
    (options : YtDlpOptions) (w : World) :
    (w.nextTmp, []) ∈ (mkdtemp w).2.dirs ∧
    (∀ error, (attemptDownload env ytdlp url options w).1 = Except.error error →
      ∀ d ∈ (attemptDownload env ytdlp url options w).2.dirs, d.1 ≠ w.nextTmp) ∧
    (∀ result, (attemptDownload env ytdlp url options w).1 = Except.ok result →
      result.tempDir = w.nextTmp ∧
      (w.nextTmp, (ytdlp url (withOutput options w.nextTmp)).files) ∈
        (attemptDownload env ytdlp url options w).2.dirs) ∧
    ((∃ error, (attemptDownload env ytdlp url options w).1 = Except.error error) ↔
      (ytdlp url (withOutput options w.nextTmp)).error ≠ none ∨
      (ytdlp url (withOutput options w.nextTmp)).files = [] ∨
      (scanFiles env w.nextTmp (ytdlp url (withOutput options w.nextTmp)).files none []).2
        = []) := by
  refine ⟨by simp [mkdtemp], ?_, ?_, ?_⟩
  · intro error herr
    rcases attemptDownload_cases env ytdlp url options w with ⟨e, h⟩ | ⟨r, h, -, -⟩
    · rw [h]; exact cleanupTempDir_dirs _ _
    · rw [h] at herr; simp at herr
  · intro result hok
    rcases attemptDownload_cases env ytdlp url options w with ⟨e, h⟩ | ⟨r, h, hr, -⟩
    · rw [h] at hok; simp at hok
    · rw [h] at hok ⊢
      simp only [Except.ok.injEq] at hok
      subst hok
      exact ⟨hr, afterEngine_dirs ytdlp url options w⟩
  · have hread := readdir_afterEngine ytdlp url options w
    have hpick := pickAudioFile_error_iff env w.nextTmp
      (ytdlp url (withOutput options w.nextTmp)).files
    unfold afterEngine at hread
    simp only [mkdtemp] at hread
    unfold attemptDownload
    simp only [mkdtemp, hread]
    cases hE : (ytdlp url (withOutput options w.nextTmp)).error with
    | some e => simp [runEngine, hE]
    | none =>
      simp only [runEngine, hE]
      cases hfiles : (ytdlp url (withOutput options w.nextTmp)).files with
      | nil => simp
      | cons f fs =>
        rw [hfiles] at hpick
        cases hp : pickAudioFile env w.nextTmp (f :: fs) with
        | error e2 =>
          have := hpick.1 ⟨e2, hp⟩
          simp [this]
        | ok r =>
          have hne : ¬ (scanFiles env w.nextTmp (f :: fs) none []).2 = [] := by
            intro hcontra
            obtain ⟨e2, he2⟩ := hpick.2 hcontra
            rw [hp] at he2
            simp at he2
          simp [hne]

/-- Witness of C9: an attempt that finds only a thumbnail and an opus file fails and removes
its directory; one that finds an audio file hands the directory over. -/
theorem attempt_releases_or_hands_over_witness :
    (attemptDownload sampleEnv (fun _ _ => { files := ["t.opus", "t.JPG"], error := none })
        "u" (buildYtDlpOptions sampleEnv true none) emptyWorld).2.dirs = [] ∧
    (14, ["t.mp3", "t.info.json"]) ∈
      (attemptDownload sampleEnv (fun _ _ => { files := ["t.mp3", "t.info.json"], error := none })
        "u" (buildYtDlpOptions sampleEnv true none)
        { dirs := [(3, ["old.mp3"])], nextTmp := 14, calls := [] }).2.dirs :=
  ⟨by decide,
    ((attempt_releases_or_hands_over sampleEnv
      (fun _ _ => { files := ["t.mp3", "t.info.json"], error := none })
      "u" (buildYtDlpOptions sampleEnv true none)
      { dirs := [(3, ["old.mp3"])], nextTmp := 14, calls := [] }).2.2.1
      { tempDir := 14, path := { dir := 14, name := "t.mp3" }, filename := "t.mp3",
        metadata := none, rateLimited := none } rfl).2⟩

theorem stringUrls_collect (entries : List Json) :
    StringUrls entries ((entries.map urlOf).filterMap asString) := by
  induction entries with
  | nil => exact StringUrls.nil
  | cons entry rest ih =>
    cases entry with
    | object fields =>
      cases hl : fields.lookup "url" with
      | none =>
        have h : ((Json.object fields :: rest).map urlOf).filterMap asString =
            (rest.map urlOf).filterMap asString := by
          simp [urlOf, asString, hl]
        rw [h]
        refine StringUrls.skip _ _ _ (fun fields2 u heq => ?_) ih
        cases heq
        rw [hl]
        simp
      | some v =>
        cases v with
        | string u =>
          have h : ((Json.object fields :: rest).map urlOf).filterMap asString =
              u :: (rest.map urlOf).filterMap asString := by
            simp [urlOf, asString, hl]
          rw [h]
          exact StringUrls.keep fields u rest _ hl ih
        | null =>
          have h : ((Json.object fields :: rest).map urlOf).filterMap asString =
              (rest.map urlOf).filterMap asString := by
            simp [urlOf, asString, hl]
          rw [h]
          refine StringUrls.skip _ _ _ (fun fields2 u heq => ?_) ih
          cases heq
          rw [hl]
          simp
        | bool b =>
          have h : ((Json.object fields :: rest).map urlOf).filterMap asString =
              (rest.map urlOf).filterMap asString := by
            simp [urlOf, asString, hl]
          rw [h]
          refine StringUrls.skip _ _ _ (fun fields2 u heq => ?_) ih
          cases heq
          rw [hl]
          simp
        | number n =>
          have h : ((Json.object fields :: rest).map urlOf).filterMap asString =
              (rest.map urlOf).filterMap asString := by
            simp [urlOf, asString, hl]
          rw [h]
          refine StringUrls.skip _ _ _ (fun fields2 u heq => ?_) ih
          cases heq
          rw [hl]
          simp
        | array items =>
          have h : ((Json.object fields :: rest).map urlOf).filterMap asString =
              (rest.map urlOf).filterMap asString := by
            simp [urlOf, asString, hl]
          rw [h]
          refine StringUrls.skip _ _ _ (fun fields2 u heq => ?_) ih
          cases heq
          rw [hl]
          simp
        | object inner =>
          have h : ((Json.object fields :: rest).map urlOf).filterMap asString =
              (rest.map urlOf).filterMap asString := by
            simp [urlOf, asString, hl]
          rw [h]
          refine StringUrls.skip _ _ _ (fun fields2 u heq => ?_) ih
          cases heq
          rw [hl]
          simp
    | null =>
      exact StringUrls.skip _ _ _ (fun fields u heq => by cases heq) ih
    | bool b =>
      exact StringUrls.skip _ _ _ (fun fields u heq => by cases heq) ih
    | number n =>
      exact StringUrls.skip _ _ _ (fun fields u heq => by cases heq) ih
    | string s =>
      exact StringUrls.skip _ _ _ (fun fields u heq => by cases heq) ih
    | array items =>
      exact StringUrls.skip _ _ _ (fun fields u heq => by cases heq) ih

theorem stringUrls_unique (entries : List Json) (a b : List String)
    (ha : StringUrls entries a) (hb : StringUrls entries b) : a = b := by
  induction ha generalizing b with
  | nil =>
    cases hb
    rfl
  | keep fields u entries urls hurl rest ih =>
    cases hb with
    | keep _ u2 _ urls2 hurl2 rest2 =>
      rw [hurl] at hurl2
      cases hurl2
      rw [ih urls2 rest2]
    | skip _ _ _ hnone rest2 =>
      exact absurd hurl (hnone fields u rfl)
  | skip entry entries urls hnone rest ih =>
    cases hb with
    | keep fields u2 _ urls2 hurl2 rest2 =>
      exact absurd hurl2 (hnone fields u2 rfl)
    | skip _ _ _ hnone2 rest2 =>
      exact ih b rest2

theorem collected_length_le (entries : List Json) :
    ((entries.map urlOf).filterMap asString).length ≤ entries.length := by
  have h := List.length_filterMap_le asString (entries.map urlOf)
  rw [List.length_map] at h
  exact h

end Downloader

/-! ## Properties of the playlist session -/

namespace Bot

theorem scheduleLog_append (xs ys : List Effect) :
    scheduleLog (xs ++ ys) = scheduleLog xs ++ scheduleLog ys := by
  induction xs with
  | nil => rfl
  | cons e es ih =>
    cases e with
    | replyWithButtons m sid => cases m <;> simp [scheduleLog, ih]
    | _ => simp [scheduleLog, ih]

theorem scheduleLog_deliverItem (item : Item) : scheduleLog (deliverItem item) = [] := by
  unfold deliverItem
  simp only [scheduleLog_append]
  have h1 : scheduleLog (if item.download.rateLimited == some true then
      [Effect.reply Message.premiumRateLimited] else []) = [] := by
    split <;> rfl
  have h2 : scheduleLog (match Downloader.truthy item.qualityWarning with
      | some warning => [Effect.reply (Message.text warning)]
      | none => []) = [] := by
    split <;> rfl
  rw [h1, h2]
  rfl

theorem scheduleLog_deliveries (buffer : List Item) :
    scheduleLog (buffer.map deliverItem).flatten = [] := by
  induction buffer with
  | nil => rfl
  | cons item rest ih => simp [scheduleLog_append, scheduleLog_deliverItem, ih]

/-- `sendPlaylistGroup` schedules nothing and touches only the buffer and the effects. -/
theorem sendPlaylistGroup_frame (st : BotState) :
    (sendPlaylistGroup st).registered = st.registered ∧
    (sendPlaylistGroup st).inFlight = st.inFlight ∧
    (sendPlaylistGroup st).session.nextIndex = st.session.nextIndex ∧
    (sendPlaylistGroup st).session.tracks = st.session.tracks ∧
    (sendPlaylistGroup st).session.awaitingPrompt = st.session.awaitingPrompt ∧
    (sendPlaylistGroup st).session.id = st.session.id ∧
    (sendPlaylistGroup st).session.userId = st.session.userId ∧
    scheduleLog (sendPlaylistGroup st).effects = scheduleLog st.effects := by
  unfold sendPlaylistGroup
  split
  · simp
  · simp [scheduleLog_append, scheduleLog_deliveries]

theorem jobBody_frame (result : Option Item) (st : BotState) :
    (jobBody result st).registered = st.registered ∧
    (jobBody result st).inFlight = st.inFlight ∧
    (jobBody result st).session.nextIndex = st.session.nextIndex ∧
    (jobBody result st).session.tracks = st.session.tracks ∧
    (jobBody result st).session.awaitingPrompt = st.session.awaitingPrompt ∧
    (jobBody result st).session.id = st.session.id ∧
    (jobBody result st).session.userId = st.session.userId ∧
    scheduleLog (jobBody result st).effects = scheduleLog st.effects := by
  cases result with
  | none => simp [jobBody]
  | some item =>
    simp only [jobBody]
    have h := sendPlaylistGroup_frame
      { st with session := { st.session with buffer := st.session.buffer ++ [item] } }
    simpa using h

/-- `enqueueNextTrack` at the end of the tracks: the session is removed, nothing is scheduled. -/
theorem enqueueNextTrack_done (force : Bool) (st : BotState) (hreg : st.registered = true)
    (hend : st.session.tracks.length ≤ st.session.nextIndex) :
    (enqueueNextTrack force st).registered = false ∧
    (enqueueNextTrack force st).inFlight = st.inFlight ∧
    (enqueueNextTrack force st).session.nextIndex = st.session.nextIndex ∧
    (enqueueNextTrack force st).session.tracks = st.session.tracks ∧
    scheduleLog (enqueueNextTrack force st).effects = scheduleLog st.effects := by
  unfold enqueueNextTrack
  have hs := sendPlaylistGroup_frame st
  simp only [hreg, Bool.not_true, Bool.false_eq_true, if_false, ge_iff_le, hend, if_true]
  split
  · simp [scheduleLog_append, hs, scheduleLog]
  · simp [scheduleLog_append, scheduleLog]

/-- `enqueueNextTrack` without `force` at a chunk boundary before the end: the prompt is sent,
the cursor stays, nothing is given to the queue. -/
theorem enqueueNextTrack_pause (st : BotState) (hreg : st.registered = true)
    (hlt : st.session.nextIndex < st.session.tracks.length)
    (hb : isBoundary st.session.nextIndex = true) (hwait : st.session.awaitingPrompt = false) :
    enqueueNextTrack false st =
      { st with
        session :=
          { st.session with
            promptMessageId := some st.effects.length
            awaitingPrompt := true }
        effects := st.effects ++
          [Effect.replyWithButtons
            (Message.playlistChunkPrompt st.session.nextIndex st.session.tracks.length
              PLAYLIST_CHUNK_SIZE)
            st.session.id] } := by
  unfold enqueueNextTrack
  have hnot : ¬ st.session.tracks.length ≤ st.session.nextIndex := by omega
  simp only [isBoundary, Bool.and_eq_true, decide_eq_true_eq] at hb
  simp [hreg, hnot, hb.1, hb.2, hwait]

/-- `enqueueNextTrack` before the end, forced or away from a chunk boundary: the track at the
cursor is given to the queue and the cursor advances by one. -/
theorem enqueueNextTrack_submit (force : Bool) (st : BotState) (hreg : st.registered = true)
    (hlt : st.session.nextIndex < st.session.tracks.length)
    (hgo : force = true ∨ isBoundary st.session.nextIndex = false) :
    ∃ trackUrl, st.session.tracks[st.session.nextIndex]? = some trackUrl ∧
      enqueueNextTrack force st =
        { st with
          session := { st.session with nextIndex := st.session.nextIndex + 1 }
          inFlight := st.inFlight ++ [trackUrl]
          effects := st.effects ++ [Effect.queueAdd trackUrl] } := by
  refine ⟨st.session.tracks[st.session.nextIndex], List.getElem?_eq_getElem hlt, ?_⟩
  unfold enqueueNextTrack
  have hnot : ¬ st.session.tracks.length ≤ st.session.nextIndex := by omega
  have hcond : (!force && decide (st.session.nextIndex > 0)
      && st.session.nextIndex % PLAYLIST_CHUNK_SIZE == 0) = false := by
    rcases hgo with hf | hb
    · simp [hf]
    · simp only [isBoundary] at hb
      cases force <;> simp_all
  simp only [hreg, Bool.not_true, Bool.false_eq_true, if_false, ge_iff_le, hnot, hcond,
    List.getElem?_eq_getElem hlt]

theorem enqueue_done (st : BotState) (tracks : List String) (k : Nat) (log : List Act)
    (h : Shape st true false tracks k 0 log) (hend : tracks.length ≤ k) :
    Shape (enqueueNextTrack false st) false false tracks k 0 log := by
  obtain ⟨h1, h2, h3, h4, h5, h6⟩ := h
  have hd := enqueueNextTrack_done false st h1 (by rw [h3, h4]; exact hend)
  obtain ⟨d1, d2, d3, d4, d5⟩ := hd
  unfold enqueueNextTrack at *
  have hle : st.session.tracks.length ≤ st.session.nextIndex := by rw [h3, h4]; exact hend
  refine ⟨d1, ?_, by rw [d3, h3], by rw [d4, h4], by rw [d2, h5], by rw [d5, h6]⟩
  have hs := sendPlaylistGroup_frame st
  simp only [h1, Bool.not_true, Bool.false_eq_true, if_false, ge_iff_le, hle, if_true]
  split
  · simp [hs, h2]
  · simp [h2]

theorem enqueue_pause (st : BotState) (tracks : List String) (k : Nat) (log : List Act)
    (h : Shape st true false tracks k 0 log) (hlt : k < tracks.length)
    (hb : isBoundary k = true) :
    Shape (enqueueNextTrack false st) true true tracks k 0 (log ++ [Act.pause k]) := by
  obtain ⟨h1, h2, h3, h4, h5, h6⟩ := h
  rw [enqueueNextTrack_pause st h1 (by rw [h3, h4]; exact hlt) (by rw [h3]; exact hb) h2]
  exact ⟨h1, rfl, h3, h4, h5, by simp [scheduleLog_append, h6, scheduleLog, h3]⟩

theorem enqueue_submit (force : Bool) (st : BotState) (tracks : List String) (k : Nat)
    (log : List Act) (h : Shape st true false tracks k 0 log) (hlt : k < tracks.length)
    (hgo : force = true ∨ isBoundary k = false) :
    ∃ trackUrl, tracks[k]? = some trackUrl ∧
      Shape (enqueueNextTrack force st) true false tracks (k + 1) 1
        (log ++ [Act.submit trackUrl]) := by
  obtain ⟨h1, h2, h3, h4, h5, h6⟩ := h
  obtain ⟨t, ht, heq⟩ := enqueueNextTrack_submit force st h1 (by rw [h3, h4]; exact hlt)
    (by rw [h3]; exact hgo)
  refine ⟨t, by rw [← h4, ← h3]; exact ht, ?_⟩
  rw [heq]
  exact ⟨h1, h2, by simp [h3], h4, by simp [h5],
    by simp [scheduleLog_append, h6, scheduleLog]⟩

theorem afterAdd_queueFull (outcome : Settlement) (st : BotState) (tracks : List String)
    (k : Nat) (log : List Act) (h : Shape st true false tracks k 0 log)
    (hq : outcome.isQueueFull = true) :
    Shape (afterAdd outcome st) false false tracks k 0 log := by
  obtain ⟨h1, h2, h3, h4, h5, h6⟩ := h
  cases outcome with
  | jobReturned r => simp [Settlement.isQueueFull] at hq
  | rejected error =>
    simp only [Settlement.isQueueFull] at hq
    simp only [afterAdd, hq, if_true]
    refine ⟨rfl, h2, h3, h4, h5, ?_⟩
    simp only [scheduleLog_append, h6]
    split <;> simp [scheduleLog]

theorem afterAdd_continue (outcome : Settlement) (st : BotState) (tracks : List String)
    (k : Nat) (log : List Act) (h : Shape st true false tracks k 0 log)
    (hq : outcome.isQueueFull = false) :
    ∃ st1, afterAdd outcome st = enqueueNextTrack false st1 ∧
      Shape st1 true false tracks k 0 log := by
  obtain ⟨h1, h2, h3, h4, h5, h6⟩ := h
  cases outcome with
  | jobReturned r =>
    obtain ⟨j1, j2, j3, j4, j5, -, -, j8⟩ := jobBody_frame r st
    exact ⟨jobBody r st, rfl,
      ⟨by rw [j1, h1], by rw [j5, h2], by rw [j3, h3], by rw [j4, h4], by rw [j2, h5],
        by rw [j8, h6]⟩⟩
  | rejected error =>
    simp only [Settlement.isQueueFull] at hq
    simp only [afterAdd, hq, Bool.false_eq_true, if_false]
    refine ⟨_, rfl, ⟨h1, h2, h3, h4, h5, ?_⟩⟩
    simp only [scheduleLog_append, h6]
    split <;> simp [scheduleLog]

theorem step_settled (outcome : Settlement) (st : BotState) (tracks : List String)
    (k : Nat) (log : List Act) (h : Shape st true false tracks k 1 log) :
    ∃ st0, step st (BotEvent.settled 0 outcome) = afterAdd outcome st0 ∧
      Shape st0 true false tracks k 0 log := by
  obtain ⟨h1, h2, h3, h4, h5, h6⟩ := h
  refine ⟨{ st with inFlight := st.inFlight.eraseIdx 0 }, ?_, ⟨h1, h2, h3, h4, ?_, h6⟩⟩
  · simp [step, h5]
  · simp [List.length_eraseIdx, h5]

theorem step_continue (st : BotState) (tracks : List String) (k : Nat) (log : List Act)
    (h : Shape st true true tracks k 0 log) :
    ∃ st1, step st (BotEvent.callback "cont" st.session.id (some st.session.userId)) =
        enqueueNextTrack true st1 ∧
      Shape st1 true false tracks k 0 log := by
  obtain ⟨h1, h2, h3, h4, h5, h6⟩ := h
  refine ⟨{ st with
      session := { st.session with awaitingPrompt := false }
      effects := st.effects ++ [Effect.answerCallbackQuery CallbackAnswer.continuing] }, ?_,
    ⟨h1, rfl, h3, h4, h5, by simp [scheduleLog_append, h6, scheduleLog]⟩⟩
  simp [step, handleCallback, h1]

theorem playToEnd_finished (outcomes : Nat → Settlement) (fuel : Nat) (st : BotState)
    (tracks : List String) (k : Nat) (log : List Act)
    (h : Shape st false false tracks k 0 log) : playToEnd outcomes fuel st = st := by
  obtain ⟨h1, h2, h3, h4, h5, h6⟩ := h
  cases fuel with
  | zero => rfl
  | succ f => simp [playToEnd, h5, h1]

theorem expectedSchedule_succ_of_boundary (tracks : List String) (k : Nat) (t : String)
    (ht : tracks[k]? = some t) (hb : isBoundary k = true) :
    expectedSchedule tracks (k + 1) =
      expectedSchedule tracks k ++ [Act.pause k] ++ [Act.submit t] := by
  simp [expectedSchedule, ht, hb]

theorem expectedSchedule_succ_of_inner (tracks : List String) (k : Nat) (t : String)
    (ht : tracks[k]? = some t) (hb : isBoundary k = false) :
    expectedSchedule tracks (k + 1) = expectedSchedule tracks k ++ [Act.submit t] := by
  simp [expectedSchedule, ht, hb]

/-- From the moment the track of index `c` is pending, a session whose prompts are all
answered with continue runs to its end within two events per remaining track. -/
theorem playToEnd_from_waiting (outcomes : Nat → Settlement) (tracks : List String) :
    ∀ (m c : Nat) (st : BotState) (fuel : Nat),
      Shape st true false tracks (c + 1) 1 (expectedSchedule tracks (c + 1)) →
      tracks.length - c = m + 1 → 2 * (m + 1) ≤ fuel →
      Finished tracks outcomes c (playToEnd outcomes fuel st) := by
  intro m
  induction m with
  | zero =>
    intro c st fuel hw hm hfuel
    obtain ⟨f, rfl⟩ : ∃ f, fuel = f + 1 := ⟨fuel - 1, by omega⟩
    have hpend : (st.inFlight.length != 0) = true := by simp [hw.pending_eq]
    have hidx : st.session.nextIndex - 1 = c := by rw [hw.cursor_eq]; omega
    obtain ⟨st0, hstep, h0⟩ := step_settled (outcomes c) st tracks (c + 1) _ hw
    simp only [playToEnd, hpend, if_true, hidx, hstep]
    cases hq : (outcomes c).isQueueFull with
    | true =>
      have ht := afterAdd_queueFull (outcomes c) st0 tracks (c + 1) _ h0 hq
      rw [playToEnd_finished outcomes f _ tracks (c + 1) _ ht]
      refine ⟨c + 1, ht, by omega, by omega, ?_⟩
      intro hall
      have := hall c (le_refl c) (by omega)
      rw [hq] at this
      cases this
    | false =>
      obtain ⟨st1, heq, h1⟩ := afterAdd_continue (outcomes c) st0 tracks (c + 1) _ h0 hq
      have ht := enqueue_done st1 tracks (c + 1) _ h1 (by omega)
      rw [heq, playToEnd_finished outcomes f _ tracks (c + 1) _ ht]
      exact ⟨c + 1, ht, by omega, by omega, fun _ => by omega⟩
  | succ m ih =>
    intro c st fuel hw hm hfuel
    obtain ⟨f, rfl⟩ : ∃ f, fuel = f + 1 := ⟨fuel - 1, by omega⟩
    have hpend : (st.inFlight.length != 0) = true := by simp [hw.pending_eq]
    have hidx : st.session.nextIndex - 1 = c := by rw [hw.cursor_eq]; omega
    obtain ⟨st0, hstep, h0⟩ := step_settled (outcomes c) st tracks (c + 1) _ hw
    simp only [playToEnd, hpend, if_true, hidx, hstep]
    cases hq : (outcomes c).isQueueFull with
    | true =>
      have ht := afterAdd_queueFull (outcomes c) st0 tracks (c + 1) _ h0 hq
      rw [playToEnd_finished outcomes f _ tracks (c + 1) _ ht]
      refine ⟨c + 1, ht, by omega, by omega, ?_⟩
      intro hall
      have := hall c (le_refl c) (by omega)
      rw [hq] at this
      cases this
    | false =>
      obtain ⟨st1, heq, h1⟩ := afterAdd_continue (outcomes c) st0 tracks (c + 1) _ h0 hq
      rw [heq]
      have hlt : c + 1 < tracks.length := by omega
      have extend : ∀ final, Finished tracks outcomes (c + 1) final →
          Finished tracks outcomes c final := by
        rintro final ⟨k, hk1, hk2, hk3, hk4⟩
        exact ⟨k, hk1, hk2, by omega, fun hall => hk4 (fun i hi hin => hall i (by omega) hin)⟩
      cases hb : isBoundary (c + 1) with
      | true =>
        have hp := enqueue_pause st1 tracks (c + 1) _ h1 hlt hb
        obtain ⟨g, rfl⟩ : ∃ g, f = g + 1 := ⟨f - 1, by omega⟩
        obtain ⟨st2, hcont, h2⟩ := step_continue _ tracks (c + 1) _ hp
        have hnone : ((enqueueNextTrack false st1).inFlight.length != 0) = false := by
          simp [hp.pending_eq]
        have hwait : ((enqueueNextTrack false st1).registered &&
            (enqueueNextTrack false st1).session.awaitingPrompt) = true := by
          simp [hp.registered_eq, hp.awaiting_eq]
        rw [playToEnd]
        simp only [hnone, hwait, if_true, Bool.false_eq_true, if_false, hcont]
        obtain ⟨t, ht, h3⟩ := enqueue_submit true st2 tracks (c + 1) _ h2 hlt (Or.inl rfl)
        rw [← expectedSchedule_succ_of_boundary tracks (c + 1) t ht hb] at h3
        exact extend _ (ih (c + 1) _ g h3 (by omega) (by omega))
      | false =>
        obtain ⟨t, ht, h3⟩ := enqueue_submit false st1 tracks (c + 1) _ h1 hlt (Or.inr hb)
        rw [← expectedSchedule_succ_of_inner tracks (c + 1) t ht hb] at h3
        exact extend _ (ih (c + 1) _ f h3 (by omega) (by omega))

theorem promptCursors_eq_pausesOf (effects : List Effect) :
    promptCursors effects = pausesOf (scheduleLog effects) := by
  induction effects with
  | nil => rfl
  | cons e es ih =>
    cases e with
    | replyWithButtons m sid => cases m <;> simp [promptCursors, scheduleLog, pausesOf, ih]
    | _ => simp [promptCursors, scheduleLog, pausesOf, ih]

theorem pausesOf_append (xs ys : List Act) :
    pausesOf (xs ++ ys) = pausesOf xs ++ pausesOf ys := by
  induction xs with
  | nil => rfl
  | cons a as ih => cases a <;> simp [pausesOf, ih]

theorem pausesOf_expectedSchedule (tracks : List String) (k : Nat) :
    pausesOf (expectedSchedule tracks k) = (List.range k).filter isBoundary := by
  induction k with
  | zero => rfl
  | succ k ih =>
    have hsub : pausesOf (match tracks[k]? with
        | some trackUrl => [Act.submit trackUrl]
        | none => []) = [] := by
      split <;> rfl
    simp only [expectedSchedule, pausesOf_append, ih, hsub, List.range_succ,
      List.filter_append, List.append_nil]
    cases hb : isBoundary k <;> simp [hb, pausesOf]

/-- C10 (amended: a boundary that is the end of the list gives no prompt): a session of any
tracks in which the owner answers every prompt with continue ends within two events per
track, whatever the jobs return; it is then removed with nothing pending; its prompts and
submissions are, in order, the tracks up to its last cursor value with a prompt before each
track whose index is a positive multiple of 10, so that the prompts are exactly the positive
multiples of 10 below that value, once each; and that value is the number of tracks when no
submission is refused with `QUEUE_FULL`.  A prompt leaves the cursor where it is, gives
nothing to the queue and sets `awaitingPrompt`, and while it is set a call without `force`
does nothing. -/
theorem prompts_at_chunk_boundaries (userId : Nat) (sessionId : String) (tracks : List String)
    (outcomes : Nat → Settlement) :
    (playToEnd outcomes (2 * tracks.length)
      (handlePlaylistRequest userId sessionId tracks)).registered = false ∧
    (playToEnd outcomes (2 * tracks.length)
      (handlePlaylistRequest userId sessionId tracks)).inFlight = [] ∧
    (playToEnd outcomes (2 * tracks.length)
      (handlePlaylistRequest userId sessionId tracks)).session.nextIndex ≤ tracks.length ∧
    scheduleLog (playToEnd outcomes (2 * tracks.length)
      (handlePlaylistRequest userId sessionId tracks)).effects =
      expectedSchedule tracks (playToEnd outcomes (2 * tracks.length)
        (handlePlaylistRequest userId sessionId tracks)).session.nextIndex ∧
    promptCursors (playToEnd outcomes (2 * tracks.length)
      (handlePlaylistRequest userId sessionId tracks)).effects =
      (List.range (playToEnd outcomes (2 * tracks.length)
        (handlePlaylistRequest userId sessionId tracks)).session.nextIndex).filter
        (fun c => decide (0 < c) && c % 10 == 0) ∧
    ((∀ i, i < tracks.length → (outcomes i).isQueueFull = false) →
      (playToEnd outcomes (2 * tracks.length)
        (handlePlaylistRequest userId sessionId tracks)).session.nextIndex = tracks.length) ∧
    (∀ st : BotState, st.registered = true →
      st.session.nextIndex < st.session.tracks.length →
      0 < st.session.nextIndex → st.session.nextIndex % 10 = 0 →
      (st.session.awaitingPrompt = false →
        (enqueueNextTrack false st).session.nextIndex = st.session.nextIndex ∧
        (enqueueNextTrack false st).inFlight = st.inFlight ∧
        (enqueueNextTrack false st).session.awaitingPrompt = true ∧
        scheduleLog (enqueueNextTrack false st).effects =
          scheduleLog st.effects ++ [Act.pause st.session.nextIndex]) ∧
      (st.session.awaitingPrompt = true → enqueueNextTrack false st = st)) := by
  have hfin : ∃ k,
      Shape (playToEnd outcomes (2 * tracks.length)
        (handlePlaylistRequest userId sessionId tracks)) false false tracks k 0
        (expectedSchedule tracks k) ∧ k ≤ tracks.length ∧
      ((∀ i, i < tracks.length → (outcomes i).isQueueFull = false) → k = tracks.length) := by
    cases htr : tracks with
    | nil =>
      refine ⟨0, ?_, by simp, fun _ => rfl⟩
      simp only [handlePlaylistRequest, List.length_nil, Nat.mul_zero, playToEnd]
      exact ⟨rfl, rfl, rfl, rfl, rfl, rfl⟩
    | cons t ts =>
      rw [← htr]
      have hlen : 0 < tracks.length := by rw [htr]; simp
      have hne : (tracks.length == 0) = false := by
        simp [htr]
      simp only [handlePlaylistRequest, hne, Bool.false_eq_true, if_false]
      have hready : Shape
          ({ session :=
              { id := sessionId, userId := userId, tracks := tracks, nextIndex := 0,
                promptMessageId := none, awaitingPrompt := false, buffer := [] }
             registered := true, inFlight := []
             effects :=
              [Effect.reply
                (Message.playlistDetected tracks.length PLAYLIST_CHUNK_SIZE
                  PLAYLIST_MAX_ITEMS)] } : BotState)
          true false tracks 0 0 (expectedSchedule tracks 0) :=
        ⟨rfl, rfl, rfl, rfl, rfl, rfl⟩
      obtain ⟨t0, ht0, hw⟩ := enqueue_submit false _ tracks 0 _ hready hlen (Or.inr rfl)
      rw [← expectedSchedule_succ_of_inner tracks 0 t0 ht0 rfl] at hw
      obtain ⟨k, hk1, hk2, -, hk4⟩ := playToEnd_from_waiting outcomes tracks
        (tracks.length - 1) 0 _ (2 * tracks.length) hw (by omega) (by omega)
      exact ⟨k, hk1, hk2, fun hall => hk4 (fun i _ hi => hall i hi)⟩
  obtain ⟨k, hshape, hk, hall⟩ := hfin
  have hcur := hshape.cursor_eq
  have hfilter : (List.range k).filter (fun c => decide (0 < c) && c % 10 == 0) =
      (List.range k).filter isBoundary := by
    apply List.filter_congr
    intro c _
    simp [isBoundary, PLAYLIST_CHUNK_SIZE]
  refine ⟨hshape.registered_eq, List.length_eq_zero.1 hshape.pending_eq, by rw [hcur]; exact hk,
    by rw [hcur]; exact hshape.log_eq, ?_, fun h => by rw [hcur]; exact hall h, ?_⟩
  · rw [hcur, promptCursors_eq_pausesOf, hshape.log_eq, pausesOf_expectedSchedule, hfilter]
  · intro st hreg hlt hpos hmod
    have hb : isBoundary st.session.nextIndex = true := by
      simp [isBoundary, PLAYLIST_CHUNK_SIZE, hpos, hmod]
    constructor
    · intro hwait
      rw [enqueueNextTrack_pause st hreg hlt hb hwait]
      simp [scheduleLog_append, scheduleLog]
    · intro hwait
      unfold enqueueNextTrack
      have hnot : ¬ st.session.tracks.length ≤ st.session.nextIndex := by omega
      simp [hreg, hnot, hpos, hmod, hwait, PLAYLIST_CHUNK_SIZE]

/-- Witness of C10 as amended: with 25 tracks the prompts come at the cursor values 10 and
20, after the tenth and the twentieth submission. -/
theorem prompts_at_chunk_boundaries_witness :
    promptCursors (playToEnd (fun _ => Settlement.jobReturned none) (2 * (sampleTracks 25).length)
      (handlePlaylistRequest 7 "7-1" (sampleTracks 25))).effects = [10, 20] ∧
    (scheduleLog (playToEnd (fun _ => Settlement.jobReturned none)
      (2 * (sampleTracks 25).length)
      (handlePlaylistRequest 7 "7-1" (sampleTracks 25))).effects).take 12 =
      [Act.submit "t0", Act.submit "t1", Act.submit "t2", Act.submit "t3", Act.submit "t4",
        Act.submit "t5", Act.submit "t6", Act.submit "t7", Act.submit "t8", Act.submit "t9",
        Act.pause 10, Act.submit "t10"] :=
  ⟨(prompts_at_chunk_boundaries 7 "7-1" (sampleTracks 25)
      (fun _ => Settlement.jobReturned none)).2.2.2.2.1.trans (by decide),
    by decide⟩

/-- C10 as stated fails when the number of tracks is a multiple of 10: with 10 tracks and
every job done, the cursor reaches 10, a positive multiple of 10, and the session ends
there without any prompt. -/
theorem no_prompt_at_final_boundary :
    (playToEnd (fun _ => Settlement.jobReturned none) 20
      (handlePlaylistRequest 7 "7-1" (sampleTracks 10))).session.nextIndex = 10 ∧
    (playToEnd (fun _ => Settlement.jobReturned none) 20
      (handlePlaylistRequest 7 "7-1" (sampleTracks 10))).registered = false ∧
    promptCursors (playToEnd (fun _ => Settlement.jobReturned none) 20
      (handlePlaylistRequest 7 "7-1" (sampleTracks 10))).effects = [] := by
  decide

theorem submittedTracks_append (xs ys : List Effect) :
    submittedTracks (xs ++ ys) = submittedTracks xs ++ submittedTracks ys := by
  induction xs with
  | nil => rfl
  | cons e es ih => cases e <;> simp [submittedTracks, ih]

/-- The atomic `sendPlaylistGroup` is its entry test followed, when it holds, by the rest of
the function with nothing in between. -/
theorem sendPlaylistGroup_eq_resume (st : BotState) :
    sendPlaylistGroup st =
      if sendPlaylistGroupEnters st then sendPlaylistGroupResume st else st := by
  unfold sendPlaylistGroup sendPlaylistGroupEnters sendPlaylistGroupResume
  cases hreg : st.registered <;> cases hb : (st.session.buffer.length == 0) <;>
    simp_all [bne]

/-- A result that arrives and whose sends end with nothing in between is the coarse event of
a job that returned this result. -/
theorem happen_result_then_done (st : BotState) (item : Item)
    (hpending : st.inFlight.length ≠ 0) :
    (happen (happen { bot := st, delivering := false } (Happening.resultArrives item))
        Happening.sendsDone).bot =
      step st (BotEvent.settled 0 (Settlement.jobReturned (some item))) := by
  have hlen : 0 < st.inFlight.length := Nat.pos_of_ne_zero hpending
  have hne : (st.inFlight.length == 0) = false := by simp [hpending]
  simp only [happen, Bool.false_or, hne, Bool.false_eq_true, if_false, step, hlen, if_true,
    afterAdd, jobBody]
  rw [sendPlaylistGroup_eq_resume]
  cases hreg : st.registered
  · simp [sendPlaylistGroupEnters, hreg, happen]
  · simp [sendPlaylistGroupEnters, hreg, happen, sendPlaylistGroupResume]

/-- C11: the code evaluated where the claim fails.  A session of 25 tracks is continued at
its first pause; the result of item 11 arrives and its delivery is suspended at a send; the
owner presses stop, which removes the session; when the sends are done `sendPlaylistGroup`
puts the session back in the registry, and `enqueueNextTrack` gives item 12 to the queue and
advances the cursor to 12. -/
theorem stop_during_delivery_is_undone :
    (runHappenings { bot := continuedAfterFirstPause, delivering := false }
      [Happening.resultArrives sampleItem,
        Happening.coarse (BotEvent.callback "stop" "7-1" (some 7))]).bot.registered = false ∧
    (runHappenings { bot := continuedAfterFirstPause, delivering := false }
      [Happening.resultArrives sampleItem,
        Happening.coarse (BotEvent.callback "stop" "7-1" (some 7))]).bot.session.nextIndex
      = 11 ∧
    submittedTracks
      (runHappenings { bot := continuedAfterFirstPause, delivering := false }
        [Happening.resultArrives sampleItem,
          Happening.coarse (BotEvent.callback "stop" "7-1" (some 7))]).bot.effects =
      (sampleTracks 25).take 11 ∧
    (runHappenings { bot := continuedAfterFirstPause, delivering := false }
      [Happening.resultArrives sampleItem,
        Happening.coarse (BotEvent.callback "stop" "7-1" (some 7)),
        Happening.sendsDone]).bot.registered = true ∧
    (runHappenings { bot := continuedAfterFirstPause, delivering := false }
      [Happening.resultArrives sampleItem,
        Happening.coarse (BotEvent.callback "stop" "7-1" (some 7)),
        Happening.sendsDone]).bot.session.nextIndex = 12 ∧
    submittedTracks
      (runHappenings { bot := continuedAfterFirstPause, delivering := false }
        [Happening.resultArrives sampleItem,
          Happening.coarse (BotEvent.callback "stop" "7-1" (some 7)),
          Happening.sendsDone]).bot.effects =
      (sampleTracks 25).take 12 := by
  decide

/-- C12: a button payload whose sender is not the owner of the session (or has no id)
changes nothing of the session: the session object with its cursor, `awaitingPrompt` flag
and buffer, its place in the registry and its pending jobs stay as they are, and nothing is
given to the queue; the only effect is the answer to the callback query. -/
theorem foreign_signal_has_no_effect (st : BotState) (action sessionId : String)
    (fromId : Option Nat) (hforeign : fromId ≠ some st.session.userId) :
    (handleCallback action sessionId fromId st).session = st.session ∧
    (handleCallback action sessionId fromId st).registered = st.registered ∧
    (handleCallback action sessionId fromId st).inFlight = st.inFlight ∧
    submittedTracks (handleCallback action sessionId fromId st).effects =
      submittedTracks st.effects ∧
    (st.registered = true → sessionId = st.session.id →
      (handleCallback action sessionId fromId st).effects =
        st.effects ++ [Effect.answerCallbackQuery CallbackAnswer.notYourPlaylist]) := by
  have hne : (fromId != some st.session.userId) = true := by
    simpa [bne_iff_ne] using hforeign
  unfold handleCallback
  by_cases hfound : (st.registered && sessionId == st.session.id) = true
  · simp [hfound, hne, submittedTracks_append, submittedTracks]
  · have hf : (st.registered && sessionId == st.session.id) = false := by
      simpa using hfound
    simp only [hf, Bool.not_false, if_true]
    simp only [submittedTracks_append, submittedTracks, List.append_nil, true_and]
    intro hreg hid
    simp [hreg, hid] at hf

/-- Witness of C12: at the first pause of a session of user 7, user 8 presses stop. -/
theorem foreign_signal_has_no_effect_witness :
    (handleCallback "stop" "7-1" (some 8)
      (runEvents (handlePlaylistRequest 7 "7-1" (sampleTracks 25))
        (List.replicate 10 (BotEvent.settled 0 (Settlement.jobReturned none))))).registered
      = true ∧
    (handleCallback "stop" "7-1" (some 8)
      (runEvents (handlePlaylistRequest 7 "7-1" (sampleTracks 25))
        (List.replicate 10 (BotEvent.settled 0 (Settlement.jobReturned none))))).session =
      (runEvents (handlePlaylistRequest 7 "7-1" (sampleTracks 25))
        (List.replicate 10 (BotEvent.settled 0 (Settlement.jobReturned none)))).session :=
  ⟨((foreign_signal_has_no_effect
      (runEvents (handlePlaylistRequest 7 "7-1" (sampleTracks 25))
        (List.replicate 10 (BotEvent.settled 0 (Settlement.jobReturned none))))
      "stop" "7-1" (some 8) (by decide)).2.1).trans (by decide),
    (foreign_signal_has_no_effect
      (runEvents (handlePlaylistRequest 7 "7-1" (sampleTracks 25))
        (List.replicate 10 (BotEvent.settled 0 (Settlement.jobReturned none))))
      "stop" "7-1" (some 8) (by decide)).1⟩

theorem submitsOf_append (xs ys : List Act) :
    submitsOf (xs ++ ys) = submitsOf xs ++ submitsOf ys := by
  induction xs with
  | nil => rfl
  | cons a as ih => cases a <;> simp [submitsOf, ih]

theorem submittedTracks_eq_submitsOf (effects : List Effect) :
    submittedTracks effects = submitsOf (scheduleLog effects) := by
  induction effects with
  | nil => rfl
  | cons e es ih =>
    cases e with
    | replyWithButtons m sid => cases m <;> simp [submittedTracks, scheduleLog, submitsOf, ih]
    | _ => simp [submittedTracks, scheduleLog, submitsOf, ih]

theorem submitsOf_expectedSchedule (tracks : List String) (k : Nat) :
    submitsOf (expectedSchedule tracks k) = tracks.take k := by
  induction k with
  | zero => rfl
  | succ k ih =>
    have hpause : submitsOf (if isBoundary k then [Act.pause k] else []) = [] := by
      split <;> rfl
    simp only [expectedSchedule, submitsOf_append, ih, hpause, List.append_nil, List.take_succ]
    cases tracks[k]? <;> rfl

/-- A session started by `handlePlaylistRequest` and answered with continue at every prompt
ends within two events per track. -/
theorem playToEnd_from_request (userId : Nat) (sessionId : String) (tracks : List String)
    (outcomes : Nat → Settlement) :
    ∃ k,
      Shape (playToEnd outcomes (2 * tracks.length)
        (handlePlaylistRequest userId sessionId tracks)) false false tracks k 0
        (expectedSchedule tracks k) ∧ k ≤ tracks.length ∧
      ((∀ i, i < tracks.length → (outcomes i).isQueueFull = false) → k = tracks.length) := by
  cases htr : tracks with
  | nil =>
    refine ⟨0, ?_, by simp, fun _ => rfl⟩
    simp only [handlePlaylistRequest, List.length_nil, Nat.mul_zero, playToEnd]
    exact ⟨rfl, rfl, rfl, rfl, rfl, rfl⟩
  | cons t ts =>
    rw [← htr]
    have hlen : 0 < tracks.length := by rw [htr]; simp
    have hne : (tracks.length == 0) = false := by
      simp [htr]
    simp only [handlePlaylistRequest, hne, Bool.false_eq_true, if_false]
    have hready : Shape
        ({ session :=
            { id := sessionId, userId := userId, tracks := tracks, nextIndex := 0,
              promptMessageId := none, awaitingPrompt := false, buffer := [] }
           registered := true, inFlight := []
           effects :=
            [Effect.reply
              (Message.playlistDetected tracks.length PLAYLIST_CHUNK_SIZE
                PLAYLIST_MAX_ITEMS)] } : BotState)
        true false tracks 0 0 (expectedSchedule tracks 0) :=
      ⟨rfl, rfl, rfl, rfl, rfl, rfl⟩
    obtain ⟨t0, ht0, hw⟩ := enqueue_submit false _ tracks 0 _ hready hlen (Or.inr rfl)
    rw [← expectedSchedule_succ_of_inner tracks 0 t0 ht0 rfl] at hw
    obtain ⟨k, hk1, hk2, -, hk4⟩ := playToEnd_from_waiting outcomes tracks
      (tracks.length - 1) 0 _ (2 * tracks.length) hw (by omega) (by omega)
    exact ⟨k, hk1, hk2, fun hall => hk4 (fun i _ hi => hall i hi)⟩

theorem sendPlaylistGroup_cursor (st : BotState) :
    (sendPlaylistGroup st).session.nextIndex = st.session.nextIndex :=
  (sendPlaylistGroup_frame st).2.2.1

theorem enqueueNextTrack_cursor_le (force : Bool) (st : BotState) :
    st.session.nextIndex ≤ (enqueueNextTrack force st).session.nextIndex := by
  unfold enqueueNextTrack
  split
  · exact le_refl _
  · split
    · split
      · simp [sendPlaylistGroup_cursor]
      · simp
    · split
      · split
        · exact le_refl _
        · simp
      · split
        · exact le_refl _
        · simp

theorem step_cursor_le (st : BotState) (event : BotEvent) :
    st.session.nextIndex ≤ (step st event).session.nextIndex := by
  cases event with
  | settled i outcome =>
    simp only [step]
    split
    · cases outcome with
      | jobReturned result =>
        simp only [afterAdd]
        refine le_trans ?_ (enqueueNextTrack_cursor_le false _)
        rw [(jobBody_frame result _).2.2.1]
      | rejected error =>
        simp only [afterAdd]
        split
        · exact le_refl _
        · refine le_trans ?_ (enqueueNextTrack_cursor_le false _)
          exact le_refl _
    · exact le_refl _
  | callback action sessionId fromId =>
    simp only [step, handleCallback]
    split
    · exact le_refl _
    · split
      · exact le_refl _
      · split
        · exact le_refl _
        · split
          · refine le_trans ?_ (enqueueNextTrack_cursor_le true _)
            exact le_refl _
          · exact le_refl _

/-- A continue of the owner before the end of the tracks gives the track at the cursor to the
queue and advances the cursor by one. -/
theorem handleCallback_continue (st : BotState) (hreg : st.registered = true)
    (hlt : st.session.nextIndex < st.session.tracks.length) :
    ∃ trackUrl, st.session.tracks[st.session.nextIndex]? = some trackUrl ∧
      (handleCallback "cont" st.session.id (some st.session.userId) st).effects =
        st.effects ++ [Effect.answerCallbackQuery CallbackAnswer.continuing,
          Effect.queueAdd trackUrl] ∧
      (handleCallback "cont" st.session.id (some st.session.userId) st).session.nextIndex =
        st.session.nextIndex + 1 ∧
      (handleCallback "cont" st.session.id (some st.session.userId) st).registered = true := by
  obtain ⟨t, ht, heq⟩ := enqueueNextTrack_submit true
    { st with
      session := { st.session with awaitingPrompt := false }
      effects := st.effects ++ [Effect.answerCallbackQuery CallbackAnswer.continuing] }
    hreg hlt (Or.inl rfl)
  refine ⟨t, ht, ?_⟩
  have hcall : handleCallback "cont" st.session.id (some st.session.userId) st =
      enqueueNextTrack true
        { st with
          session := { st.session with awaitingPrompt := false }
          effects := st.effects ++ [Effect.answerCallbackQuery CallbackAnswer.continuing] } := by
    simp [handleCallback, hreg]
  rw [hcall, heq]
  simp [hreg]

/-- C13: a session whose prompts are all answered with continue by its owner and none of
whose submissions is rejected with the code `QUEUE_FULL` (jobs may fail otherwise) gives to
the queue exactly its tracks, in order, each once; at its end the cursor equals the number
of tracks and the session is removed.  A continue at a cursor below the end submits the
track at the cursor and advances the cursor by one, and no event ever decreases the
cursor. -/
theorem submissions_follow_track_list (userId : Nat) (sessionId : String)
    (tracks : List String) (outcomes : Nat → Settlement)
    (hq : ∀ i, i < tracks.length → (outcomes i).isQueueFull = false) :
    submittedTracks (playToEnd outcomes (2 * tracks.length)
      (handlePlaylistRequest userId sessionId tracks)).effects = tracks ∧
    (playToEnd outcomes (2 * tracks.length)
      (handlePlaylistRequest userId sessionId tracks)).session.nextIndex = tracks.length ∧
    (playToEnd outcomes (2 * tracks.length)
      (handlePlaylistRequest userId sessionId tracks)).registered = false ∧
    (∀ st : BotState, st.registered = true →
      st.session.nextIndex < st.session.tracks.length →
      ∃ trackUrl, st.session.tracks[st.session.nextIndex]? = some trackUrl ∧
        (handleCallback "cont" st.session.id (some st.session.userId) st).effects =
          st.effects ++ [Effect.answerCallbackQuery CallbackAnswer.continuing,
            Effect.queueAdd trackUrl] ∧
        (handleCallback "cont" st.session.id (some st.session.userId) st).session.nextIndex =
          st.session.nextIndex + 1) ∧
    (∀ (st : BotState) (event : BotEvent),
      st.session.nextIndex ≤ (step st event).session.nextIndex) := by
  obtain ⟨k, hshape, -, hall⟩ := playToEnd_from_request userId sessionId tracks outcomes
  have hk : k = tracks.length := hall hq
  subst hk
  refine ⟨?_, hshape.cursor_eq, hshape.registered_eq, ?_, step_cursor_le⟩
  · rw [submittedTracks_eq_submitsOf, hshape.log_eq, submitsOf_expectedSchedule,
      List.take_length]
  · intro st hreg hlt
    obtain ⟨t, ht, h1, h2, -⟩ := handleCallback_continue st hreg hlt
    exact ⟨t, ht, h1, h2⟩

/-- Witness of C13: 25 tracks, every second job failing with an ordinary error. -/
theorem submissions_follow_track_list_witness :
    submittedTracks (playToEnd
      (fun i => if i % 2 = 0 then Settlement.jobReturned none
        else Settlement.rejected { message := some "boom" })
      (2 * (sampleTracks 25).length)
      (handlePlaylistRequest 7 "7-1" (sampleTracks 25))).effects = sampleTracks 25 ∧
    (playToEnd
      (fun i => if i % 2 = 0 then Settlement.jobReturned none
        else Settlement.rejected { message := some "boom" })
      (2 * (sampleTracks 25).length)
      (handlePlaylistRequest 7 "7-1" (sampleTracks 25))).registered = false :=
  ⟨(submissions_follow_track_list 7 "7-1" (sampleTracks 25)
      (fun i => if i % 2 = 0 then Settlement.jobReturned none
        else Settlement.rejected { message := some "boom" })
      (fun i _ => by by_cases h : i % 2 = 0 <;> simp [h, Settlement.isQueueFull])).1,
    (submissions_follow_track_list 7 "7-1" (sampleTracks 25)
      (fun i => if i % 2 = 0 then Settlement.jobReturned none
        else Settlement.rejected { message := some "boom" })
      (fun i _ => by by_cases h : i % 2 = 0 <;> simp [h, Settlement.isQueueFull])).2.2.1⟩

/-- The report of a failed submission schedules nothing. -/
theorem scheduleLog_report (effects : List Effect) (error : Downloader.JsError) :
    scheduleLog
      (effects ++ (if shouldNotifyAdmin error then [Effect.notifyAdmins error] else []) ++
        [Effect.reply (formatUserFacingError error)]) = scheduleLog effects := by
  simp only [scheduleLog_append]
  split <;> simp [scheduleLog]

/-- `enqueueNextTrack` without `force` at a chunk boundary before the end, a prompt being
pending already: it returns at once and nothing changes. -/
theorem enqueueNextTrack_pending_prompt (st : BotState) (hreg : st.registered = true)
    (hlt : st.session.nextIndex < st.session.tracks.length)
    (hb : isBoundary st.session.nextIndex = true) (hwait : st.session.awaitingPrompt = true) :
    enqueueNextTrack false st = st := by
  unfold enqueueNextTrack
  have hnot : ¬ st.session.tracks.length ≤ st.session.nextIndex := by omega
  simp only [isBoundary, Bool.and_eq_true, decide_eq_true_eq] at hb
  simp [hreg, hnot, hb.1, hb.2, hwait]

/-- C14 (amended: a failure of the last track is followed by the normal end of the session,
one before a chunk boundary by the prompt, unless a prompt is pending already).  The promise
of a submission of a registered session is rejected, the cursor being already past the failed
item.  With the code `QUEUE_FULL` the session is removed, the session object is untouched and
the handler gives nothing to the queue.  With any other error the handler keeps the session
and calls `enqueueNextTrack` without `force`, as after a success: before the end and away
from a chunk boundary the next track is submitted and the cursor advances; before the end at
a chunk boundary the session stays registered with the cursor where it is and awaits a
confirmation: the prompt is sent when none is pending, and nothing at all is scheduled or
changed in the session when one is pending already; at the end the session ends and is
removed, the cursor staying where it is. -/
theorem failed_submission_handling (st : BotState) (error : Downloader.JsError)
    (hreg : st.registered = true) :
    (error.code = some "QUEUE_FULL" →
      (afterAdd (Settlement.rejected error) st).registered = false ∧
      (afterAdd (Settlement.rejected error) st).session = st.session ∧
      (afterAdd (Settlement.rejected error) st).inFlight = st.inFlight ∧
      scheduleLog (afterAdd (Settlement.rejected error) st).effects =
        scheduleLog st.effects) ∧
    (error.code ≠ some "QUEUE_FULL" →
      (st.session.nextIndex < st.session.tracks.length →
        isBoundary st.session.nextIndex = false →
        ∃ trackUrl, st.session.tracks[st.session.nextIndex]? = some trackUrl ∧
          (afterAdd (Settlement.rejected error) st).registered = true ∧
          (afterAdd (Settlement.rejected error) st).session.nextIndex =
            st.session.nextIndex + 1 ∧
          scheduleLog (afterAdd (Settlement.rejected error) st).effects =
            scheduleLog st.effects ++ [Act.submit trackUrl]) ∧
      (st.session.nextIndex < st.session.tracks.length →
        isBoundary st.session.nextIndex = true →
        (afterAdd (Settlement.rejected error) st).registered = true ∧
        (afterAdd (Settlement.rejected error) st).session.nextIndex = st.session.nextIndex ∧
        (afterAdd (Settlement.rejected error) st).session.awaitingPrompt = true ∧
        (afterAdd (Settlement.rejected error) st).inFlight = st.inFlight ∧
        (st.session.awaitingPrompt = false →
          scheduleLog (afterAdd (Settlement.rejected error) st).effects =
            scheduleLog st.effects ++ [Act.pause st.session.nextIndex]) ∧
        (st.session.awaitingPrompt = true →
          (afterAdd (Settlement.rejected error) st).session = st.session ∧
          scheduleLog (afterAdd (Settlement.rejected error) st).effects =
            scheduleLog st.effects)) ∧
      (st.session.tracks.length ≤ st.session.nextIndex →
        (afterAdd (Settlement.rejected error) st).registered = false ∧
        (afterAdd (Settlement.rejected error) st).session.nextIndex = st.session.nextIndex ∧
        scheduleLog (afterAdd (Settlement.rejected error) st).effects =
          scheduleLog st.effects)) := by
  constructor
  · intro hcode
    have hq : (error.code == some "QUEUE_FULL") = true := by simp [hcode]
    simp only [afterAdd, hq, if_true, true_and]
    exact scheduleLog_report _ _
  · intro hcode
    have hq : (error.code == some "QUEUE_FULL") = false := by simp [hcode]
    simp only [afterAdd, hq, Bool.false_eq_true, if_false]
    have hlog := scheduleLog_report st.effects error
    refine ⟨?_, ?_, ?_⟩
    · intro hlt hb
      obtain ⟨t, ht, heq⟩ := enqueueNextTrack_submit false
        { st with
          effects := st.effects ++
            (if shouldNotifyAdmin error then [Effect.notifyAdmins error] else []) ++
            [Effect.reply (formatUserFacingError error)] }
        hreg hlt (Or.inr hb)
      refine ⟨t, ht, ?_⟩
      rw [heq]
      refine ⟨hreg, rfl, ?_⟩
      simp only [scheduleLog_append _ [Effect.queueAdd t], hlog]
      rfl
    · intro hlt hb
      cases hwait : st.session.awaitingPrompt with
      | false =>
        rw [enqueueNextTrack_pause
          { st with
            effects := st.effects ++
              (if shouldNotifyAdmin error then [Effect.notifyAdmins error] else []) ++
              [Effect.reply (formatUserFacingError error)] }
          hreg hlt hb hwait]
        refine ⟨hreg, rfl, rfl, rfl, fun _ => ?_, fun h => by cases h⟩
        simp only [scheduleLog_append _ [Effect.replyWithButtons _ _], hlog]
        rfl
      | true =>
        rw [enqueueNextTrack_pending_prompt
          { st with
            effects := st.effects ++
              (if shouldNotifyAdmin error then [Effect.notifyAdmins error] else []) ++
              [Effect.reply (formatUserFacingError error)] }
          hreg hlt hb hwait]
        exact ⟨hreg, rfl, hwait, rfl, fun h => Bool.noConfusion h, fun _ => ⟨rfl, hlog⟩⟩
    · intro hend
      obtain ⟨d1, -, d3, -, d5⟩ := enqueueNextTrack_done false
        { st with
          effects := st.effects ++
            (if shouldNotifyAdmin error then [Effect.notifyAdmins error] else []) ++
            [Effect.reply (formatUserFacingError error)] }
        hreg hend
      exact ⟨d1, d3, by rw [d5]; exact hlog⟩

/-- Witness of C14 as amended, one input for each case.  In a session of three tracks the
first submission is rejected with `QUEUE_FULL`: the session is removed.  The first job fails
with `boom`: the second track is submitted.  In a session of 25 tracks the job of the tenth
track fails with `boom`: the prompt at 10 is sent.  After two continues on one prompt, with
the prompt at 20 pending, the job of the track of index 19 fails with `boom`: no further
prompt, the session stays as it is.  In a session of one track the job fails with `boom`: the
session ends. -/
theorem failed_submission_handling_witness :
    ((afterAdd
      (Settlement.rejected { message := some "Download queue is full.", code := some "QUEUE_FULL" })
      { handlePlaylistRequest 7 "7-1" (sampleTracks 3) with inFlight := [] }).registered
      = false ∧
    scheduleLog (afterAdd
      (Settlement.rejected { message := some "Download queue is full.", code := some "QUEUE_FULL" })
      { handlePlaylistRequest 7 "7-1" (sampleTracks 3) with inFlight := [] }).effects =
      [Act.submit "t0"]) ∧
    (∃ trackUrl, (sampleTracks 3)[1]? = some trackUrl ∧
      (afterAdd (Settlement.rejected { message := some "boom" })
        { handlePlaylistRequest 7 "7-1" (sampleTracks 3) with inFlight := [] }).registered
        = true ∧
      (afterAdd (Settlement.rejected { message := some "boom" })
        { handlePlaylistRequest 7 "7-1" (sampleTracks 3) with inFlight := [] }).session.nextIndex
        = 1 + 1 ∧
      scheduleLog (afterAdd (Settlement.rejected { message := some "boom" })
        { handlePlaylistRequest 7 "7-1" (sampleTracks 3) with inFlight := [] }).effects =
        [Act.submit "t0"] ++ [Act.submit trackUrl]) ∧
    ((afterAdd (Settlement.rejected { message := some "boom" })
        { beforeFirstBoundary with inFlight := [] }).registered = true ∧
      (afterAdd (Settlement.rejected { message := some "boom" })
        { beforeFirstBoundary with inFlight := [] }).session.awaitingPrompt = true ∧
      scheduleLog (afterAdd (Settlement.rejected { message := some "boom" })
        { beforeFirstBoundary with inFlight := [] }).effects =
        scheduleLog beforeFirstBoundary.effects ++ [Act.pause 10]) ∧
    ((afterAdd (Settlement.rejected { message := some "boom" })
        { promptPendingJobInFlight with inFlight := [] }).registered = true ∧
      (afterAdd (Settlement.rejected { message := some "boom" })
        { promptPendingJobInFlight with inFlight := [] }).session =
        promptPendingJobInFlight.session ∧
      scheduleLog (afterAdd (Settlement.rejected { message := some "boom" })
        { promptPendingJobInFlight with inFlight := [] }).effects =
        scheduleLog promptPendingJobInFlight.effects) ∧
    ((afterAdd (Settlement.rejected { message := some "boom" })
        { handlePlaylistRequest 7 "7-1" ["t0"] with inFlight := [] }).registered = false ∧
      scheduleLog (afterAdd (Settlement.rejected { message := some "boom" })
        { handlePlaylistRequest 7 "7-1" ["t0"] with inFlight := [] }).effects =
        [Act.submit "t0"]) :=
  ⟨⟨((failed_submission_handling
        { handlePlaylistRequest 7 "7-1" (sampleTracks 3) with inFlight := [] }
        { message := some "Download queue is full.", code := some "QUEUE_FULL" }
        (by decide)).1 rfl).1,
      ((failed_submission_handling
        { handlePlaylistRequest 7 "7-1" (sampleTracks 3) with inFlight := [] }
        { message := some "Download queue is full.", code := some "QUEUE_FULL" }
        (by decide)).1 rfl).2.2.2.trans (by decide)⟩,
    ((failed_submission_handling
      { handlePlaylistRequest 7 "7-1" (sampleTracks 3) with inFlight := [] }
      { message := some "boom" } (by decide)).2 (by decide)).1 (by decide) (by decide),
    ⟨(((failed_submission_handling { beforeFirstBoundary with inFlight := [] }
        { message := some "boom" } (by decide)).2 (by decide)).2.1 (by decide) (by decide)).1,
      (((failed_submission_handling { beforeFirstBoundary with inFlight := [] }
        { message := some "boom" } (by decide)).2 (by decide)).2.1 (by decide)
        (by decide)).2.2.1,
      (((failed_submission_handling { beforeFirstBoundary with inFlight := [] }
        { message := some "boom" } (by decide)).2 (by decide)).2.1 (by decide)
        (by decide)).2.2.2.2.1 (by decide)⟩,
    ⟨(((failed_submission_handling { promptPendingJobInFlight with inFlight := [] }
        { message := some "boom" } (by decide)).2 (by decide)).2.1 (by decide) (by decide)).1,
      ((((failed_submission_handling { promptPendingJobInFlight with inFlight := [] }
        { message := some "boom" } (by decide)).2 (by decide)).2.1 (by decide)
        (by decide)).2.2.2.2.2 (by decide)).1,
      ((((failed_submission_handling { promptPendingJobInFlight with inFlight := [] }
        { message := some "boom" } (by decide)).2 (by decide)).2.1 (by decide)
        (by decide)).2.2.2.2.2 (by decide)).2⟩,
    ⟨(((failed_submission_handling { handlePlaylistRequest 7 "7-1" ["t0"] with inFlight := [] }
        { message := some "boom" } (by decide)).2 (by decide)).2.2 (by decide)).1,
      ((((failed_submission_handling
        { handlePlaylistRequest 7 "7-1" ["t0"] with inFlight := [] }
        { message := some "boom" } (by decide)).2 (by decide)).2.2 (by decide)).2.2).trans
        (by decide)⟩⟩

/-- C14 as stated fails for the last track: in a session of one track whose job fails with
an ordinary error, not `QUEUE_FULL`, the session is removed all the same and no further
track is scheduled. -/
theorem last_track_failure_ends_session :
    ({ message := some "boom" } : Downloader.JsError).code ≠ some "QUEUE_FULL" ∧
    (handlePlaylistRequest 7 "7-1" ["t0"]).registered = true ∧
    (step (handlePlaylistRequest 7 "7-1" ["t0"])
      (BotEvent.settled 0 (Settlement.rejected { message := some "boom" }))).registered
      = false ∧
    submittedTracks (step (handlePlaylistRequest 7 "7-1" ["t0"])
      (BotEvent.settled 0 (Settlement.rejected { message := some "boom" }))).effects
      = ["t0"] := by
  decide

/-- C15 (amended: the result is appended to the buffer of the removed session object, the
test for the session comes after): when the job of a removed session returns a result, the
item is pushed on the buffer of the session object, `sendPlaylistGroup` finds no session
and returns, and the call of `enqueueNextTrack` that follows returns at once: the effects
are as before, so nothing is delivered and the download counter is not incremented; the
session stays removed. -/
theorem late_result_is_buffered_not_delivered (st : BotState) (item : Item)
    (hgone : st.registered = false) :
    jobBody (some item) st =
      { st with session := { st.session with buffer := st.session.buffer ++ [item] } } ∧
    afterAdd (Settlement.jobReturned (some item)) st =
      { st with session := { st.session with buffer := st.session.buffer ++ [item] } } ∧
    (afterAdd (Settlement.jobReturned (some item)) st).effects = st.effects ∧
    (afterAdd (Settlement.jobReturned (some item)) st).registered = false := by
  have hjob : jobBody (some item) st =
      { st with session := { st.session with buffer := st.session.buffer ++ [item] } } := by
    simp [jobBody, sendPlaylistGroup, hgone]
  have hafter : afterAdd (Settlement.jobReturned (some item)) st =
      { st with session := { st.session with buffer := st.session.buffer ++ [item] } } := by
    simp only [afterAdd, hjob]
    simp [enqueueNextTrack, hgone]
  refine ⟨hjob, hafter, ?_, ?_⟩
  · rw [hafter]
  · rw [hafter]; exact hgone

/-- Witness of C15 as amended: the owner stops the session while item 11 is pending, then
its job returns a result. -/
theorem late_result_is_buffered_not_delivered_witness :
    (afterAdd (Settlement.jobReturned (some sampleItem))
      (runEvents continuedAfterFirstPause
        [BotEvent.callback "stop" "7-1" (some 7)])).effects =
      (runEvents continuedAfterFirstPause [BotEvent.callback "stop" "7-1" (some 7)]).effects :=
  (late_result_is_buffered_not_delivered
    (runEvents continuedAfterFirstPause [BotEvent.callback "stop" "7-1" (some 7)])
    sampleItem (by decide)).2.2.1

/-- C15 as stated fails on the buffer: the owner stops the session while item 11 is pending;
when its job returns a result the session is not in the registry, and yet the buffer of the
session, empty before, holds the result afterwards. -/
theorem late_result_is_appended :
    (runEvents continuedAfterFirstPause
      [BotEvent.callback "stop" "7-1" (some 7)]).registered = false ∧
    (runEvents continuedAfterFirstPause
      [BotEvent.callback "stop" "7-1" (some 7)]).session.buffer = [] ∧
    (runEvents continuedAfterFirstPause
      [BotEvent.callback "stop" "7-1" (some 7),
        BotEvent.settled 0 (Settlement.jobReturned (some sampleItem))]).session.buffer =
      [sampleItem] := by
  decide

end Bot

/-! ## Properties of auth-store.js -/

namespace Store

open Downloader (JsError)

theorem tempPathOf_length (path : String) (now : Nat) :
    (tempPathOf path now).length = path.length + 5 + (toString now).length := by
  simp only [tempPathOf, String.length_append]
  rfl

/-- The temporary path of a pass is never its canonical path. -/
theorem tempPathOf_ne_self (path : String) (now : Nat) : tempPathOf path now ≠ path := by
  intro h
  have hlen := congrArg String.length h
  rw [tempPathOf_length] at hlen
  omega

theorem tempCount_ne_auth (now : Nat) : tempPathOf DOWNLOAD_COUNT_PATH now ≠ AUTH_STORE_PATH := by
  intro h
  have hlen := congrArg String.length h
  rw [tempPathOf_length] at hlen
  have h1 : DOWNLOAD_COUNT_PATH.length = 24 := by decide
  have h2 : AUTH_STORE_PATH.length = 26 := by decide
  omega

theorem tempAuth_ne_count (now : Nat) : tempPathOf AUTH_STORE_PATH now ≠ DOWNLOAD_COUNT_PATH := by
  intro h
  have hlen := congrArg String.length h
  rw [tempPathOf_length] at hlen
  have h1 : DOWNLOAD_COUNT_PATH.length = 24 := by decide
  have h2 : AUTH_STORE_PATH.length = 26 := by decide
  omega

theorem auth_ne_count : AUTH_STORE_PATH ≠ DOWNLOAD_COUNT_PATH := by decide

/-- A pass that stops before the end of its `rename` leaves the canonical file as it was. -/
theorem writeThenRename_fault_keeps (path : String) (payload : FileContent) (now : Nat)
    (fault : Fault) (s : StoreState) (hfault : fault ≠ Fault.none) :
    (writeThenRename path payload now fault s).2.disk path = s.disk path ∧
    ∃ error, (writeThenRename path payload now fault s).1 = Except.error error := by
  have hne : path ≠ tempPathOf path now := fun h => tempPathOf_ne_self path now h.symm
  cases fault with
  | none => exact absurd rfl hfault
  | mkdir error => exact ⟨rfl, error, rfl⟩
  | writeFile error => exact ⟨rfl, error, rfl⟩
  | rename error =>
    refine ⟨?_, error, rfl⟩
    simp [writeThenRename, Disk.writeFile, hne]

/-- A pass that runs to its end leaves the payload in the canonical file. -/
theorem writeThenRename_commit (path : String) (payload : FileContent) (now : Nat)
    (s : StoreState) :
    (writeThenRename path payload now Fault.none s).2.disk path = some payload ∧
    (writeThenRename path payload now Fault.none s).1 = Except.ok () := by
  simp [writeThenRename, Disk.writeFile, Disk.rename]

/-- A pass touches no file other than its canonical and its temporary one. -/
theorem writeThenRename_other (path : String) (payload : FileContent) (now : Nat)
    (fault : Fault) (s : StoreState) (other : String) (h1 : other ≠ path)
    (h2 : other ≠ tempPathOf path now) :
    (writeThenRename path payload now fault s).2.disk other = s.disk other := by
  cases fault <;> simp [writeThenRename, Disk.writeFile, Disk.rename, h1, h2]

/-- What a pass changes besides the files and the log of writes: nothing. -/
theorem writeThenRename_frame (path : String) (payload : FileContent) (now : Nat)
    (fault : Fault) (s : StoreState) :
    (writeThenRename path payload now fault s).2.authorizedUsers = s.authorizedUsers ∧
    (writeThenRename path payload now fault s).2.downloadCount = s.downloadCount ∧
    (writeThenRename path payload now fault s).2.authorizedUsersDirty = s.authorizedUsersDirty ∧
    (writeThenRename path payload now fault s).2.downloadCountDirty = s.downloadCountDirty ∧
    (writeThenRename path payload now fault s).2.persistAuthorizedUsersTimer =
      s.persistAuthorizedUsersTimer ∧
    (writeThenRename path payload now fault s).2.persistDownloadCountTimer =
      s.persistDownloadCountTimer ∧
    (writeThenRename path payload now fault s).2.timers = s.timers := by
  cases fault <;> simp [writeThenRename]

/-- Increments made while the count timer is pending schedule nothing. -/
theorem increment_pending (s : StoreState) (handle : Nat)
    (h : s.persistDownloadCountTimer = some handle) :
    incrementDownloadCount s =
      { s with downloadCount := s.downloadCount + 1, downloadCountDirty := true } := by
  simp [incrementDownloadCount, scheduleDownloadCountPersist, h]

/-- The first increment while no count timer is pending schedules one. -/
theorem increment_idle (s : StoreState) (h : s.persistDownloadCountTimer = none) :
    incrementDownloadCount s =
      { s with
        downloadCount := s.downloadCount + 1
        downloadCountDirty := true
        timers := s.timers ++ [(s.nextHandle, StoreKind.count)]
        nextHandle := s.nextHandle + 1
        persistDownloadCountTimer := some s.nextHandle } := by
  simp [incrementDownloadCount, scheduleDownloadCountPersist, h, setTimeout]

/-- The state after `k + 1` increments from a state without pending count timer. -/
theorem increments_idle (s : StoreState) (h : s.persistDownloadCountTimer = none) (k : Nat) :
    Nat.iterate incrementDownloadCount (k + 1) s =
      { s with
        downloadCount := s.downloadCount + (k + 1 : Nat)
        downloadCountDirty := true
        timers := s.timers ++ [(s.nextHandle, StoreKind.count)]
        nextHandle := s.nextHandle + 1
        persistDownloadCountTimer := some s.nextHandle } := by
  induction k with
  | zero => simp [Nat.iterate, increment_idle s h]
  | succ k ih =>
    rw [Function.iterate_succ_apply', ih, increment_pending _ s.nextHandle rfl]
    simp only [StoreState.mk.injEq, and_true, true_and]
    push_cast
    ring

theorem addUser_pending (s : StoreState) (userId : Int) (handle : Nat)
    (h : s.persistAuthorizedUsersTimer = some handle) :
    addAuthorizedUser userId s =
      { s with
        authorizedUsers := setAdd s.authorizedUsers userId
        authorizedUsersDirty := true } := by
  simp [addAuthorizedUser, scheduleAuthorizedPersist, h]

theorem addUser_idle (s : StoreState) (userId : Int)
    (h : s.persistAuthorizedUsersTimer = none) :
    addAuthorizedUser userId s =
      { s with
        authorizedUsers := setAdd s.authorizedUsers userId
        authorizedUsersDirty := true
        timers := s.timers ++ [(s.nextHandle, StoreKind.users)]
        nextHandle := s.nextHandle + 1
        persistAuthorizedUsersTimer := some s.nextHandle } := by
  simp [addAuthorizedUser, scheduleAuthorizedPersist, h, setTimeout]

theorem addUsers_pending (ids : List Int) (s : StoreState) (handle : Nat)
    (h : s.persistAuthorizedUsersTimer = some handle) (hd : s.authorizedUsersDirty = true) :
    ids.foldl (fun st id => addAuthorizedUser id st) s =
      { s with authorizedUsers := ids.foldl setAdd s.authorizedUsers } := by
  induction ids generalizing s with
  | nil => rfl
  | cons id ids ih =>
    simp only [List.foldl_cons]
    rw [addUser_pending s id handle h]
    rw [ih { s with
        authorizedUsers := setAdd s.authorizedUsers id
        authorizedUsersDirty := true } h rfl]
    simp [hd]

/-- The state after the calls of `addAuthorizedUser` for a list of ids that is not empty,
from a state without pending users timer. -/
theorem addUsers_idle (id : Int) (ids : List Int) (s : StoreState)
    (h : s.persistAuthorizedUsersTimer = none) :
    (id :: ids).foldl (fun st id => addAuthorizedUser id st) s =
      { s with
        authorizedUsers := (id :: ids).foldl setAdd s.authorizedUsers
        authorizedUsersDirty := true
        timers := s.timers ++ [(s.nextHandle, StoreKind.users)]
        nextHandle := s.nextHandle + 1
        persistAuthorizedUsersTimer := some s.nextHandle } := by
  simp only [List.foldl_cons]
  rw [addUser_idle s id h, addUsers_pending ids _ s.nextHandle rfl rfl]

theorem eraseIdx_snoc_length {α : Type} (l : List α) (x : α) :
    (l ++ [x]).eraseIdx l.length = l := by
  induction l with
  | nil => rfl
  | cons a l ih => simp [List.eraseIdx, ih]

/-- C16: `k ≥ 1` calls of `incrementDownloadCount` with no timer firing in between, from a
state whose count timer is not pending, set exactly one timeout and write nothing; when that
timeout fires and the pass succeeds, exactly one `writeFile` is made, it carries the initial
count plus `k`, and that value is then in the canonical file.  Likewise `k` calls of
`addAuthorizedUser` set exactly one timeout, and its pass makes one write, of the final set
of users.  When the timer of the store is already pending, the calls set no timeout. -/
theorem debounce_coalesces (s : StoreState) (k : Nat) (hk : 1 ≤ k) (now : Nat) :
    (s.persistDownloadCountTimer = none →
      (Nat.iterate incrementDownloadCount k s).timers =
        s.timers ++ [(s.nextHandle, StoreKind.count)] ∧
      (Nat.iterate incrementDownloadCount k s).downloadCount = s.downloadCount + (k : Int) ∧
      (Nat.iterate incrementDownloadCount k s).writes = s.writes ∧
      (fireTimer s.timers.length now Fault.none
          (Nat.iterate incrementDownloadCount k s)).writes =
        s.writes ++ [(tempPathOf DOWNLOAD_COUNT_PATH now,
          FileContent.json (JsValue.atom (JsAtom.number
            (JsNumber.finite (s.downloadCount + (k : Int))))))] ∧
      (fireTimer s.timers.length now Fault.none
          (Nat.iterate incrementDownloadCount k s)).disk DOWNLOAD_COUNT_PATH =
        some (FileContent.json (JsValue.atom (JsAtom.number
          (JsNumber.finite (s.downloadCount + (k : Int)))))) ∧
      (fireTimer s.timers.length now Fault.none
          (Nat.iterate incrementDownloadCount k s)).timers = s.timers) ∧
    (∀ ids : List Int, ids.length = k → s.persistAuthorizedUsersTimer = none →
      (ids.foldl (fun st id => addAuthorizedUser id st) s).timers =
        s.timers ++ [(s.nextHandle, StoreKind.users)] ∧
      (ids.foldl (fun st id => addAuthorizedUser id st) s).authorizedUsers =
        ids.foldl setAdd s.authorizedUsers ∧
      (ids.foldl (fun st id => addAuthorizedUser id st) s).writes = s.writes ∧
      (fireTimer s.timers.length now Fault.none
          (ids.foldl (fun st id => addAuthorizedUser id st) s)).writes =
        s.writes ++ [(tempPathOf AUTH_STORE_PATH now,
          FileContent.json (JsValue.array ((ids.foldl setAdd s.authorizedUsers).map
            (fun id => JsAtom.number (JsNumber.finite id)))))] ∧
      (fireTimer s.timers.length now Fault.none
          (ids.foldl (fun st id => addAuthorizedUser id st) s)).disk AUTH_STORE_PATH =
        some (FileContent.json (JsValue.array ((ids.foldl setAdd s.authorizedUsers).map
          (fun id => JsAtom.number (JsNumber.finite id))))) ∧
      (fireTimer s.timers.length now Fault.none
          (ids.foldl (fun st id => addAuthorizedUser id st) s)).timers = s.timers) ∧
    (∀ handle, s.persistDownloadCountTimer = some handle →
      (Nat.iterate incrementDownloadCount k s).timers = s.timers) := by
  obtain ⟨j, rfl⟩ : ∃ j, k = j + 1 := ⟨k - 1, by omega⟩
  refine ⟨?_, ?_, ?_⟩
  · intro hidle
    rw [increments_idle s hidle j]
    refine ⟨rfl, rfl, rfl, ?_, ?_, ?_⟩
    · simp [fireTimer, persistDownloadCount, writeThenRename, countPayload]
    · simp [fireTimer, persistDownloadCount, writeThenRename, countPayload, Disk.writeFile,
        Disk.rename]
    · simp [fireTimer, persistDownloadCount, writeThenRename, eraseIdx_snoc_length]
  · intro ids hlen hidle
    cases ids with
    | nil => simp at hlen
    | cons id ids =>
      rw [addUsers_idle id ids s hidle]
      refine ⟨rfl, rfl, rfl, ?_, ?_, ?_⟩
      · simp [fireTimer, persistAuthorizedUsers, writeThenRename, usersPayload]
      · simp [fireTimer, persistAuthorizedUsers, writeThenRename, usersPayload,
          Disk.writeFile, Disk.rename]
      · simp [fireTimer, persistAuthorizedUsers, writeThenRename, eraseIdx_snoc_length]
  · intro handle hpending
    have hgen : ∀ (n : Nat) (t : StoreState), t.persistDownloadCountTimer = some handle →
        (Nat.iterate incrementDownloadCount n t).timers = t.timers ∧
        (Nat.iterate incrementDownloadCount n t).persistDownloadCountTimer = some handle := by
      intro n
      induction n with
      | zero => intro t ht; exact ⟨rfl, ht⟩
      | succ n ih =>
        intro t ht
        rw [Function.iterate_succ_apply', increment_pending _ handle (ih t ht).2]
        exact ih t ht
    exact (hgen (j + 1) s hpending).1

/-- Witness of C16: 50 increments from the fresh module, then the timeout fires. -/
theorem debounce_coalesces_witness :
    (Nat.iterate incrementDownloadCount 50 (initialStore (fun _ => none))).timers =
      [(0, StoreKind.count)] ∧
    (fireTimer 0 1700000000000 Fault.none
        (Nat.iterate incrementDownloadCount 50 (initialStore (fun _ => none)))).writes =
      [(tempPathOf DOWNLOAD_COUNT_PATH 1700000000000,
        FileContent.json (JsValue.atom (JsAtom.number (JsNumber.finite 50))))] :=
  ⟨((debounce_coalesces (initialStore (fun _ => none)) 50 (by decide) 1700000000000).1 rfl).1,
    ((debounce_coalesces (initialStore (fun _ => none)) 50 (by decide)
      1700000000000).1 rfl).2.2.2.1⟩

/-- In a consistent state a pending timeout is the one its store remembers. -/
theorem mem_timers_remembered (s : StoreState) (hc : TimersConsistent s)
    (t : Nat × StoreKind) (ht : t ∈ s.timers) :
    s.persistAuthorizedUsersTimer = some t.1 ∨ s.persistDownloadCountTimer = some t.1 := by
  obtain ⟨handle, kind⟩ := t
  cases kind with
  | users =>
    left
    have hmem : (handle, StoreKind.users) ∈
        s.timers.filter (fun t => t.2 == StoreKind.users) := by
      simp [List.mem_filter, ht]
    rw [hc.1] at hmem
    cases hv : s.persistAuthorizedUsersTimer with
    | none => simp [hv] at hmem
    | some h => simp [hv] at hmem; simp [hmem]
  | count =>
    right
    have hmem : (handle, StoreKind.count) ∈
        s.timers.filter (fun t => t.2 == StoreKind.count) := by
      simp [List.mem_filter, ht]
    rw [hc.2] at hmem
    cases hv : s.persistDownloadCountTimer with
    | none => simp [hv] at hmem
    | some h => simp [hv] at hmem; simp [hmem]

/-- `cancelTimers` touches only the timeouts and the timer variables. -/
theorem cancelTimers_frame (s : StoreState) :
    (cancelTimers s).authorizedUsers = s.authorizedUsers ∧
    (cancelTimers s).downloadCount = s.downloadCount ∧
    (cancelTimers s).authorizedUsersDirty = s.authorizedUsersDirty ∧
    (cancelTimers s).downloadCountDirty = s.downloadCountDirty ∧
    (cancelTimers s).disk = s.disk ∧
    (cancelTimers s).writes = s.writes ∧
    (cancelTimers s).persistAuthorizedUsersTimer = none ∧
    (cancelTimers s).persistDownloadCountTimer = none := by
  unfold cancelTimers
  cases hu : s.persistAuthorizedUsersTimer <;> cases hd : s.persistDownloadCountTimer <;>
    simp [hu, hd, clearTimeout]

/-- In a consistent state `cancelTimers` leaves no timeout pending. -/
theorem cancelTimers_timers (s : StoreState) (hc : TimersConsistent s) :
    (cancelTimers s).timers = [] := by
  rw [List.eq_nil_iff_forall_not_mem]
  intro t ht
  have hmem : t ∈ s.timers ∧
      s.persistAuthorizedUsersTimer ≠ some t.1 ∧ s.persistDownloadCountTimer ≠ some t.1 := by
    unfold cancelTimers at ht
    cases hu : s.persistAuthorizedUsersTimer <;> cases hd : s.persistDownloadCountTimer <;>
      simp [hu, hd, clearTimeout, List.mem_filter] at ht ⊢
    · exact ht
    · exact ⟨ht.1, fun h => ht.2 h.symm⟩
    · exact ⟨ht.1, fun h => ht.2 h.symm⟩
    · exact ⟨ht.1, fun h => ht.2.2 h.symm, fun h => ht.2.1 h.symm⟩
  rcases mem_timers_remembered s hc t hmem.1 with h | h
  · exact hmem.2.1 h
  · exact hmem.2.2 h

theorem flushState_snd (now : Nat) (fu fc : Fault) (s : StoreState) :
    (flushState now fu fc s).2 =
      (flushCount now fc (flushUsers now fu (cancelTimers s)).2).2 := by
  unfold flushState
  split <;> rfl

theorem flushUsers_frame (now : Nat) (fault : Fault) (s : StoreState) :
    (flushUsers now fault s).2.timers = s.timers ∧
    (flushUsers now fault s).2.persistAuthorizedUsersTimer = s.persistAuthorizedUsersTimer ∧
    (flushUsers now fault s).2.persistDownloadCountTimer = s.persistDownloadCountTimer := by
  unfold flushUsers persistAuthorizedUsers
  cases s.authorizedUsersDirty <;> cases fault <;> simp [writeThenRename]

theorem flushCount_frame (now : Nat) (fault : Fault) (s : StoreState) :
    (flushCount now fault s).2.timers = s.timers ∧
    (flushCount now fault s).2.persistAuthorizedUsersTimer = s.persistAuthorizedUsersTimer ∧
    (flushCount now fault s).2.persistDownloadCountTimer = s.persistDownloadCountTimer := by
  unfold flushCount persistDownloadCount
  cases s.downloadCountDirty <;> cases fault <;> simp [writeThenRename]

theorem consistent_initial (disk : Disk) : TimersConsistent (initialStore disk) :=
  ⟨rfl, rfl⟩

theorem consistent_increment (s : StoreState) (hc : TimersConsistent s) :
    TimersConsistent (incrementDownloadCount s) := by
  cases h : s.persistDownloadCountTimer with
  | some handle => rw [increment_pending s handle h]; exact hc
  | none =>
    rw [increment_idle s h]
    obtain ⟨h1, h2⟩ := hc
    rw [h] at h2
    constructor
    · show (s.timers ++ [(s.nextHandle, StoreKind.count)]).filter _ = _
      rw [List.filter_append, h1]
      simp
    · show (s.timers ++ [(s.nextHandle, StoreKind.count)]).filter _ = _
      rw [List.filter_append, h2]
      rfl

theorem consistent_addUser (userId : Int) (s : StoreState) (hc : TimersConsistent s) :
    TimersConsistent (addAuthorizedUser userId s) := by
  cases h : s.persistAuthorizedUsersTimer with
  | some handle => rw [addUser_pending s userId handle h]; exact hc
  | none =>
    rw [addUser_idle s userId h]
    obtain ⟨h1, h2⟩ := hc
    rw [h] at h1
    constructor
    · show (s.timers ++ [(s.nextHandle, StoreKind.users)]).filter _ = _
      rw [List.filter_append, h1]
      rfl
    · show (s.timers ++ [(s.nextHandle, StoreKind.users)]).filter _ = _
      rw [List.filter_append, h2]
      simp

theorem consistent_flush (now : Nat) (fu fc : Fault) (s : StoreState)
    (hc : TimersConsistent s) : TimersConsistent (flushState now fu fc s).2 := by
  rw [flushState_snd]
  obtain ⟨f1, f2, f3⟩ := flushCount_frame now fc (flushUsers now fu (cancelTimers s)).2
  obtain ⟨g1, g2, g3⟩ := flushUsers_frame now fu (cancelTimers s)
  obtain ⟨-, -, -, -, -, -, c7, c8⟩ := cancelTimers_frame s
  have ct := cancelTimers_timers s hc
  unfold TimersConsistent
  rw [f1, g1, ct, f2, g2, c7, f3, g3, c8]
  exact ⟨rfl, rfl⟩

theorem filter_eraseIdx_of_false {α : Type} (p : α → Bool) :
    ∀ (l : List α) (i : Nat) (t : α), l[i]? = some t → p t = false →
      (l.eraseIdx i).filter p = l.filter p := by
  intro l
  induction l with
  | nil => intro i t h; simp at h
  | cons a l ih =>
    intro i t h hp
    cases i with
    | zero =>
      simp at h
      subst h
      simp [List.filter, hp]
    | succ j =>
      simp at h
      simp only [List.eraseIdx_cons_succ, List.filter_cons]
      rw [ih j t h hp]

theorem filter_eraseIdx_of_single {α : Type} (p : α → Bool) :
    ∀ (l : List α) (i : Nat) (t x : α), l[i]? = some t → p t = true → l.filter p = [x] →
      (l.eraseIdx i).filter p = [] := by
  intro l
  induction l with
  | nil => intro i t x h; simp at h
  | cons a l ih =>
    intro i t x h hp hf
    cases i with
    | zero =>
      simp at h
      subst h
      simp [List.filter_cons, hp] at hf
      simpa using hf.2
    | succ j =>
      simp at h
      simp only [List.eraseIdx_cons_succ]
      cases hpa : p a with
      | false =>
        simp only [List.filter_cons, hpa] at hf ⊢
        simpa using ih j t x h hp hf
      | true =>
        simp [List.filter_cons, hpa] at hf
        have hfalse := hf.2 t (List.getElem?_mem h)
        rw [hp] at hfalse
        cases hfalse

theorem consistent_fire (i now : Nat) (fault : Fault) (s : StoreState)
    (hc : TimersConsistent s) : TimersConsistent (fireTimer i now fault s) := by
  unfold fireTimer
  cases ht : s.timers[i]? with
  | none => exact hc
  | some t =>
    obtain ⟨handle, kind⟩ := t
    obtain ⟨h1, h2⟩ := hc
    cases kind with
    | users =>
      have hmem : (handle, StoreKind.users) ∈
          s.timers.filter (fun t => t.2 == StoreKind.users) := by
        rw [List.mem_filter]; exact ⟨List.getElem?_mem ht, rfl⟩
      have hone : ∃ x, s.timers.filter (fun t => t.2 == StoreKind.users) = [x] := by
        rw [h1] at hmem ⊢
        cases hv : s.persistAuthorizedUsersTimer with
        | none => simp [hv] at hmem
        | some h => exact ⟨_, rfl⟩
      obtain ⟨x, hx⟩ := hone
      have e1 := filter_eraseIdx_of_single (fun t : Nat × StoreKind => t.2 == StoreKind.users)
        s.timers i _ x ht rfl hx
      have e2 := filter_eraseIdx_of_false (fun t : Nat × StoreKind => t.2 == StoreKind.count)
        s.timers i _ ht rfl
      obtain ⟨-, -, -, -, w5, w6, w7⟩ := writeThenRename_frame AUTH_STORE_PATH
        (usersPayload { s with timers := s.timers.eraseIdx i, persistAuthorizedUsersTimer := none })
        now fault
        { s with timers := s.timers.eraseIdx i, persistAuthorizedUsersTimer := none,
                 authorizedUsersDirty := false }
      simp only [persistAuthorizedUsers]
      split <;> rename_i heq <;>
        · have hs := congrArg Prod.snd heq
          simp only at hs
          unfold TimersConsistent
          simp only [← hs, w5, w6, w7, e1, e2, h2]
          first | exact ⟨rfl, rfl⟩ | trivial
    | count =>
      have hmem : (handle, StoreKind.count) ∈
          s.timers.filter (fun t => t.2 == StoreKind.count) := by
        rw [List.mem_filter]; exact ⟨List.getElem?_mem ht, rfl⟩
      have hone : ∃ x, s.timers.filter (fun t => t.2 == StoreKind.count) = [x] := by
        rw [h2] at hmem ⊢
        cases hv : s.persistDownloadCountTimer with
        | none => simp [hv] at hmem
        | some h => exact ⟨_, rfl⟩
      obtain ⟨x, hx⟩ := hone
      have e1 := filter_eraseIdx_of_single (fun t : Nat × StoreKind => t.2 == StoreKind.count)
        s.timers i _ x ht rfl hx
      have e2 := filter_eraseIdx_of_false (fun t : Nat × StoreKind => t.2 == StoreKind.users)
        s.timers i _ ht rfl
      obtain ⟨-, -, -, -, w5, w6, w7⟩ := writeThenRename_frame DOWNLOAD_COUNT_PATH
        (countPayload { s with timers := s.timers.eraseIdx i, persistDownloadCountTimer := none })
        now fault
        { s with timers := s.timers.eraseIdx i, persistDownloadCountTimer := none,
                 downloadCountDirty := false }
      simp only [persistDownloadCount]
      split <;> rename_i heq <;>
        · have hs := congrArg Prod.snd heq
          simp only at hs
          unfold TimersConsistent
          simp only [← hs, w5, w6, w7, e1, e2, h1]
          first | exact ⟨rfl, rfl⟩ | trivial

/-- C17 (amended: the file of a store is made equal to the memory only for a store that is
dirty).  In a state whose pending timeouts are those the stores remember, `flushState`
leaves no timeout pending and both timer variables empty, whatever the outcome of its
passes.  When its passes succeed it resolves, it has made one `writeFile` for each store
that was dirty at the call and none for a store that was not, neither store is dirty
afterwards, the canonical file of a store that was dirty holds the value in memory, the
canonical file of a store that was not dirty is as before, and the memory is unchanged. -/
theorem flush_persists_dirty_stores (s : StoreState) (now : Nat) (hc : TimersConsistent s) :
    (∀ fu fc : Fault,
      (flushState now fu fc s).2.timers = [] ∧
      (flushState now fu fc s).2.persistAuthorizedUsersTimer = none ∧
      (flushState now fu fc s).2.persistDownloadCountTimer = none) ∧
    (flushState now Fault.none Fault.none s).1 = Except.ok () ∧
    (flushState now Fault.none Fault.none s).2.writes =
      s.writes ++
        (if s.authorizedUsersDirty then [(tempPathOf AUTH_STORE_PATH now, usersPayload s)]
          else []) ++
        (if s.downloadCountDirty then [(tempPathOf DOWNLOAD_COUNT_PATH now, countPayload s)]
          else []) ∧
    (flushState now Fault.none Fault.none s).2.authorizedUsersDirty = false ∧
    (flushState now Fault.none Fault.none s).2.downloadCountDirty = false ∧
    (flushState now Fault.none Fault.none s).2.disk AUTH_STORE_PATH =
      (if s.authorizedUsersDirty then some (usersPayload s) else s.disk AUTH_STORE_PATH) ∧
    (flushState now Fault.none Fault.none s).2.disk DOWNLOAD_COUNT_PATH =
      (if s.downloadCountDirty then some (countPayload s) else s.disk DOWNLOAD_COUNT_PATH) ∧
    (flushState now Fault.none Fault.none s).2.authorizedUsers = s.authorizedUsers ∧
    (flushState now Fault.none Fault.none s).2.downloadCount = s.downloadCount := by
  obtain ⟨c1, c2, c3, c4, c5, c6, c7, c8⟩ := cancelTimers_frame s
  have ct := cancelTimers_timers s hc
  have p1 : AUTH_STORE_PATH ≠ DOWNLOAD_COUNT_PATH := auth_ne_count
  have p2 : DOWNLOAD_COUNT_PATH ≠ AUTH_STORE_PATH := fun h => auth_ne_count h.symm
  have p3 := tempCount_ne_auth now
  have p4 : AUTH_STORE_PATH ≠ tempPathOf DOWNLOAD_COUNT_PATH now := fun h => p3 h.symm
  have p5 := tempAuth_ne_count now
  have p6 : DOWNLOAD_COUNT_PATH ≠ tempPathOf AUTH_STORE_PATH now := fun h => p5 h.symm
  have p7 := tempPathOf_ne_self AUTH_STORE_PATH now
  have p8 := tempPathOf_ne_self DOWNLOAD_COUNT_PATH now
  have p9 : AUTH_STORE_PATH ≠ tempPathOf AUTH_STORE_PATH now := fun h => p7 h.symm
  have p10 : DOWNLOAD_COUNT_PATH ≠ tempPathOf DOWNLOAD_COUNT_PATH now := fun h => p8 h.symm
  refine ⟨?_, ?_⟩
  · intro fu fc
    rw [flushState_snd]
    obtain ⟨f1, f2, f3⟩ := flushCount_frame now fc (flushUsers now fu (cancelTimers s)).2
    obtain ⟨g1, g2, g3⟩ := flushUsers_frame now fu (cancelTimers s)
    exact ⟨by rw [f1, g1, ct], by rw [f2, g2, c7], by rw [f3, g3, c8]⟩
  · have hpayU : usersPayload (cancelTimers s) = usersPayload s := by
      simp [usersPayload, c1]
    have hpayC : countPayload (cancelTimers s) = countPayload s := by
      simp [countPayload, c2]
    have hres : (flushState now Fault.none Fault.none s).1 = Except.ok () := by
      unfold flushState flushUsers flushCount persistAuthorizedUsers persistDownloadCount
      cases hu : (cancelTimers s).authorizedUsersDirty <;>
        cases hd : (cancelTimers s).downloadCountDirty <;>
        simp [writeThenRename, hu, hd]
    refine ⟨hres, ?_⟩
    rw [flushState_snd]
    unfold flushUsers flushCount persistAuthorizedUsers persistDownloadCount
    rw [← c3, ← c4, ← c5, ← c6, ← c1, ← c2, ← hpayU, ← hpayC]
    cases hu : (cancelTimers s).authorizedUsersDirty <;>
      cases hd : (cancelTimers s).downloadCountDirty <;>
      simp [writeThenRename, hu, hd, Disk.writeFile, Disk.rename, p1, p2, p3, p4, p5, p6, p7,
        p8, p9, p10, countPayload, usersPayload]

/-- Witness of C17 as amended: three increments, then a flush before the timeout fires. -/
theorem flush_persists_dirty_stores_witness :
    (flushState 9 Fault.none Fault.none
        (Nat.iterate incrementDownloadCount 3 (initialStore (fun _ => none)))).2.timers = [] ∧
    (flushState 9 Fault.none Fault.none
        (Nat.iterate incrementDownloadCount 3
          (initialStore (fun _ => none)))).2.disk DOWNLOAD_COUNT_PATH =
      some (FileContent.json (JsValue.atom (JsAtom.number (JsNumber.finite 3)))) :=
  ⟨((flush_persists_dirty_stores
      (Nat.iterate incrementDownloadCount 3 (initialStore (fun _ => none))) 9
      ⟨by decide, by decide⟩).1 Fault.none Fault.none).1,
    ((flush_persists_dirty_stores
      (Nat.iterate incrementDownloadCount 3 (initialStore (fun _ => none))) 9
      ⟨by decide, by decide⟩).2.2.2.2.2.2.1).trans (by decide)⟩

/-- C17 as stated fails for a store that is not dirty: the count file holds 7 but cannot be
read at start, so the count in memory stays 0 and nothing is dirty; `flushState` then
resolves without a write, no timer is pending, neither store is dirty, and the file still
holds 7 while the memory holds 0. -/
theorem flush_leaves_clean_store_unwritten :
    (loadDownloadCountFromDisk (some accessDenied) (initialStore diskWithCount7)).2.downloadCount
      = 0 ∧
    (flushState 9 Fault.none Fault.none
      (loadDownloadCountFromDisk (some accessDenied) (initialStore diskWithCount7)).2).1 =
      Except.ok () ∧
    (flushState 9 Fault.none Fault.none
      (loadDownloadCountFromDisk (some accessDenied)
        (initialStore diskWithCount7)).2).2.writes = [] ∧
    (flushState 9 Fault.none Fault.none
      (loadDownloadCountFromDisk (some accessDenied)
        (initialStore diskWithCount7)).2).2.downloadCount = 0 ∧
    (flushState 9 Fault.none Fault.none
      (loadDownloadCountFromDisk (some accessDenied)
        (initialStore diskWithCount7)).2).2.disk DOWNLOAD_COUNT_PATH =
      some (FileContent.json (JsValue.atom (JsAtom.number (JsNumber.finite 7)))) :=
  ⟨by decide, rfl, by decide, by decide, by decide⟩

/-- C18: the code evaluated where the claim fails.  After one increment the timeout fires
and `writeFile` fails: the error is logged and the count is left not dirty, though the
memory holds 1 and no file exists; a later `flushState` therefore makes no write and
resolves, and the file is still missing.  The other half of the claim holds: a `flushState`
whose own write fails is rejected with the error. -/
theorem failed_debounced_write_leaves_store_clean :
    (fireTimer 0 100 (Fault.writeFile diskFull)
      (incrementDownloadCount (initialStore (fun _ => none)))).downloadCountDirty = false ∧
    (fireTimer 0 100 (Fault.writeFile diskFull)
      (incrementDownloadCount (initialStore (fun _ => none)))).downloadCount = 1 ∧
    (fireTimer 0 100 (Fault.writeFile diskFull)
      (incrementDownloadCount (initialStore (fun _ => none)))).logged = [diskFull] ∧
    (fireTimer 0 100 (Fault.writeFile diskFull)
      (incrementDownloadCount (initialStore (fun _ => none)))).timers = [] ∧
    (flushState 200 Fault.none Fault.none
      (fireTimer 0 100 (Fault.writeFile diskFull)
        (incrementDownloadCount (initialStore (fun _ => none))))).1 = Except.ok () ∧
    (flushState 200 Fault.none Fault.none
      (fireTimer 0 100 (Fault.writeFile diskFull)
        (incrementDownloadCount (initialStore (fun _ => none))))).2.writes = [] ∧
    (flushState 200 Fault.none Fault.none
      (fireTimer 0 100 (Fault.writeFile diskFull)
        (incrementDownloadCount (initialStore (fun _ => none))))).2.disk DOWNLOAD_COUNT_PATH
      = none ∧
    (fireTimer 0 100 (Fault.writeFile diskFull)
      (addAuthorizedUser 42 (initialStore (fun _ => none)))).authorizedUsersDirty = false ∧
    (flushState 200 Fault.none (Fault.writeFile diskFull)
      (incrementDownloadCount (initialStore (fun _ => none)))).1 = Except.error diskFull :=
  ⟨by decide, by decide, by decide, by decide, rfl, by decide, by decide, by decide, rfl⟩

theorem increment_frame (s : StoreState) :
    (incrementDownloadCount s).disk = s.disk ∧
    (incrementDownloadCount s).downloadCount = s.downloadCount + 1 := by
  cases h : s.persistDownloadCountTimer with
  | none => rw [increment_idle s h]; exact ⟨rfl, rfl⟩
  | some handle => rw [increment_pending s handle h]; exact ⟨rfl, rfl⟩

theorem increments_frame (k : Nat) (s : StoreState) :
    (Nat.iterate incrementDownloadCount k s).disk = s.disk ∧
    (Nat.iterate incrementDownloadCount k s).downloadCount = s.downloadCount + (k : Int) := by
  induction k with
  | zero => simp
  | succ k ih =>
    rw [Function.iterate_succ_apply']
    obtain ⟨h1, h2⟩ := increment_frame (Nat.iterate incrementDownloadCount k s)
    refine ⟨by rw [h1, ih.1], ?_⟩
    rw [h2, ih.2]
    push_cast
    ring

theorem addUser_disk (userId : Int) (s : StoreState) :
    (addAuthorizedUser userId s).disk = s.disk := by
  cases h : s.persistAuthorizedUsersTimer with
  | none => rw [addUser_idle s userId h]
  | some handle => rw [addUser_pending s userId handle h]

theorem addUsers_disk (ids : List Int) (s : StoreState) :
    (ids.foldl (fun st id => addAuthorizedUser id st) s).disk = s.disk := by
  induction ids generalizing s with
  | nil => rfl
  | cons id ids ih => simp only [List.foldl_cons]; rw [ih, addUser_disk]

/-- C19: a persistence pass of either store writes to a temporary path that is not the
canonical path, and to no other; a pass that stops at `mkdir`, at `writeFile` or at `rename`
fails and leaves the canonical file exactly as it was; a pass that runs to its end leaves the
serialized value of that moment in the canonical file; and mutations made afterwards change
the memory but not the file, which keeps the value of the last pass that ended its rename. -/
theorem persistence_is_atomic (s : StoreState) (now : Nat) (fault : Fault) :
    tempPathOf DOWNLOAD_COUNT_PATH now ≠ DOWNLOAD_COUNT_PATH ∧
    tempPathOf AUTH_STORE_PATH now ≠ AUTH_STORE_PATH ∧
    (∀ w ∈ (persistDownloadCount now fault s).2.writes,
      w ∈ s.writes ∨ w = (tempPathOf DOWNLOAD_COUNT_PATH now, countPayload s)) ∧
    (∀ w ∈ (persistAuthorizedUsers now fault s).2.writes,
      w ∈ s.writes ∨ w = (tempPathOf AUTH_STORE_PATH now, usersPayload s)) ∧
    (fault ≠ Fault.none →
      (persistDownloadCount now fault s).2.disk DOWNLOAD_COUNT_PATH =
        s.disk DOWNLOAD_COUNT_PATH ∧
      (persistAuthorizedUsers now fault s).2.disk AUTH_STORE_PATH = s.disk AUTH_STORE_PATH ∧
      (∃ error, (persistDownloadCount now fault s).1 = Except.error error) ∧
      (∃ error, (persistAuthorizedUsers now fault s).1 = Except.error error)) ∧
    (persistDownloadCount now Fault.none s).2.disk DOWNLOAD_COUNT_PATH =
      some (countPayload s) ∧
    (persistAuthorizedUsers now Fault.none s).2.disk AUTH_STORE_PATH = some (usersPayload s) ∧
    (∀ k : Nat,
      (Nat.iterate incrementDownloadCount k
        (persistDownloadCount now Fault.none s).2).disk DOWNLOAD_COUNT_PATH =
        some (countPayload s) ∧
      (Nat.iterate incrementDownloadCount k
        (persistDownloadCount now Fault.none s).2).downloadCount =
        s.downloadCount + (k : Int)) ∧
    (∀ ids : List Int,
      (ids.foldl (fun st id => addAuthorizedUser id st)
        (persistAuthorizedUsers now Fault.none s).2).disk AUTH_STORE_PATH =
        some (usersPayload s)) := by
  refine ⟨tempPathOf_ne_self _ _, tempPathOf_ne_self _ _, ?_, ?_, ?_, ?_, ?_, ?_, ?_⟩
  · intro w hw
    cases fault <;>
      simp [persistDownloadCount, writeThenRename, countPayload] at hw ⊢ <;> tauto
  · intro w hw
    cases fault <;>
      simp [persistAuthorizedUsers, writeThenRename, usersPayload] at hw ⊢ <;> tauto
  · intro hfault
    have hc := writeThenRename_fault_keeps DOWNLOAD_COUNT_PATH (countPayload s) now fault
      { s with downloadCountDirty := false } hfault
    have hu := writeThenRename_fault_keeps AUTH_STORE_PATH (usersPayload s) now fault
      { s with authorizedUsersDirty := false } hfault
    exact ⟨hc.1, hu.1, hc.2, hu.2⟩
  · exact (writeThenRename_commit DOWNLOAD_COUNT_PATH (countPayload s) now
      { s with downloadCountDirty := false }).1
  · exact (writeThenRename_commit AUTH_STORE_PATH (usersPayload s) now
      { s with authorizedUsersDirty := false }).1
  · intro k
    obtain ⟨h1, h2⟩ := increments_frame k (persistDownloadCount now Fault.none s).2
    refine ⟨?_, ?_⟩
    · rw [h1]
      exact (writeThenRename_commit DOWNLOAD_COUNT_PATH (countPayload s) now
        { s with downloadCountDirty := false }).1
    · rw [h2]
      simp [persistDownloadCount, writeThenRename]
  · intro ids
    rw [addUsers_disk]
    exact (writeThenRename_commit AUTH_STORE_PATH (usersPayload s) now
      { s with authorizedUsersDirty := false }).1

/-- Witness of C19: the count file holds 7; three increments, then a pass whose `rename`
fails: the file still holds 7. -/
theorem persistence_is_atomic_witness :
    (persistDownloadCount 5 (Fault.rename diskFull)
      (Nat.iterate incrementDownloadCount 3
        (initialStore diskWithCount7))).2.disk DOWNLOAD_COUNT_PATH =
      some (FileContent.json (JsValue.atom (JsAtom.number (JsNumber.finite 7)))) :=
  ((persistence_is_atomic (Nat.iterate incrementDownloadCount 3 (initialStore diskWithCount7))
    5 (Fault.rename diskFull)).2.2.2.2.1 (by decide)).1.trans (by decide)

theorem loadDownloadCount_of_json (s : StoreState) (parsed : JsValue)
    (h : s.disk DOWNLOAD_COUNT_PATH = some (FileContent.json parsed)) :
    (loadDownloadCountFromDisk none s).2.downloadCount =
      (match isFiniteValue (countValueOf parsed) with
        | some value => value
        | none => s.downloadCount) := by
  simp only [loadDownloadCountFromDisk, loadDownloadCountBody, h]
  cases isFiniteValue (countValueOf parsed) <;> rfl

/-- C20: `loadDownloadCountFromDisk` always returns normally.  When the file can be read and
holds the JSON number `c`, or an object whose property `count` is the number `c` (the object
with that single property in particular), the count in memory becomes `c`.  When the file
cannot be read, is missing, is not JSON, holds a value of another shape or a number that is
not finite, the count in memory is left as it was.  And a load of the file a successful
pass of `persistDownloadCount` has written restores the count of that pass, whatever the
memory held before the load. -/
theorem load_download_count (s : StoreState) (readError : Option JsError) (now : Nat) :
    (loadDownloadCountFromDisk readError s).1 = Except.ok () ∧
    (∀ c : Int,
      s.disk DOWNLOAD_COUNT_PATH =
        some (FileContent.json (JsValue.atom (JsAtom.number (JsNumber.finite c)))) →
      (loadDownloadCountFromDisk none s).2.downloadCount = c) ∧
    (∀ c : Int,
      s.disk DOWNLOAD_COUNT_PATH =
        some (FileContent.json
          (JsValue.object [("count", JsAtom.number (JsNumber.finite c))])) →
      (loadDownloadCountFromDisk none s).2.downloadCount = c) ∧
    (∀ (c : Int) (fields : List (String × JsAtom)),
      s.disk DOWNLOAD_COUNT_PATH = some (FileContent.json (JsValue.object fields)) →
      fields.lookup "count" = some (JsAtom.number (JsNumber.finite c)) →
      (loadDownloadCountFromDisk none s).2.downloadCount = c) ∧
    (readError ≠ none →
      (loadDownloadCountFromDisk readError s).2.downloadCount = s.downloadCount) ∧
    (s.disk DOWNLOAD_COUNT_PATH = none →
      (loadDownloadCountFromDisk none s).2.downloadCount = s.downloadCount) ∧
    (∀ raw : String, s.disk DOWNLOAD_COUNT_PATH = some (FileContent.garbage raw) →
      (loadDownloadCountFromDisk none s).2.downloadCount = s.downloadCount) ∧
    (∀ parsed : JsValue, s.disk DOWNLOAD_COUNT_PATH = some (FileContent.json parsed) →
      (countValueOf parsed = none ∨ countValueOf parsed = some JsNumber.nonFinite) →
      (loadDownloadCountFromDisk none s).2.downloadCount = s.downloadCount) ∧
    (∀ (a : JsAtom) (items : List JsAtom) (fields : List (String × JsAtom)),
      (((∀ n, a ≠ JsAtom.number n) → countValueOf (JsValue.atom a) = none) ∧
        countValueOf (JsValue.array items) = none ∧
        ((∀ n, fields.lookup "count" ≠ some (JsAtom.number n)) →
          countValueOf (JsValue.object fields) = none))) ∧
    (∀ memory : Int,
      (loadDownloadCountFromDisk none
        { (persistDownloadCount now Fault.none s).2 with downloadCount := memory }).2.downloadCount
        = s.downloadCount) := by
  refine ⟨?_, ?_, ?_, ?_, ?_, ?_, ?_, ?_, ?_, ?_⟩
  · unfold loadDownloadCountFromDisk
    split
    · rfl
    · split <;> rfl
  · intro c h
    rw [loadDownloadCount_of_json s _ h]
    rfl
  · intro c h
    rw [loadDownloadCount_of_json s _ h]
    rfl
  · intro c fields h hcount
    rw [loadDownloadCount_of_json s _ h]
    simp [countValueOf, hcount, isFiniteValue]
  · intro herr
    cases readError with
    | none => exact absurd rfl herr
    | some error =>
      simp only [loadDownloadCountFromDisk, loadDownloadCountBody]
      split <;> rfl
  · intro h
    simp [loadDownloadCountFromDisk, loadDownloadCountBody, h]
  · intro raw h
    simp [loadDownloadCountFromDisk, loadDownloadCountBody, h]
  · intro parsed h hshape
    rw [loadDownloadCount_of_json s _ h]
    rcases hshape with hs | hs <;> simp [hs, isFiniteValue]
  · intro a items fields
    refine ⟨?_, rfl, ?_⟩
    · intro ha
      cases a with
      | number n => exact absurd rfl (ha n)
      | _ => rfl
    · intro hf
      cases hl : fields.lookup "count" with
      | none => simp [countValueOf, hl]
      | some v =>
        cases v with
        | number n => exact absurd hl (hf n)
        | _ => simp [countValueOf, hl]
  · intro memory
    have hdisk : ({ (persistDownloadCount now Fault.none s).2 with
        downloadCount := memory } : StoreState).disk DOWNLOAD_COUNT_PATH =
        some (FileContent.json
          (JsValue.atom (JsAtom.number (JsNumber.finite s.downloadCount)))) :=
      (writeThenRename_commit DOWNLOAD_COUNT_PATH (countPayload s) now
        { s with downloadCountDirty := false }).1
    rw [loadDownloadCount_of_json _ _ hdisk]
    rfl

/-- Witness of C20: the legacy object form is read, a missing file leaves the count alone. -/
theorem load_download_count_witness :
    (loadDownloadCountFromDisk none
      (initialStore (fun p =>
        if p = DOWNLOAD_COUNT_PATH then
          some (FileContent.json
            (JsValue.object [("count", JsAtom.number (JsNumber.finite 12))]))
        else none))).2.downloadCount = 12 ∧
    (loadDownloadCountFromDisk none (initialStore (fun _ => none))).2.downloadCount = 0 :=
  ⟨(load_download_count
      (initialStore (fun p =>
        if p = DOWNLOAD_COUNT_PATH then
          some (FileContent.json
            (JsValue.object [("count", JsAtom.number (JsNumber.finite 12))]))
        else none)) none 0).2.2.1 12 (by decide),
    (load_download_count (initialStore (fun _ => none)) none 0).2.2.2.2.2.1 (by decide)⟩

end Store
/-! ## Properties of the playlist request and of a single scheduling chain -/

namespace Bot

/-- The four ways a call of `enqueueNextTrack` can go: nothing changes (no registered
session, or a prompt is already pending at a boundary); the session ends; a prompt is sent;
the track at the cursor is given to the queue. -/
theorem enqueueNextTrack_cases (force : Bool) (st : BotState) :
    enqueueNextTrack force st = st ∨
    (st.registered = true ∧ st.session.tracks.length ≤ st.session.nextIndex ∧
      enqueueNextTrack force st =
        { (if st.session.buffer.length != 0 then sendPlaylistGroup st else st) with
          effects := (if st.session.buffer.length != 0 then sendPlaylistGroup st else st).effects
            ++ [Effect.reply Message.playlistDone]
          registered := false }) ∨
    (st.registered = true ∧ st.session.nextIndex < st.session.tracks.length ∧
      force = false ∧ st.session.awaitingPrompt = false ∧
      enqueueNextTrack force st =
        { st with
          session :=
            { st.session with
              promptMessageId := some st.effects.length
              awaitingPrompt := true }
          effects := st.effects ++
            [Effect.replyWithButtons
              (Message.playlistChunkPrompt st.session.nextIndex st.session.tracks.length
                PLAYLIST_CHUNK_SIZE)
              st.session.id] }) ∨
    (st.registered = true ∧ st.session.nextIndex < st.session.tracks.length ∧
      ∃ trackUrl, st.session.tracks[st.session.nextIndex]? = some trackUrl ∧
        enqueueNextTrack force st =
          { st with
            session := { st.session with nextIndex := st.session.nextIndex + 1 }
            inFlight := st.inFlight ++ [trackUrl]
            effects := st.effects ++ [Effect.queueAdd trackUrl] }) := by
  cases hreg : st.registered with
  | false => left; simp [enqueueNextTrack, hreg]
  | true =>
    by_cases hend : st.session.tracks.length ≤ st.session.nextIndex
    · right; left
      refine ⟨rfl, hend, ?_⟩
      simp [enqueueNextTrack, hreg, hend]
    · have hlt : st.session.nextIndex < st.session.tracks.length := by omega
      cases hb : (!force && decide (st.session.nextIndex > 0)
          && st.session.nextIndex % PLAYLIST_CHUNK_SIZE == 0) with
      | true =>
        cases hw : st.session.awaitingPrompt with
        | true =>
          left
          unfold enqueueNextTrack
          simp only [hreg, Bool.not_true, Bool.false_eq_true, if_false, ge_iff_le, hend, hb,
            hw, if_true]
        | false =>
          right; right; left
          have hf : force = false := by
            cases force
            · rfl
            · simp at hb
          refine ⟨rfl, hlt, hf, rfl, ?_⟩
          unfold enqueueNextTrack
          simp only [hreg, Bool.not_true, Bool.false_eq_true, if_false, ge_iff_le, hend, hb,
            hw, if_true]
      | false =>
        right; right; right
        refine ⟨rfl, hlt, st.session.tracks[st.session.nextIndex],
          List.getElem?_eq_getElem hlt, ?_⟩
        unfold enqueueNextTrack
        simp only [hreg, Bool.not_true, Bool.false_eq_true, if_false, ge_iff_le, hend, hb,
          List.getElem?_eq_getElem hlt]

theorem enqueueNextTrack_tracks (force : Bool) (st : BotState) :
    (enqueueNextTrack force st).session.tracks = st.session.tracks := by
  rcases enqueueNextTrack_cases force st with h | ⟨_, _, h⟩ | ⟨_, _, _, _, h⟩ | ⟨_, _, _, _, h⟩
  · rw [h]
  · rw [h]
    show (if st.session.buffer.length != 0 then sendPlaylistGroup st else st).session.tracks = _
    split
    · exact (sendPlaylistGroup_frame st).2.2.2.1
    · rfl
  · rw [h]
  · rw [h]

theorem handlePlaylistRequest_tracks (userId : Nat) (sessionId : String)
    (entries : List String) :
    (handlePlaylistRequest userId sessionId entries).session.tracks = entries := by
  unfold handlePlaylistRequest
  split
  · rfl
  · rw [enqueueNextTrack_tracks]

end Bot

namespace Downloader

/-- C21 (amended: the function does not cut the list, the bound is the engine's): with the
engine at hand, `fetchPlaylistTracks(url, limit)` asks the engine for a listing with
`playlistEnd` equal to `limit` and returns normally.  It returns the empty list when the
engine rejects, when the text it resolves to cannot be parsed, and when the parsed value has
no array under `entries`.  Otherwise it returns exactly the string-valued `url` fields of the
entries, in their order; this list is no longer than the array of entries, hence has at most
`limit` elements whenever the engine reports at most `limit` entries.  The list returned for
the limit `PLAYLIST_MAX_ITEMS` is the track list of the session. -/
theorem fetchPlaylistTracks_returns_string_urls (parse : String → Except JsError Json)
    (ytdlp : PlaylistEngine) (url : String) (limit : Int) :
    (playlistOptions limit).playlistEnd = limit ∧
    (∀ error, ytdlp url (playlistOptions limit) = Except.error error →
      fetchPlaylistTracks parse (Except.ok ytdlp) url limit = Except.ok []) ∧
    (∀ output error, ytdlp url (playlistOptions limit) = Except.ok output →
      parseOutput parse output = Except.error error →
      fetchPlaylistTracks parse (Except.ok ytdlp) url limit = Except.ok []) ∧
    (∀ output parsed, ytdlp url (playlistOptions limit) = Except.ok output →
      parseOutput parse output = Except.ok parsed → entriesOf parsed = none →
      fetchPlaylistTracks parse (Except.ok ytdlp) url limit = Except.ok []) ∧
    (∀ output parsed entries, ytdlp url (playlistOptions limit) = Except.ok output →
      parseOutput parse output = Except.ok parsed → entriesOf parsed = some entries →
      ∃ tracks, fetchPlaylistTracks parse (Except.ok ytdlp) url limit = Except.ok tracks ∧
        StringUrls entries tracks ∧ (∀ urls, StringUrls entries urls → urls = tracks) ∧
        tracks.length ≤ entries.length ∧
        ((entries.length : Int) ≤ limit → (tracks.length : Int) ≤ limit)) ∧
    (∃ tracks, fetchPlaylistTracks parse (Except.ok ytdlp) url limit = Except.ok tracks) ∧
    (∀ tracks userId sessionId,
      fetchPlaylistTracks parse (Except.ok ytdlp) url Bot.PLAYLIST_MAX_ITEMS = Except.ok tracks →
      ∃ st, Bot.handlePlaylistRequestFrom parse (Except.ok ytdlp) url userId sessionId =
          Except.ok st ∧ st.session.tracks = tracks) := by
  refine ⟨rfl, ?_, ?_, ?_, ?_, ?_, ?_⟩
  · intro error h
    simp only [fetchPlaylistTracks, h]
  · intro output error h hp
    simp only [fetchPlaylistTracks, h, hp]
  · intro output parsed h hp he
    simp only [fetchPlaylistTracks, h, hp, he]
  · intro output parsed entries h hp he
    refine ⟨(entries.map urlOf).filterMap asString, ?_, stringUrls_collect entries,
      fun urls hu => stringUrls_unique entries _ _ hu (stringUrls_collect entries),
      collected_length_le entries, fun hle => ?_⟩
    · simp only [fetchPlaylistTracks, h, hp, he]
    · have := collected_length_le entries
      omega
  · unfold fetchPlaylistTracks
    simp only
    cases ytdlp url (playlistOptions limit) with
    | error e => exact ⟨_, rfl⟩
    | ok output =>
      simp only
      cases parseOutput parse output with
      | error e => exact ⟨_, rfl⟩
      | ok parsed =>
        simp only
        cases entriesOf parsed with
        | none => exact ⟨_, rfl⟩
        | some entries => exact ⟨_, rfl⟩
  · intro tracks userId sessionId h
    refine ⟨Bot.handlePlaylistRequest userId sessionId tracks, ?_,
      Bot.handlePlaylistRequest_tracks userId sessionId tracks⟩
    simp only [Bot.handlePlaylistRequestFrom, h]

/-- Witness of C21: an engine that rejects gives the empty list; the sample listing of five
entries, asked for at most 100, gives its string-valued urls in order; a text that cannot be
parsed and a value without entries give the empty list; the session of the sample listing has
the three urls as its tracks. -/
theorem fetchPlaylistTracks_returns_string_urls_witness :
    fetchPlaylistTracks rejectingParse
      (Except.ok (fun _ _ => Except.error { message := some "network" })) "u" 100 =
        Except.ok [] ∧
    (∃ tracks, fetchPlaylistTracks rejectingParse (Except.ok overlongListing) "u" 100 =
        Except.ok tracks ∧
      StringUrls
        [Json.object [("url", Json.string "a")],
          Json.object [("url", Json.number 5)],
          Json.null,
          Json.object [("id", Json.number 1), ("url", Json.string "b")],
          Json.object [("url", Json.string "c")]] tracks ∧
      (∀ urls, StringUrls
        [Json.object [("url", Json.string "a")],
          Json.object [("url", Json.number 5)],
          Json.null,
          Json.object [("id", Json.number 1), ("url", Json.string "b")],
          Json.object [("url", Json.string "c")]] urls → urls = tracks) ∧
      tracks.length ≤ 5 ∧ (((5 : Nat) : Int) ≤ 100 → (tracks.length : Int) ≤ 100)) ∧
    fetchPlaylistTracks rejectingParse
      (Except.ok (fun _ _ => Except.ok (EngineOutput.text "<html>"))) "u" 100 =
        Except.ok [] ∧
    fetchPlaylistTracks rejectingParse
      (Except.ok (fun _ _ => Except.ok (EngineOutput.value Json.null))) "u" 100 =
        Except.ok [] ∧
    (∃ st, Bot.handlePlaylistRequestFrom rejectingParse (Except.ok overlongListing) "u" 7 "7-1" =
        Except.ok st ∧ st.session.tracks = ["a", "b", "c"]) :=
  ⟨(fetchPlaylistTracks_returns_string_urls rejectingParse
      (fun _ _ => Except.error { message := some "network" }) "u" 100).2.1
      { message := some "network" } rfl,
    (fetchPlaylistTracks_returns_string_urls rejectingParse overlongListing "u" 100).2.2.2.2.1
      _ _ _ rfl rfl rfl,
    (fetchPlaylistTracks_returns_string_urls rejectingParse
      (fun _ _ => Except.ok (EngineOutput.text "<html>")) "u" 100).2.2.1
      _ { message := some "Unexpected token" } rfl rfl,
    (fetchPlaylistTracks_returns_string_urls rejectingParse
      (fun _ _ => Except.ok (EngineOutput.value Json.null)) "u" 100).2.2.2.1
      _ _ rfl rfl rfl,
    (fetchPlaylistTracks_returns_string_urls rejectingParse overlongListing "u" 100).2.2.2.2.2.2
      ["a", "b", "c"] 7 "7-1" rfl⟩

/-- C21 as stated fails on the length: the function passes `limit` to the engine and does
not cut what comes back, so for an engine that reports five entries when asked for at most
two, `fetchPlaylistTracks(url, 2)` returns three urls. -/
theorem fetchPlaylistTracks_does_not_cut :
    (playlistOptions 2).playlistEnd = 2 ∧
    fetchPlaylistTracks rejectingParse (Except.ok overlongListing)
      "https://soundcloud.com/u/sets/s" 2 = Except.ok ["a", "b", "c"] ∧
    ¬ (((["a", "b", "c"] : List String).length : Int) ≤ 2) := by
  refine ⟨rfl, rfl, by decide⟩

end Downloader

namespace Downloader

/-- A successful `downloadTrack` leaves the directory its result names in place. -/
theorem downloadTrack_ok_dir (env : Env) (getYtDlp : Except JsError YtDlp) (url : String)
    (w w1 : World) (download : Download)
    (h : downloadTrack env getYtDlp url w = (Except.ok download, w1)) :
    ∃ files, (download.tempDir, files) ∈ w1.dirs := by
  cases getYtDlp with
  | error e => simp [downloadTrack] at h
  | ok ytdlp =>
    rcases attemptDownload_cases env ytdlp url (buildYtDlpOptions env true none) w with
      ⟨e, h1⟩ | ⟨r, h1, hr, -⟩
    · cases hrl : isSoundCloudRateLimitError env.toLowerCase (some e) with
      | false =>
        rw [downloadTrack_terminal env ytdlp url w _ e h1 hrl] at h
        simp at h
      | true =>
        rcases attemptDownload_cases env ytdlp url
            (buildYtDlpOptions env false (some fallbackFormat))
            (cleanupTempDir w.nextTmp
              (afterEngine ytdlp url (buildYtDlpOptions env true none) w)) with
          ⟨e2, h2⟩ | ⟨r2, h2, hr2, -⟩
        · rw [downloadTrack_fallback_error env ytdlp url w _ _ e e2 h1 hrl h2] at h
          simp at h
        · rw [downloadTrack_fallback_ok env ytdlp url w _ _ e r2 h1 hrl h2] at h
          simp only [Prod.mk.injEq, Except.ok.injEq] at h
          obtain ⟨hd, hw⟩ := h
          subst hd
          subst hw
          have hmem := afterEngine_dirs ytdlp url
            (buildYtDlpOptions env false (some fallbackFormat))
            (cleanupTempDir w.nextTmp
              (afterEngine ytdlp url (buildYtDlpOptions env true none) w))
          rw [← hr2] at hmem
          exact ⟨_, hmem⟩
    · rw [downloadTrack_primary_ok env ytdlp url w _ r h1] at h
      simp only [Prod.mk.injEq, Except.ok.injEq] at h
      obtain ⟨hd, hw⟩ := h
      subst hd
      subst hw
      have hmem := afterEngine_dirs ytdlp url (buildYtDlpOptions env true none) w
      rw [← hr] at hmem
      exact ⟨_, hmem⟩

end Downloader

namespace Bot

theorem afterDownload_skipSend_statError (env : JobEnv) (download : Downloader.Download)
    (error : Downloader.JsError) (hstat : env.stat download.path = Except.error error) :
    afterDownload env download true = (Except.error error, []) := by
  simp [afterDownload, sendAll, hstat]

theorem afterDownload_skipSend_oversize (env : JobEnv) (download : Downloader.Download)
    (size : Nat) (hstat : env.stat download.path = Except.ok size)
    (hbig : TELEGRAM_MAX_FILE_BYTES < size) :
    afterDownload env download true = (Except.ok none, []) := by
  simp [afterDownload, sendAll, hstat, hbig]

theorem afterDownload_skipSend_result (env : JobEnv) (download : Downloader.Download)
    (item : Item) (h : (afterDownload env download true).1 = Except.ok (some item)) :
    item.download = download := by
  cases hstat : env.stat download.path with
  | error e =>
    rw [afterDownload_skipSend_statError env download e hstat] at h
    simp at h
  | ok size =>
    by_cases hbig : TELEGRAM_MAX_FILE_BYTES < size
    · rw [afterDownload_skipSend_oversize env download size hstat hbig] at h
      simp at h
    · simp [afterDownload, sendAll, hstat, hbig] at h
      rw [← h]

/-- C22: the code evaluated against the claim, for a call in which `downloadTrack` returned
`download` in the world `w1`.  Without `skipSend` the `finally` removes the directory however
the call ends.  With `skipSend` a returned result carries the download, whose directory is
left to the caller.  With `skipSend` and a file above the size limit the call returns
nothing, and when `fsp.stat` throws the call throws: in both cases the `finally` skips the
removal, so the directory is still there and no result names it; the job of the playlist
then settles without a result, or is rejected, in that same world. -/
theorem handleDownloadJob_temp_dir (env : JobEnv) (dl : Downloader.Env)
    (getYtDlp : Except Downloader.JsError Downloader.YtDlp) (url : String)
    (w w1 : Downloader.World) (download : Downloader.Download)
    (hdl : Downloader.downloadTrack dl getYtDlp url w = (Except.ok download, w1)) :
    (∀ d ∈ (handleDownloadJob env dl getYtDlp url false w).world.dirs,
      d.1 ≠ download.tempDir) ∧
    (∀ item, (handleDownloadJob env dl getYtDlp url true w).result = Except.ok (some item) →
      item.download = download ∧
      (handleDownloadJob env dl getYtDlp url true w).world = w1) ∧
    (∀ size, env.stat download.path = Except.ok size → TELEGRAM_MAX_FILE_BYTES < size →
      (handleDownloadJob env dl getYtDlp url true w).result = Except.ok none ∧
      (handleDownloadJob env dl getYtDlp url true w).effects = [] ∧
      (∃ files, (download.tempDir, files) ∈
        (handleDownloadJob env dl getYtDlp url true w).world.dirs) ∧
      playlistJob env dl getYtDlp url w = (Settlement.jobReturned none, w1)) ∧
    (∀ error, env.stat download.path = Except.error error →
      (handleDownloadJob env dl getYtDlp url true w).result = Except.error error ∧
      (∃ files, (download.tempDir, files) ∈
        (handleDownloadJob env dl getYtDlp url true w).world.dirs) ∧
      playlistJob env dl getYtDlp url w = (Settlement.rejected error, w1)) := by
  obtain ⟨files, hfiles⟩ := Downloader.downloadTrack_ok_dir dl getYtDlp url w w1 download hdl
  refine ⟨?_, ?_, ?_, ?_⟩
  · intro d hd
    simp only [handleDownloadJob, hdl, Bool.not_false, if_true] at hd
    exact Downloader.cleanupTempDir_dirs _ _ d hd
  · intro item hitem
    simp only [handleDownloadJob, hdl, Bool.not_true, Bool.false_eq_true, if_false] at hitem ⊢
    exact ⟨afterDownload_skipSend_result env download item hitem, trivial⟩
  · intro size hstat hbig
    have hres := afterDownload_skipSend_oversize env download size hstat hbig
    have hjob : handleDownloadJob env dl getYtDlp url true w =
        { result := Except.ok none, world := w1, effects := [] } := by
      simp only [handleDownloadJob, hdl, Bool.not_true, Bool.false_eq_true, if_false, hres]
    refine ⟨by rw [hjob], by rw [hjob], ⟨files, by rw [hjob]; exact hfiles⟩, ?_⟩
    simp only [playlistJob, hjob]
  · intro error hstat
    have hres := afterDownload_skipSend_statError env download error hstat
    have hjob : handleDownloadJob env dl getYtDlp url true w =
        { result := Except.error error, world := w1, effects := [] } := by
      simp only [handleDownloadJob, hdl, Bool.not_true, Bool.false_eq_true, if_false, hres]
    refine ⟨by rw [hjob], ⟨files, by rw [hjob]; exact hfiles⟩, ?_⟩
    simp only [playlistJob, hjob]

/-- Witness of C22: a track whose file is one byte above the limit, fetched for a playlist
(`skipSend` true) in a world without temporary directory: the call returns nothing, does
nothing, and the directory 0 of the download is still there when the job has settled. -/
theorem handleDownloadJob_temp_dir_witness :
    (handleDownloadJob (sampleJobEnv 52428801) Downloader.sampleEnv
      (Except.ok oneTrackEngine) "u" true Downloader.emptyWorld).result = Except.ok none ∧
    (handleDownloadJob (sampleJobEnv 52428801) Downloader.sampleEnv
      (Except.ok oneTrackEngine) "u" true Downloader.emptyWorld).effects = [] ∧
    (∃ files, (0, files) ∈
      (handleDownloadJob (sampleJobEnv 52428801) Downloader.sampleEnv
        (Except.ok oneTrackEngine) "u" true Downloader.emptyWorld).world.dirs) ∧
    playlistJob (sampleJobEnv 52428801) Downloader.sampleEnv (Except.ok oneTrackEngine) "u"
        Downloader.emptyWorld =
      (Settlement.jobReturned none,
        (Downloader.downloadTrack Downloader.sampleEnv (Except.ok oneTrackEngine) "u"
          Downloader.emptyWorld).2) :=
  (handleDownloadJob_temp_dir (sampleJobEnv 52428801) Downloader.sampleEnv
    (Except.ok oneTrackEngine) "u" Downloader.emptyWorld
    (Downloader.downloadTrack Downloader.sampleEnv (Except.ok oneTrackEngine) "u"
      Downloader.emptyWorld).2
    { tempDir := 0, path := { dir := 0, name := "t.mp3" }, filename := "t.mp3",
      metadata := none, rateLimited := none }
    rfl).2.2.1 52428801 rfl (by decide)

/-- The other case of C22 at an input: `fsp.stat` throws in a call with `skipSend`; the call
throws that error and the directory 0 of the download is still there. -/
theorem handleDownloadJob_keeps_dir_on_stat_error :
    (handleDownloadJob
      { sampleJobEnv 1000 with stat := fun _ => Except.error Store.accessDenied }
      Downloader.sampleEnv (Except.ok oneTrackEngine) "u" true Downloader.emptyWorld).result =
        Except.error Store.accessDenied ∧
    (handleDownloadJob
      { sampleJobEnv 1000 with stat := fun _ => Except.error Store.accessDenied }
      Downloader.sampleEnv (Except.ok oneTrackEngine) "u" true Downloader.emptyWorld).world.dirs =
        [(0, ["t.mp3"])] ∧
    (handleDownloadJob
      { sampleJobEnv 1000 with stat := fun _ => Except.error Store.accessDenied }
      Downloader.sampleEnv (Except.ok oneTrackEngine) "u" false Downloader.emptyWorld).world.dirs =
        [] := by
  refine ⟨rfl, by decide, by decide⟩

end Bot

/-! ## A session driven by a single scheduling chain -/

namespace Bot

theorem promptCursors_append (xs ys : List Effect) :
    promptCursors (xs ++ ys) = promptCursors xs ++ promptCursors ys := by
  induction xs with
  | nil => rfl
  | cons e es ih =>
    cases e with
    | replyWithButtons m sid => cases m <;> simp [promptCursors, ih]
    | _ => simp [promptCursors, ih]

theorem continueCount_append (xs ys : List Effect) :
    continueCount (xs ++ ys) = continueCount xs + continueCount ys := by
  simp [continueCount]

theorem deliveredFiles_append (xs ys : List Effect) :
    deliveredFiles (xs ++ ys) = deliveredFiles xs ++ deliveredFiles ys := by
  simp [deliveredFiles]

theorem returnedItems_append (xs ys : List (String × Settlement)) :
    returnedItems (xs ++ ys) = returnedItems xs ++ returnedItems ys := by
  simp [returnedItems]

/-- What the delivery of one item shows: one document, nothing else that is counted. -/
theorem deliverItem_observed (item : Item) :
    submittedTracks (deliverItem item) = [] ∧ promptCursors (deliverItem item) = [] ∧
    continueCount (deliverItem item) = 0 ∧ deliveredFiles (deliverItem item) = [item.file] := by
  unfold deliverItem
  cases h1 : (item.download.rateLimited == some true) <;>
    cases h2 : Downloader.truthy item.qualityWarning <;>
    simp [submittedTracks, promptCursors, continueCount, deliveredFiles, Item.file]

theorem deliveries_observed (buffer : List Item) :
    submittedTracks (buffer.map deliverItem).flatten = [] ∧
    promptCursors (buffer.map deliverItem).flatten = [] ∧
    continueCount (buffer.map deliverItem).flatten = 0 ∧
    deliveredFiles (buffer.map deliverItem).flatten = buffer.map Item.file := by
  induction buffer with
  | nil => exact ⟨rfl, rfl, rfl, rfl⟩
  | cons item rest ih =>
    have h := deliverItem_observed item
    simp only [List.map_cons, List.flatten_cons, submittedTracks_append, promptCursors_append,
      continueCount_append, deliveredFiles_append, h.1, h.2.1, h.2.2.1, h.2.2.2, ih.1, ih.2.1,
      ih.2.2.1, ih.2.2.2]
    simp

/-- Effects that are neither a submission, a prompt, a continue nor a document leave the
chain as it is, whatever becomes of the registration. -/
theorem chain_effects (tracks : List String) (st : BotState)
    (log : List (String × Settlement)) (h : Chain tracks st log) (xs : List Effect)
    (hs : submittedTracks xs = []) (hp : promptCursors xs = []) (hc : continueCount xs = 0)
    (hd : deliveredFiles xs = []) (registered : Bool) :
    Chain tracks { st with effects := st.effects ++ xs, registered := registered } log where
  tracks_eq := h.tracks_eq
  cursor_le := h.cursor_le
  submitted := by
    show submittedTracks (st.effects ++ xs) = _
    rw [submittedTracks_append, hs, List.append_nil]
    exact h.submitted
  pending := h.pending
  settled := by
    show _ = submittedTracks (st.effects ++ xs)
    rw [submittedTracks_append, hs, List.append_nil]
    exact h.settled
  prompts := by
    show (promptCursors (st.effects ++ xs)).length = continueCount (st.effects ++ xs) + _
    rw [promptCursors_append, continueCount_append, hp, hc, List.append_nil, Nat.add_zero]
    exact h.prompts
  idle := h.idle
  delivered := by
    show deliveredFiles (st.effects ++ xs) ++ _ = _
    rw [deliveredFiles_append, hd, List.append_nil]
    exact h.delivered

theorem chain_send (tracks : List String) (st : BotState) (log : List (String × Settlement))
    (h : Chain tracks st log) : Chain tracks (sendPlaylistGroup st) log := by
  unfold sendPlaylistGroup
  split
  · exact h
  · have hobs := deliveries_observed st.session.buffer
    exact
      { tracks_eq := h.tracks_eq
        cursor_le := h.cursor_le
        submitted := by
          show submittedTracks (st.effects ++ _) = _
          rw [submittedTracks_append, hobs.1, List.append_nil]
          exact h.submitted
        pending := h.pending
        settled := by
          show _ = submittedTracks (st.effects ++ _)
          rw [submittedTracks_append, hobs.1, List.append_nil]
          exact h.settled
        prompts := by
          show (promptCursors (st.effects ++ _)).length = continueCount (st.effects ++ _) + _
          rw [promptCursors_append, continueCount_append, hobs.2.1, hobs.2.2.1,
            List.append_nil, Nat.add_zero]
          exact h.prompts
        idle := h.idle
        delivered := by
          show deliveredFiles (st.effects ++ _) ++ List.map Item.file [] = _
          rw [deliveredFiles_append, hobs.2.2.2, List.map_nil, List.append_nil]
          exact h.delivered }

/-- A call of `enqueueNextTrack` made while no job of the session is pending and no prompt is
awaited keeps the chain: it submits at most one track. -/
theorem chain_enqueue (force : Bool) (tracks : List String) (st : BotState)
    (log : List (String × Settlement)) (h : Chain tracks st log) (hidle : st.inFlight = [])
    (hwait : st.session.awaitingPrompt = false) :
    Chain tracks (enqueueNextTrack force st) log := by
  rcases enqueueNextTrack_cases force st with
    hsame | ⟨_, _, hdone⟩ | ⟨_, _, _, _, hpause⟩ | ⟨_, hlt, trackUrl, htrack, hsubmit⟩
  · rw [hsame]
    exact h
  · rw [hdone]
    have hS : Chain tracks
        (if st.session.buffer.length != 0 then sendPlaylistGroup st else st) log := by
      split
      · exact chain_send tracks st log h
      · exact h
    exact chain_effects tracks _ log hS [Effect.reply Message.playlistDone] rfl rfl rfl rfl false
  · rw [hpause]
    have hp := h.prompts
    rw [hwait] at hp
    exact
      { tracks_eq := h.tracks_eq
        cursor_le := h.cursor_le
        submitted := by
          show submittedTracks (st.effects ++ _) = _
          rw [submittedTracks_append]
          simp only [submittedTracks, List.append_nil]
          exact h.submitted
        pending := h.pending
        settled := by
          show _ = submittedTracks (st.effects ++ _)
          rw [submittedTracks_append]
          simp only [submittedTracks, List.append_nil]
          exact h.settled
        prompts := by
          show (promptCursors (st.effects ++ _)).length = continueCount (st.effects ++ _) + _
          rw [promptCursors_append, continueCount_append]
          simp [promptCursors, continueCount] at hp ⊢
          exact hp
        idle := fun _ => hidle
        delivered := by
          show deliveredFiles (st.effects ++ _) ++ _ = _
          rw [deliveredFiles_append]
          simp only [deliveredFiles, List.filterMap_cons, List.filterMap_nil, List.append_nil]
          exact h.delivered }
  · rw [hsubmit]
    have hte := h.tracks_eq
    have htake : tracks.take (st.session.nextIndex + 1) =
        tracks.take st.session.nextIndex ++ [trackUrl] := by
      rw [List.take_succ, ← hte, htrack]
      rfl
    exact
      { tracks_eq := h.tracks_eq
        cursor_le := by
          show st.session.nextIndex + 1 ≤ tracks.length
          rw [← hte]
          exact hlt
        submitted := by
          show submittedTracks (st.effects ++ _) = tracks.take (st.session.nextIndex + 1)
          rw [submittedTracks_append, htake, h.submitted]
          rfl
        pending := by
          show (st.inFlight ++ [trackUrl]).length ≤ 1
          rw [hidle]
          exact le_refl _
        settled := by
          show _ ++ (st.inFlight ++ [trackUrl]) = submittedTracks (st.effects ++ _)
          rw [submittedTracks_append, ← h.settled, hidle]
          simp [submittedTracks]
        prompts := by
          show (promptCursors (st.effects ++ _)).length = continueCount (st.effects ++ _) + _
          rw [promptCursors_append, continueCount_append]
          simp only [promptCursors, continueCount, List.append_nil]
          simpa using h.prompts
        idle := by
          intro hw
          have : st.session.awaitingPrompt = true := hw
          rw [hwait] at this
          cases this
        delivered := by
          show deliveredFiles (st.effects ++ _) ++ _ = _
          rw [deliveredFiles_append]
          simp only [deliveredFiles, List.filterMap_cons, List.filterMap_nil, List.append_nil]
          exact h.delivered }

/-- The settlement of the pending job, then the rest of `enqueueNextTrack`: the job is logged
as settled and at most the next track is submitted. -/
theorem chain_settle (tracks : List String) (st : BotState)
    (log : List (String × Settlement)) (h : Chain tracks st log) (i : Nat)
    (outcome : Settlement) (trackUrl : String) (hi : st.inFlight[i]? = some trackUrl) :
    Chain tracks (afterAdd outcome { st with inFlight := st.inFlight.eraseIdx i })
      (log ++ [(trackUrl, outcome)]) := by
  have hlen := h.pending
  have hfl : st.inFlight = [trackUrl] ∧ i = 0 := by
    cases hf : st.inFlight with
    | nil => rw [hf] at hi; simp at hi
    | cons t rest =>
      rw [hf] at hi hlen
      cases rest with
      | nil =>
        cases i with
        | zero => simp at hi; rw [hi]; exact ⟨rfl, rfl⟩
        | succ j => simp at hi
      | cons t2 rest2 => simp at hlen
  have herase : st.inFlight.eraseIdx i = [] := by
    rw [hfl.1, hfl.2]
    rfl
  have hwait : st.session.awaitingPrompt = false := by
    cases hw : st.session.awaitingPrompt with
    | false => rfl
    | true =>
      have := h.idle hw
      rw [hfl.1] at this
      cases this
  rw [herase]
  have hsettled : (log ++ [(trackUrl, outcome)]).map Prod.fst ++ [] =
      submittedTracks st.effects := by
    rw [← h.settled, hfl.1]
    simp
  cases outcome with
  | jobReturned result =>
    cases result with
    | none =>
      have hbase : Chain tracks { st with inFlight := [] }
          (log ++ [(trackUrl, Settlement.jobReturned none)]) :=
        { tracks_eq := h.tracks_eq
          cursor_le := h.cursor_le
          submitted := h.submitted
          pending := Nat.zero_le _
          settled := hsettled
          prompts := h.prompts
          idle := fun _ => rfl
          delivered := by
            rw [returnedItems_append]
            simpa [returnedItems] using h.delivered }
      exact chain_enqueue false tracks _ _ hbase rfl hwait
    | some item =>
      have hbase : Chain tracks
          { st with
            inFlight := []
            session := { st.session with buffer := st.session.buffer ++ [item] } }
          (log ++ [(trackUrl, Settlement.jobReturned (some item))]) :=
        { tracks_eq := h.tracks_eq
          cursor_le := h.cursor_le
          submitted := h.submitted
          pending := Nat.zero_le _
          settled := hsettled
          prompts := h.prompts
          idle := fun _ => rfl
          delivered := by
            rw [returnedItems_append]
            show deliveredFiles st.effects ++ (st.session.buffer ++ [item]).map Item.file = _
            rw [List.map_append, ← List.append_assoc, h.delivered]
            simp [returnedItems] }
      have hsend := chain_send tracks _ _ hbase
      have hframe := sendPlaylistGroup_frame
        { st with
          inFlight := []
          session := { st.session with buffer := st.session.buffer ++ [item] } }
      exact chain_enqueue false tracks _ _ hsend hframe.2.1
        (hframe.2.2.2.2.1.trans hwait)
  | rejected error =>
    have hbase : Chain tracks { st with inFlight := [] }
        (log ++ [(trackUrl, Settlement.rejected error)]) :=
      { tracks_eq := h.tracks_eq
        cursor_le := h.cursor_le
        submitted := h.submitted
        pending := Nat.zero_le _
        settled := hsettled
        prompts := h.prompts
        idle := fun _ => rfl
        delivered := by
          rw [returnedItems_append]
          simpa [returnedItems] using h.delivered }
    have hquiet : ∀ registered, Chain tracks
        { ({ st with inFlight := [] } : BotState) with
          effects := st.effects ++
            ((if shouldNotifyAdmin error then [Effect.notifyAdmins error] else []) ++
              [Effect.reply (formatUserFacingError error)])
          registered := registered }
        (log ++ [(trackUrl, Settlement.rejected error)]) := by
      intro registered
      refine chain_effects tracks _ _ hbase _ ?_ ?_ ?_ ?_ registered
      · split <;> rfl
      · split <;> rfl
      · split <;> rfl
      · split <;> rfl
    simp only [afterAdd, List.append_assoc]
    split
    · exact hquiet false
    · exact chain_enqueue false tracks _ _ (hquiet st.registered) rfl hwait

/-- A button payload keeps the chain, provided a continue is taken only when fewer continues
than prompts were taken before. -/
theorem chain_callback (tracks : List String) (st : BotState)
    (log : List (String × Settlement)) (h : Chain tracks st log)
    (action sessionId : String) (fromId : Option Nat)
    (hone : takesContinue st (BotEvent.callback action sessionId fromId) = true →
      continueCount st.effects < (promptCursors st.effects).length) :
    Chain tracks (handleCallback action sessionId fromId st) log := by
  unfold handleCallback
  split
  · exact chain_effects tracks st log h
      [Effect.answerCallbackQuery CallbackAnswer.sessionExpired] rfl rfl rfl rfl st.registered
  · rename_i hreg
    split
    · exact chain_effects tracks st log h
        [Effect.answerCallbackQuery CallbackAnswer.notYourPlaylist] rfl rfl rfl rfl
        st.registered
    · rename_i howner
      split
      · exact chain_effects tracks st log h
          [Effect.answerCallbackQuery CallbackAnswer.stopped,
            Effect.editMessageText Message.playlistStopped] rfl rfl rfl rfl false
      · split
        · rename_i hstop hcont
          have htakes : takesContinue st (BotEvent.callback action sessionId fromId) = true := by
            simp only [takesContinue]
            simp only [Bool.not_eq_true, Bool.not_eq_false] at hreg
            simp only [bne_iff_ne, ne_eq, not_not] at howner
            simp_all
          have hlt := hone htakes
          have hp := h.prompts
          have hw : st.session.awaitingPrompt = true := by
            cases hw : st.session.awaitingPrompt with
            | true => rfl
            | false =>
              rw [hw] at hp
              simp at hp
              omega
          have hidle := h.idle hw
          rw [hw] at hp
          have hbase : Chain tracks
              { st with
                session := { st.session with awaitingPrompt := false }
                effects := st.effects ++
                  [Effect.answerCallbackQuery CallbackAnswer.continuing] } log :=
            { tracks_eq := h.tracks_eq
              cursor_le := h.cursor_le
              submitted := by
                show submittedTracks (st.effects ++ _) = _
                rw [submittedTracks_append]
                simp only [submittedTracks, List.append_nil]
                exact h.submitted
              pending := h.pending
              settled := by
                show _ = submittedTracks (st.effects ++ _)
                rw [submittedTracks_append]
                simp only [submittedTracks, List.append_nil]
                exact h.settled
              prompts := by
                show (promptCursors (st.effects ++ _)).length =
                  continueCount (st.effects ++ _) + _
                rw [promptCursors_append, continueCount_append]
                simp [promptCursors, continueCount] at hp ⊢
                exact hp
              idle := fun _ => hidle
              delivered := by
                show deliveredFiles (st.effects ++ _) ++ _ = _
                rw [deliveredFiles_append]
                simp only [deliveredFiles, List.filterMap_cons, List.filterMap_nil,
                  List.append_nil]
                exact h.delivered }
          exact chain_enqueue true tracks _ _ hbase hidle rfl
        · exact h

theorem chain_initial (userId : Nat) (sessionId : String) (entries : List String) :
    Chain entries (handlePlaylistRequest userId sessionId entries) [] := by
  unfold handlePlaylistRequest
  split
  · rename_i hempty
    have he : entries = [] := by
      cases entries with
      | nil => rfl
      | cons t ts => simp at hempty
    subst he
    exact
      { tracks_eq := rfl
        cursor_le := Nat.le_refl _
        submitted := rfl
        pending := Nat.zero_le _
        settled := rfl
        prompts := rfl
        idle := fun _ => rfl
        delivered := rfl }
  · refine chain_enqueue false entries _ [] ?_ rfl rfl
    exact
      { tracks_eq := rfl
        cursor_le := Nat.zero_le _
        submitted := rfl
        pending := Nat.zero_le _
        settled := rfl
        prompts := rfl
        idle := fun _ => rfl
        delivered := rfl }

theorem chain_run (tracks : List String) (events : List BotEvent) :
    ∀ (st : BotState) (log : List (String × Settlement)), Chain tracks st log →
      answeredAtMostOnce st events = true →
      Chain tracks (runEvents st events) (log ++ settlements st events) := by
  induction events with
  | nil =>
    intro st log h _
    simpa [runEvents, settlements] using h
  | cons event rest ih =>
    intro st log h hone
    simp only [answeredAtMostOnce, Bool.and_eq_true, Bool.or_eq_true, Bool.not_eq_true',
      decide_eq_true_eq] at hone
    have hstep : Chain tracks (step st event) (log ++ settlementOf st event) := by
      cases event with
      | settled i outcome =>
        simp only [step, settlementOf]
        by_cases hi : i < st.inFlight.length
        · rw [if_pos hi, List.getElem?_eq_getElem hi]
          exact chain_settle tracks st log h i outcome _ (List.getElem?_eq_getElem hi)
        · rw [if_neg hi, List.getElem?_eq_none (by omega)]
          simpa using h
      | callback action sessionId fromId =>
        simp only [step, settlementOf, List.append_nil]
        refine chain_callback tracks st log h action sessionId fromId (fun htakes => ?_)
        rcases hone.1 with hno | hlt
        · rw [htakes] at hno
          cases hno
        · exact hlt
    have := ih (step st event) _ hstep hone.2
    simpa [runEvents, settlements, List.append_assoc] using this

theorem answeredAtMostOnce_take (events : List BotEvent) :
    ∀ (st : BotState) (k : Nat), answeredAtMostOnce st events = true →
      answeredAtMostOnce st (events.take k) = true := by
  induction events with
  | nil =>
    intro st k h
    simpa using h
  | cons event rest ih =>
    intro st k h
    cases k with
    | zero => rfl
    | succ j =>
      simp only [answeredAtMostOnce, Bool.and_eq_true] at h
      simp only [List.take_succ_cons, answeredAtMostOnce, Bool.and_eq_true]
      exact ⟨h.1, ih (step st event) j h.2⟩

theorem flushed_effects (st : BotState) (sent : List Item) (h : Flushed st sent)
    (xs : List Effect) (hd : deliveredFiles xs = []) (registered : Bool)
    (hr : registered = true → st.registered = true) :
    Flushed { st with effects := st.effects ++ xs, registered := registered } sent where
  empty := fun hreg => h.empty (hr hreg)
  sent_eq := by
    show deliveredFiles (st.effects ++ xs) = _
    rw [deliveredFiles_append, hd, List.append_nil]
    exact h.sent_eq

theorem flushed_enqueue (force : Bool) (st : BotState) (sent : List Item)
    (h : Flushed st sent) : Flushed (enqueueNextTrack force st) sent := by
  rcases enqueueNextTrack_cases force st with
    hsame | ⟨hreg, _, hdone⟩ | ⟨_, _, _, _, hpause⟩ | ⟨_, _, trackUrl, _, hsubmit⟩
  · rw [hsame]
    exact h
  · rw [hdone]
    have hbuf := h.empty hreg
    have hS : (if st.session.buffer.length != 0 then sendPlaylistGroup st else st) = st := by
      simp [hbuf]
    rw [hS]
    exact flushed_effects st sent h [Effect.reply Message.playlistDone] rfl false
      (fun hf => Bool.noConfusion hf)
  · rw [hpause]
    exact
      { empty := h.empty
        sent_eq := by
          show deliveredFiles (st.effects ++ _) = _
          rw [deliveredFiles_append]
          simp only [deliveredFiles, List.filterMap_cons, List.filterMap_nil, List.append_nil]
          exact h.sent_eq }
  · rw [hsubmit]
    exact
      { empty := h.empty
        sent_eq := by
          show deliveredFiles (st.effects ++ _) = _
          rw [deliveredFiles_append]
          simp only [deliveredFiles, List.filterMap_cons, List.filterMap_nil, List.append_nil]
          exact h.sent_eq }

/-- The body of a job that returned a result: a result that reaches a registered session is
sent at once, as the only document of that delivery, and leaves the buffer empty; one that
reaches a removed session is buffered and not sent. -/
theorem flushed_jobBody (st : BotState) (sent : List Item) (item : Item)
    (h : Flushed st sent) :
    Flushed (jobBody (some item) st) (sent ++ if st.registered then [item] else []) := by
  cases hreg : st.registered with
  | false =>
    have hj : jobBody (some item) st =
        { st with session := { st.session with buffer := st.session.buffer ++ [item] } } := by
      simp [jobBody, sendPlaylistGroup, hreg]
    rw [hj]
    simp only [Bool.false_eq_true, if_false, List.append_nil]
    exact
      { empty := fun hr => by
          have : st.registered = true := hr
          rw [hreg] at this
          cases this
        sent_eq := h.sent_eq }
  | true =>
    have hbuf := h.empty hreg
    have hj : jobBody (some item) st =
        { st with
          session := { st.session with buffer := [] }
          effects := st.effects ++ ([item].map deliverItem).flatten } := by
      simp [jobBody, sendPlaylistGroup, hreg, hbuf]
    rw [hj]
    simp only [if_true]
    exact
      { empty := fun _ => rfl
        sent_eq := by
          show deliveredFiles (st.effects ++ ([item].map deliverItem).flatten) = _
          rw [deliveredFiles_append, (deliveries_observed [item]).2.2.2, List.map_append,
            h.sent_eq] }

/-- The settlement of a pending job, then the rest of `enqueueNextTrack`. -/
theorem flushed_settle (st : BotState) (sent : List Item) (h : Flushed st sent) (i : Nat)
    (outcome : Settlement) (hi : i < st.inFlight.length) :
    Flushed (afterAdd outcome { st with inFlight := st.inFlight.eraseIdx i })
      (sent ++ deliverableOf st (BotEvent.settled i outcome)) := by
  have hbase : Flushed { st with inFlight := st.inFlight.eraseIdx i } sent :=
    ⟨h.empty, h.sent_eq⟩
  cases outcome with
  | jobReturned result =>
    cases result with
    | none =>
      have heq : deliverableOf st (BotEvent.settled i (Settlement.jobReturned none)) = [] := rfl
      rw [heq, List.append_nil]
      exact flushed_enqueue false _ sent hbase
    | some item =>
      have heq : deliverableOf st (BotEvent.settled i (Settlement.jobReturned (some item))) =
          if st.registered then [item] else [] := by
        simp [deliverableOf, hi]
      rw [heq]
      exact flushed_enqueue false _ _ (flushed_jobBody _ sent item hbase)
  | rejected error =>
    have heq : deliverableOf st (BotEvent.settled i (Settlement.rejected error)) = [] := rfl
    rw [heq, List.append_nil]
    have hquiet : ∀ registered, (registered = true → st.registered = true) → Flushed
        { ({ st with inFlight := st.inFlight.eraseIdx i } : BotState) with
          effects := st.effects ++
            ((if shouldNotifyAdmin error then [Effect.notifyAdmins error] else []) ++
              [Effect.reply (formatUserFacingError error)])
          registered := registered } sent := by
      intro registered hr
      refine flushed_effects { st with inFlight := st.inFlight.eraseIdx i } sent hbase _ ?_
        registered hr
      split <;> rfl
    simp only [afterAdd, List.append_assoc]
    split
    · exact hquiet false (fun hf => Bool.noConfusion hf)
    · exact flushed_enqueue false _ sent (hquiet st.registered id)

theorem flushed_callback (st : BotState) (sent : List Item) (h : Flushed st sent)
    (action sessionId : String) (fromId : Option Nat) :
    Flushed (handleCallback action sessionId fromId st) sent := by
  unfold handleCallback
  split
  · exact flushed_effects st sent h
      [Effect.answerCallbackQuery CallbackAnswer.sessionExpired] rfl st.registered id
  · split
    · exact flushed_effects st sent h
        [Effect.answerCallbackQuery CallbackAnswer.notYourPlaylist] rfl st.registered id
    · split
      · exact flushed_effects st sent h
          [Effect.answerCallbackQuery CallbackAnswer.stopped,
            Effect.editMessageText Message.playlistStopped] rfl false
          (fun hf => Bool.noConfusion hf)
      · split
        · refine flushed_enqueue true _ sent ?_
          exact
            { empty := h.empty
              sent_eq := by
                show deliveredFiles (st.effects ++ _) = _
                rw [deliveredFiles_append]
                simp only [deliveredFiles, List.filterMap_cons, List.filterMap_nil,
                  List.append_nil]
                exact h.sent_eq }
        · exact h

theorem flushed_initial (userId : Nat) (sessionId : String) (entries : List String) :
    Flushed (handlePlaylistRequest userId sessionId entries) [] := by
  unfold handlePlaylistRequest
  split
  · exact { empty := fun _ => rfl, sent_eq := rfl }
  · exact flushed_enqueue false _ [] { empty := fun _ => rfl, sent_eq := rfl }

/-- Along any events, a registered session has nothing buffered and the documents sent are
the results handed to the session while it was registered. -/
theorem flushed_run (events : List BotEvent) :
    ∀ (st : BotState) (sent : List Item), Flushed st sent →
      Flushed (runEvents st events) (sent ++ resultsWhileRegistered st events) := by
  induction events with
  | nil =>
    intro st sent h
    simpa [runEvents, resultsWhileRegistered] using h
  | cons event rest ih =>
    intro st sent h
    have hstep : Flushed (step st event) (sent ++ deliverableOf st event) := by
      cases event with
      | settled i outcome =>
        by_cases hi : i < st.inFlight.length
        · simp only [step, if_pos hi]
          exact flushed_settle st sent h i outcome hi
        · have hnone : deliverableOf st (BotEvent.settled i outcome) = [] := by
            cases outcome with
            | jobReturned result =>
              cases result with
              | none => rfl
              | some item => simp [deliverableOf, hi]
            | rejected error => rfl
          simp only [step, if_neg hi, hnone, List.append_nil]
          exact h
      | callback action sessionId fromId =>
        simp only [step, deliverableOf, List.append_nil]
        exact flushed_callback st sent h action sessionId fromId
    have := ih (step st event) _ hstep
    simpa [runEvents, resultsWhileRegistered, List.append_assoc] using this

/-- The condition on the continues is needed: a second continue on the same prompt starts a
second chain, and two jobs of the session are pending at once. -/
theorem second_continue_starts_second_chain :
    answeredAtMostOnce (handlePlaylistRequest 7 "7-1" (sampleTracks 25))
      (List.replicate 10 (BotEvent.settled 0 (Settlement.jobReturned none)) ++
        [BotEvent.callback "cont" "7-1" (some 7), BotEvent.callback "cont" "7-1" (some 7)])
      = false ∧
    (runEvents (handlePlaylistRequest 7 "7-1" (sampleTracks 25))
      (List.replicate 10 (BotEvent.settled 0 (Settlement.jobReturned none)) ++
        [BotEvent.callback "cont" "7-1" (some 7),
          BotEvent.callback "cont" "7-1" (some 7)])).inFlight = ["t10", "t11"] := by
  decide

/-- C24: a session driven by a single scheduling chain (whenever the handler takes a
continue, fewer continues than prompts were taken before) is sequential.  At any time, that
is after any number `k` of the events: at most one job of the session is pending; the tracks
given to the queue are the tracks before the cursor, in playlist order; they are the tracks
whose job has settled, in the order of settlement, followed by the pending one, so a track is
given to the queue only after the job of the track before it has settled; the results
returned so far, in that order, are the documents delivered followed by the results still
buffered; the documents delivered are exactly the results that reached the session while it
was registered, each sent when it arrived; and a registered session has nothing left in its
buffer. -/
theorem single_chain_is_sequential (userId : Nat) (sessionId : String)
    (entries : List String) (events : List BotEvent)
    (hchain : answeredAtMostOnce (handlePlaylistRequest userId sessionId entries) events = true)
    (k : Nat) :
    (runEvents (handlePlaylistRequest userId sessionId entries) (events.take k)).inFlight.length
      ≤ 1 ∧
    submittedTracks
        (runEvents (handlePlaylistRequest userId sessionId entries) (events.take k)).effects =
      entries.take
        (runEvents (handlePlaylistRequest userId sessionId entries)
          (events.take k)).session.nextIndex ∧
    (settlements (handlePlaylistRequest userId sessionId entries) (events.take k)).map Prod.fst
        ++ (runEvents (handlePlaylistRequest userId sessionId entries) (events.take k)).inFlight =
      submittedTracks
        (runEvents (handlePlaylistRequest userId sessionId entries) (events.take k)).effects ∧
    deliveredFiles
        (runEvents (handlePlaylistRequest userId sessionId entries) (events.take k)).effects ++
      (runEvents (handlePlaylistRequest userId sessionId entries)
        (events.take k)).session.buffer.map Item.file =
      (returnedItems
        (settlements (handlePlaylistRequest userId sessionId entries) (events.take k))).map
        Item.file ∧
    deliveredFiles
        (runEvents (handlePlaylistRequest userId sessionId entries) (events.take k)).effects =
      (resultsWhileRegistered (handlePlaylistRequest userId sessionId entries)
        (events.take k)).map Item.file ∧
    ((runEvents (handlePlaylistRequest userId sessionId entries) (events.take k)).registered
        = true →
      (runEvents (handlePlaylistRequest userId sessionId entries)
        (events.take k)).session.buffer = []) := by
  have h := chain_run entries (events.take k) _ []
    (chain_initial userId sessionId entries)
    (answeredAtMostOnce_take events _ k hchain)
  have hf := flushed_run (events.take k) _ [] (flushed_initial userId sessionId entries)
  rw [List.nil_append] at h hf
  exact ⟨h.pending, h.submitted, h.settled, h.delivered, hf.sent_eq, hf.empty⟩

/-- Witness of C24: the sample events on a session of 12 tracks of user 7, all twelve of
them taken: the two results returned were sent as documents, in the order of their tracks,
the job of the last track is pending and nothing is buffered. -/
theorem single_chain_is_sequential_witness :
    answeredAtMostOnce (handlePlaylistRequest 7 "7-1" (sampleTracks 12)) chainEvents = true ∧
    ((runEvents (handlePlaylistRequest 7 "7-1" (sampleTracks 12))
      (chainEvents.take 12)).inFlight.length ≤ 1 ∧
    submittedTracks
        (runEvents (handlePlaylistRequest 7 "7-1" (sampleTracks 12))
          (chainEvents.take 12)).effects =
      (sampleTracks 12).take
        (runEvents (handlePlaylistRequest 7 "7-1" (sampleTracks 12))
          (chainEvents.take 12)).session.nextIndex ∧
    (settlements (handlePlaylistRequest 7 "7-1" (sampleTracks 12))
        (chainEvents.take 12)).map Prod.fst
        ++ (runEvents (handlePlaylistRequest 7 "7-1" (sampleTracks 12))
          (chainEvents.take 12)).inFlight =
      submittedTracks
        (runEvents (handlePlaylistRequest 7 "7-1" (sampleTracks 12))
          (chainEvents.take 12)).effects ∧
    deliveredFiles
        (runEvents (handlePlaylistRequest 7 "7-1" (sampleTracks 12))
          (chainEvents.take 12)).effects ++
      (runEvents (handlePlaylistRequest 7 "7-1" (sampleTracks 12))
        (chainEvents.take 12)).session.buffer.map Item.file =
      (returnedItems
        (settlements (handlePlaylistRequest 7 "7-1" (sampleTracks 12))
          (chainEvents.take 12))).map Item.file ∧
    deliveredFiles
        (runEvents (handlePlaylistRequest 7 "7-1" (sampleTracks 12))
          (chainEvents.take 12)).effects =
      (resultsWhileRegistered (handlePlaylistRequest 7 "7-1" (sampleTracks 12))
        (chainEvents.take 12)).map Item.file ∧
    ((runEvents (handlePlaylistRequest 7 "7-1" (sampleTracks 12))
        (chainEvents.take 12)).registered = true →
      (runEvents (handlePlaylistRequest 7 "7-1" (sampleTracks 12))
        (chainEvents.take 12)).session.buffer = [])) ∧
    deliveredFiles
        (runEvents (handlePlaylistRequest 7 "7-1" (sampleTracks 12))
          (chainEvents.take 12)).effects =
      [({ dir := 1, name := "a.mp3" }, "a.mp3"), ({ dir := 2, name := "b.mp3" }, "b.mp3")] ∧
    (settlements (handlePlaylistRequest 7 "7-1" (sampleTracks 12))
        (chainEvents.take 12)).map Prod.fst = (sampleTracks 12).take 11 ∧
    (runEvents (handlePlaylistRequest 7 "7-1" (sampleTracks 12))
      (chainEvents.take 12)).inFlight = ["t11"] ∧
    (runEvents (handlePlaylistRequest 7 "7-1" (sampleTracks 12))
      (chainEvents.take 12)).registered = true :=
  ⟨by decide,
    single_chain_is_sequential 7 "7-1" (sampleTracks 12) chainEvents (by decide) 12,
    by decide, by decide, by decide, by decide⟩

end Bot

/-! ## Properties of utils.js -/

namespace Utils

theorem slice0_of_nonneg (text : JsString) (stop : Int) (h : 0 ≤ stop) :
    slice0 text stop = text.take stop.toNat := by
  unfold slice0
  rw [if_neg (not_lt.mpr h)]

/-- C25: the code evaluated against the claim.  A text of at most `max` code units is
returned unchanged; a longer one, for `max ≥ 1`, gives the first `max - 1` code units of the
text followed by the three code units of the suffix in the file, so the result begins as the
claim says but has `max + 2` code units, two more than `max`. -/
theorem truncate_exceeds_max (text : JsString) (max : Int) :
    truncateDefault text = truncate text 140 ∧
    ((text.length : Int) ≤ max → truncate text max = text) ∧
    (1 ≤ max → max < (text.length : Int) →
      truncate text max = text.take (max - 1).toNat ++ truncateSuffix ∧
      (truncate text max).take (max - 1).toNat = text.take (max - 1).toNat ∧
      ((truncate text max).length : Int) = max + 2) := by
  refine ⟨rfl, fun h => ?_, fun h1 h2 => ?_⟩
  · unfold truncate
    rw [if_pos h]
  · have heq : truncate text max = text.take (max - 1).toNat ++ truncateSuffix := by
      unfold truncate
      rw [if_neg (not_le.mpr h2), slice0_of_nonneg text (max - 1) (by omega)]
    have hlen : (text.take (max - 1).toNat).length = (max - 1).toNat := by
      rw [List.length_take]
      exact Nat.min_eq_left (by omega)
    refine ⟨heq, ?_, ?_⟩
    · rw [heq, List.take_append_of_le_length (le_of_eq hlen.symm)]
      rw [List.take_take, Nat.min_self]
    · rw [heq, List.length_append, hlen]
      have hs : truncateSuffix.length = 3 := rfl
      rw [hs]
      omega

/-- Witness of C25: "hello" cut at 140 is returned as it is; "abcdefgh" cut at 5 begins with
"abcd" and is 7 code units long. -/
theorem truncate_exceeds_max_witness :
    ((((ofAscii "hello").length : Nat) : Int) ≤ 140 ∧
      truncate (ofAscii "hello") 140 = ofAscii "hello") ∧
    ((1 : Int) ≤ 5 ∧ (5 : Int) < (((ofAscii "abcdefgh").length : Nat) : Int) ∧
      truncate (ofAscii "abcdefgh") 5 = ofAscii "abcd" ++ [0xE2, 0x20AC, 0xA6] ∧
      ((truncate (ofAscii "abcdefgh") 5).length : Int) = 5 + 2) :=
  ⟨⟨by decide, (truncate_exceeds_max (ofAscii "hello") 140).2.1 (by decide)⟩,
    by decide, by decide,
    ((truncate_exceeds_max (ofAscii "abcdefgh") 5).2.2 (by decide) (by decide)).1,
    ((truncate_exceeds_max (ofAscii "abcdefgh") 5).2.2 (by decide) (by decide)).2.2⟩

end Utils

end Keson
